import Mathlib

/-!
Shallow embedding of the continuum-digital-twin simulation core
(src/base_simulator.py, src/google/google.py, src/facebook/facebook.py,
src/linkedin/linkedin.py, src/ad_simulator.py) and proofs about it.

Modelling conventions:
* Python floats are modelled as rationals (ℚ); Python `int(x)` truncation
  toward zero is `pyInt`.
* The `random` module is modelled as an abstract stream `ρ : ℕ → ℚ` of draws
  in `[0, 1]` together with an explicit position that advances by one for each
  call into the module; `random.uniform a b` returns `a + (b - a) * ρ k`.
  Calls such as `random.random()` read the raw draw, and `random.randint` /
  `random.choice` consume one draw each.
* Dictionary fields read with `.get(key, default)` are modelled as `Option`
  fields resolved with `Option.getD` at the use site, mirroring the source.
* The reach-engine's post-hoc auxiliary analytics (platform breakdown,
  auction insights, time-series decoration, ML optimisation) are
  reporting-only decorations of the stored results and are omitted; the
  core metric generation is embedded in full.
* Wall-clock dates only influence the professional-network engine through
  the weekday factor; the starting weekday is taken as an explicit input.
-/

namespace ContinuumAds

/-- Stream of raw random draws; position `k` holds the value returned by the
`k`-th call into Python's `random` module, normalised to `[0,1]`. -/
abbrev Rng := ℕ → ℚ

/-- Well-formedness of a draw stream: every raw draw lies in `[0, 1]`. -/
def Unit01 (ρ : Rng) : Prop := ∀ n, 0 ≤ ρ n ∧ ρ n ≤ 1

/-- Model of `random.uniform(a, b)` evaluated on draw `k`. -/
def uniform (ρ : Rng) (k : ℕ) (a b : ℚ) : ℚ := a + (b - a) * ρ k

/-- Model of Python `int(q)`: truncation toward zero. -/
def pyInt (q : ℚ) : ℤ := if 0 ≤ q then ⌊q⌋ else -⌊-q⌋

/-- Model of `random.randint(a, b)` evaluated on draw `k` (an integer in
`[a, b]`; the clamp covers the boundary draw `ρ k = 1`). -/
def randint (ρ : Rng) (k : ℕ) (a b : ℤ) : ℤ :=
  min (a + pyInt ((b - a + 1) * ρ k)) b

/-! ### Shared result shapes (base_simulator.py) -/

/-- Per-campaign metrics dictionary stored by the search and reach engines
(`impressions/clicks/conversions/spend/ctr/cpa/roas`). -/
structure CampaignMetrics where
  impressions : ℤ
  clicks : ℤ
  conversions : ℤ
  spend : ℚ
  ctr : ℚ
  cpa : ℚ
  roas : ℚ

/-- Per-campaign metrics dictionary stored by the professional-network engine
(no `roas` key). -/
structure LinkedInCampaignMetrics where
  impressions : ℤ
  clicks : ℤ
  conversions : ℤ
  spend : ℚ
  ctr : ℚ
  cpa : ℚ

/-- The `total_metrics` map of a platform results envelope. -/
structure TotalMetrics where
  impressions : ℤ
  clicks : ℤ
  conversions : ℤ
  spend : ℚ
  ctr : ℚ
  cpa : ℚ

/-- Audience record kept by `BaseAdSimulator.define_audience` (the fields the
simulation loops read). -/
structure Audience where
  size : ℚ
  ctrBase : ℚ
  convRate : ℚ

/-! ### Search/auction engine data model (google.py) -/

/-- A keyword as stored by `GoogleAdsSimulator.add_keyword`. -/
structure Keyword where
  text : String
  matchType : String
  bid : ℚ
  qualityScore : ℚ
  firstPageBid : ℚ

/-- An ad group (`create_ad_group`); `adFormat` is `data.get("ad_format", ...)`. -/
structure AdGroup where
  status : String
  adFormat : Option String
  keywords : List Keyword

/-- A search-engine campaign; optional fields mirror `data.get(...)` reads. -/
structure GoogleCampaign where
  id : String
  status : String
  dailyBudget : Option ℚ
  convValue : Option ℚ
  adGroups : List AdGroup

/-- The `ad_formats` table of the search engine:
`(ctr_multiplier, cpc_base)` with fallback to `"search"`. -/
def googleAdFormats (f : String) : ℚ × ℚ :=
  if f = "search" then (1, 1/2)
  else if f = "display" then (3/10, 1/5)
  else if f = "video" then (1/2, 7/10)
  else if f = "shopping" then (6/5, 3/5)
  else (1, 1/2)

/-- Match-type multiplier table (`exact=1, phrase=2, broad=4`, default 1). -/
def matchTypeMultiplier (m : String) : ℚ :=
  if m = "exact" then 1
  else if m = "phrase" then 2
  else if m = "broad" then 4
  else 1

/-- `GoogleAdsSimulator._calculate_actual_cpc`. -/
def calculateActualCpc (competitorAdRank qualityScore bid : ℚ) : ℚ :=
  if qualityScore = 0 then bid else competitorAdRank / qualityScore + 1/100

/-- Model of `add_keyword`: the quality score is one `randint(1, 10)` draw and
`first_page_bid` one `uniform(0.5, 3.0)` draw, both fixed in the stored
keyword object; returns the keyword and the advanced stream position. -/
def addKeywordObj (text matchType : String) (bid : ℚ) (ρ : Rng) (pos : ℕ) :
    Keyword × ℕ :=
  (⟨text, matchType, bid, (randint ρ pos 1 10 : ℤ), uniform ρ (pos + 1) (1/2) 3⟩,
    pos + 2)

/-- Observable record of one keyword evaluation on one day
(google.py lines 361–410).  `raw*` fields hold the values before the
daily-budget check; the unprefixed fields are the recorded ones. -/
structure KwRec where
  keyword : Keyword
  qualityUsed : ℚ
  rawImpressions : ℤ
  rawClicks : ℤ
  rawConversions : ℤ
  rawSpend : ℚ
  impressions : ℤ
  clicks : ℤ
  conversions : ℤ
  spend : ℚ
  scaled : Bool

/-- Accumulator for one simulated day (daily impressions/clicks/conversions/
spend plus the stream position). -/
structure DayAcc where
  impressions : ℤ
  clicks : ℤ
  conversions : ℤ
  spend : ℚ
  pos : ℕ

/-- Raw daily impressions of a keyword (google.py line 374):
`int(quality * match_type_multiplier * uniform(10, 50))`. -/
def googleKwImpressions (kw : Keyword) (ρ : Rng) (pos : ℕ) : ℤ :=
  pyInt (kw.qualityScore * matchTypeMultiplier kw.matchType * uniform ρ pos 10 50)

/-- Effective keyword CTR (google.py lines 377–378):
`0.05 * (quality / 10) * format_ctr_multiplier`. -/
def googleActualCtr (ctrMult : ℚ) (kw : Keyword) : ℚ :=
  1/20 * (kw.qualityScore / 10) * ctrMult

/-- Raw daily clicks of a keyword (google.py line 381). -/
def googleKwClicks (ctrMult : ℚ) (kw : Keyword) (ρ : Rng) (pos : ℕ) : ℤ :=
  pyInt ((googleKwImpressions kw ρ pos : ℚ) * googleActualCtr ctrMult kw)

/-- Actual CPC of a keyword evaluation (google.py lines 385–386): the
competitor ad rank is `uniform(1,10) * uniform(0.5,2.0)`. -/
def googleKwCpc (kw : Keyword) (ρ : Rng) (pos : ℕ) : ℚ :=
  calculateActualCpc (uniform ρ (pos + 1) 1 10 * uniform ρ (pos + 2) (1/2) 2)
    kw.qualityScore kw.bid

/-- Raw daily spend of a keyword (google.py line 389). -/
def googleKwSpend (ctrMult : ℚ) (kw : Keyword) (ρ : Rng) (pos : ℕ) : ℚ :=
  (googleKwClicks ctrMult kw ρ pos : ℚ) * googleKwCpc kw ρ pos

/-- Raw daily conversions of a keyword (google.py lines 392–393):
`int(clicks * 0.02 * (quality / 10))`. -/
def googleKwConversions (ctrMult : ℚ) (kw : Keyword) (ρ : Rng) (pos : ℕ) : ℤ :=
  pyInt ((googleKwClicks ctrMult kw ρ pos : ℚ) * (1/50 * (kw.qualityScore / 10)))

/-- Budget-scaling ratio of google.py line 397: remaining daily budget over
the keyword's would-be spend. -/
def googleSpendScale (ctrMult dailyBudget dailySpend : ℚ) (kw : Keyword)
    (ρ : Rng) (pos : ℕ) : ℚ :=
  (dailyBudget - dailySpend) / googleKwSpend ctrMult kw ρ pos

/-- One keyword evaluation (google.py lines 361–400), consuming three draws;
when the daily budget would be exceeded, clicks and conversions are scaled by
`googleSpendScale` and spend is capped at the remaining budget, while
impressions are recorded unscaled. -/
def googleKeywordStep (ctrMult dailyBudget dailySpend : ℚ) (kw : Keyword)
    (ρ : Rng) (pos : ℕ) : KwRec × ℕ :=
  if dailySpend + googleKwSpend ctrMult kw ρ pos > dailyBudget then
    (⟨kw, kw.qualityScore, googleKwImpressions kw ρ pos,
      googleKwClicks ctrMult kw ρ pos, googleKwConversions ctrMult kw ρ pos,
      googleKwSpend ctrMult kw ρ pos, googleKwImpressions kw ρ pos,
      pyInt ((googleKwClicks ctrMult kw ρ pos : ℚ)
        * googleSpendScale ctrMult dailyBudget dailySpend kw ρ pos),
      pyInt ((googleKwConversions ctrMult kw ρ pos : ℚ)
        * googleSpendScale ctrMult dailyBudget dailySpend kw ρ pos),
      dailyBudget - dailySpend, true⟩, pos + 3)
  else
    (⟨kw, kw.qualityScore, googleKwImpressions kw ρ pos,
      googleKwClicks ctrMult kw ρ pos, googleKwConversions ctrMult kw ρ pos,
      googleKwSpend ctrMult kw ρ pos, googleKwImpressions kw ρ pos,
      googleKwClicks ctrMult kw ρ pos, googleKwConversions ctrMult kw ρ pos,
      googleKwSpend ctrMult kw ρ pos, false⟩, pos + 3)

/-- Keyword loop of one ad group on one day; after accumulating a keyword the
loop stops (`break`) once the daily spend has reached the daily budget. -/
def googleKeywordLoop (ctrMult dailyBudget : ℚ) (ρ : Rng) :
    List Keyword → DayAcc → List KwRec × DayAcc
  | [], acc => ([], acc)
  | kw :: rest, acc =>
    let s := googleKeywordStep ctrMult dailyBudget acc.spend kw ρ acc.pos
    let acc' : DayAcc := ⟨acc.impressions + s.1.impressions,
      acc.clicks + s.1.clicks, acc.conversions + s.1.conversions,
      acc.spend + s.1.spend, s.2⟩
    if acc'.spend ≥ dailyBudget then ([s.1], acc')
    else
      let t := googleKeywordLoop ctrMult dailyBudget ρ rest acc'
      (s.1 :: t.1, t.2)

/-- Ad-group loop of one day: inactive ad groups are skipped (recorded as an
empty list of keyword records); the daily accumulator carries over, so a
later ad group still runs even after an earlier one exhausted the budget. -/
def googleAdGroupsDay (dailyBudget : ℚ) (ρ : Rng) :
    List AdGroup → DayAcc → List (List KwRec) × DayAcc
  | [], acc => ([], acc)
  | g :: rest, acc =>
    if g.status = "active" then
      let ctrMult := (googleAdFormats (g.adFormat.getD "search")).1
      let t := googleKeywordLoop ctrMult dailyBudget ρ g.keywords acc
      let u := googleAdGroupsDay dailyBudget ρ rest t.2
      (t.1 :: u.1, u.2)
    else
      let u := googleAdGroupsDay dailyBudget ρ rest acc
      ([] :: u.1, u.2)

/-- Trace of one simulated day of a search-engine campaign: the keyword
records grouped per ad group, plus the accumulated daily metrics. -/
structure GoogleDayRec where
  groups : List (List KwRec)
  impressions : ℤ
  clicks : ℤ
  conversions : ℤ
  spend : ℚ

/-- Campaign-level accumulator (campaign metrics plus stream position). -/
structure CampAcc where
  impressions : ℤ
  clicks : ℤ
  conversions : ℤ
  spend : ℚ
  pos : ℕ

/-- Day loop of a search-engine campaign: each day starts a fresh daily
accumulator, accumulates into the campaign, and the loop stops (`break`)
once campaign spend has reached `daily_budget * days`. -/
def googleCampaignDays (dailyBudget campaignBudget : ℚ) (groups : List AdGroup)
    (ρ : Rng) : ℕ → CampAcc → List GoogleDayRec × CampAcc
  | 0, acc => ([], acc)
  | n + 1, acc =>
    let t := googleAdGroupsDay dailyBudget ρ groups ⟨0, 0, 0, 0, acc.pos⟩
    let d := t.2
    let dayRec : GoogleDayRec := ⟨t.1, d.impressions, d.clicks, d.conversions, d.spend⟩
    let acc' : CampAcc := ⟨acc.impressions + d.impressions, acc.clicks + d.clicks,
      acc.conversions + d.conversions, acc.spend + d.spend, d.pos⟩
    if acc'.spend ≥ campaignBudget then ([dayRec], acc')
    else
      let u := googleCampaignDays dailyBudget campaignBudget groups ρ n acc'
      (dayRec :: u.1, u.2)

/-- Full trace of one processed search-engine campaign, including the budget
values the run resolved and the stored metrics entry. -/
structure GoogleCampaignTrace where
  id : String
  dailyBudget : ℚ
  campaignBudget : ℚ
  days : List GoogleDayRec
  metrics : CampaignMetrics

/-- Engine-level accumulator of the search engine's campaign loop. -/
structure GoogleAcc where
  entries : List (String × CampaignMetrics)
  traces : List GoogleCampaignTrace
  impressions : ℤ
  clicks : ℤ
  conversions : ℤ
  spend : ℚ
  pos : ℕ

/-- Processing of one active search-engine campaign (google.py lines
329–437): runs the day loop from a zeroed campaign accumulator and appends
the stored metrics entry — with zero-guarded `ctr`, `cpa` and `roas` — and
the campaign trace to the engine accumulator. -/
def googleProcessCampaign (days : ℕ) (ρ : Rng) (c : GoogleCampaign)
    (acc : GoogleAcc) : GoogleAcc :=
  let dailyBudget := c.dailyBudget.getD 100
  let campaignBudget := dailyBudget * days
  let t := googleCampaignDays dailyBudget campaignBudget c.adGroups ρ days
    ⟨0, 0, 0, 0, acc.pos⟩
  let f := t.2
  let m : CampaignMetrics :=
    ⟨f.impressions, f.clicks, f.conversions, f.spend,
      if f.impressions > 0 then (f.clicks : ℚ) / (f.impressions : ℚ) else 0,
      if f.conversions > 0 then f.spend / (f.conversions : ℚ) else 0,
      if f.spend > 0 then ((f.conversions : ℚ) * c.convValue.getD 10) / f.spend
        else 0⟩
  ⟨acc.entries ++ [(c.id, m)],
    acc.traces ++ [⟨c.id, dailyBudget, campaignBudget, t.1, m⟩],
    acc.impressions + f.impressions, acc.clicks + f.clicks,
    acc.conversions + f.conversions, acc.spend + f.spend, f.pos⟩

/-- Campaign loop of `GoogleAdsSimulator._run_platform_simulation`: inactive
campaigns are skipped entirely (no stored entry, no draws). -/
def googleCampaignLoop (days : ℕ) (ρ : Rng) :
    List GoogleCampaign → GoogleAcc → GoogleAcc
  | [], acc => acc
  | c :: rest, acc =>
    if c.status = "active" then
      googleCampaignLoop days ρ rest (googleProcessCampaign days ρ c acc)
    else googleCampaignLoop days ρ rest acc

/-- Results envelope returned by the search engine's `run_simulation`. -/
structure GoogleResults where
  campaigns : List (String × CampaignMetrics)
  totals : TotalMetrics
  traces : List GoogleCampaignTrace
  pos : ℕ

/-- `run_simulation` for the search engine: fresh envelope, platform loop,
then the zero-guarded aggregate `ctr`/`cpa` (written identically by
google.py lines 440–445 and base_simulator.py lines 83–92). -/
def googleRunSimulation (campaigns : List GoogleCampaign) (days : ℕ)
    (ρ : Rng) : GoogleResults :=
  let o := googleCampaignLoop days ρ campaigns ⟨[], [], 0, 0, 0, 0, 0⟩
  { campaigns := o.entries
    totals :=
      ⟨o.impressions, o.clicks, o.conversions, o.spend,
        if o.impressions > 0 then (o.clicks : ℚ) / (o.impressions : ℚ) else 0,
        if o.conversions > 0 then o.spend / (o.conversions : ℚ) else 0⟩
    traces := o.traces
    pos := o.pos }

/-- State of a search-engine instance: its campaign hierarchy and the
`results` attribute left by a previous run (if any). -/
structure GoogleState where
  campaigns : List GoogleCampaign
  results : GoogleResults

/-- `run_simulation` acting on an engine instance: the stored `results`
object is replaced wholesale by a freshly initialized envelope before the
platform loop runs, so the prior `results` value is never read. -/
def googleRunSimulationState (st : GoogleState) (days : ℕ) (ρ : Rng) :
    GoogleState × GoogleResults :=
  let r := googleRunSimulation st.campaigns days ρ
  (⟨st.campaigns, r⟩, r)

/-! ### Reach/placement engine data model (facebook.py)

facebook.py line 245 spells the ad-set loop header of `create_ad` with `{`
instead of `:`; the embedding follows the evident intended code. -/

/-- An ad as stored by `FacebookAdsSimulator.create_ad`. -/
structure MetaAd where
  status : String
  reviewStatus : String
  relevanceScore : ℚ

/-- Model of `create_ad`'s random fields: relevance is one `randint(1, 10)`
draw and the review status one `random.random()` draw (approved iff > 0.1),
both fixed in the stored ad object. -/
def createAdObj (ρ : Rng) (pos : ℕ) : MetaAd × ℕ :=
  (⟨"active", if ρ (pos + 1) > 1/10 then "approved" else "pending_review",
    (randint ρ pos 1 10 : ℤ)⟩, pos + 2)

/-- Targeting block of an ad set, as read by `_calculate_audience_reach`. -/
structure MetaTargeting where
  ageMin : Option ℚ
  ageMax : Option ℚ
  gender : Option String
  locations : List String
  interests : List String

/-- An ad set (`create_ad_set`); optional fields mirror `data.get(...)`. -/
structure MetaAdSet where
  status : String
  budget : Option ℚ
  audience : Option String
  targeting : MetaTargeting
  placements : Option (List String)
  ads : List MetaAd

/-- A reach-engine campaign. -/
structure MetaCampaign where
  id : String
  status : String
  budget : Option ℚ
  objective : Option String
  adSets : List MetaAdSet

/-- One row of the `placement_factors` table. -/
structure PlacementData where
  reachFactor : ℚ
  ctrFactor : ℚ
  cpmBase : ℚ
  platform : String

/-- The `placement_factors` table with fallback to `"feed"`. -/
def placementFactors (p : String) : PlacementData :=
  if p = "feed" then ⟨1, 1, 15/2, "facebook"⟩
  else if p = "marketplace" then ⟨1/2, 6/5, 11/2, "facebook"⟩
  else if p = "video" then ⟨3/5, 9/10, 8, "facebook"⟩
  else if p = "right_column" then ⟨2/5, 3/5, 7/2, "facebook"⟩
  else if p = "search" then ⟨3/10, 3/2, 6, "facebook"⟩
  else if p = "instant_articles" then ⟨2/5, 7/10, 4, "facebook"⟩
  else if p = "instagram_feed" then ⟨9/10, 11/10, 9, "instagram"⟩
  else if p = "instagram_stories" then ⟨7/10, 4/5, 6, "instagram"⟩
  else if p = "instagram_explore" then ⟨3/5, 9/10, 7, "instagram"⟩
  else if p = "instagram_reels" then ⟨6/5, 7/5, 11, "instagram"⟩
  else if p = "instagram_shop" then ⟨1/2, 7/5, 8, "instagram"⟩
  else if p = "instagram_threads" then ⟨4/5, 6/5, 19/2, "instagram"⟩
  else if p = "whatsapp_business" then ⟨3/5, 7/5, 17/2, "whatsapp"⟩
  else if p = "whatsapp_click_to_chat" then ⟨1/2, 8/5, 7, "whatsapp"⟩
  else if p = "whatsapp_status" then ⟨7/10, 13/10, 8, "whatsapp"⟩
  else ⟨1, 1, 15/2, "facebook"⟩

/-- `FacebookAdsSimulator._calculate_audience_reach`: multiplicative reach
model over a 1,000,000 base pool. -/
def calculateAudienceReach (t : MetaTargeting) : ℤ :=
  let ageSpan := t.ageMax.getD 65 - t.ageMin.getD 18
  let ageFactor := min (ageSpan / 50) 1
  let genderFactor : ℚ :=
    if t.gender.getD "" = "male" ∨ t.gender.getD "" = "female" then 1/2 else 1
  let locationFactor := min ((t.locations.length : ℚ) / 5) 1
  let interestFactor := max (1/10) (1 - (t.interests.length : ℚ) * (1/10))
  pyInt (1000000 * ageFactor * genderFactor * locationFactor * interestFactor)

/-- Objective multiplier table of the reach engine (default 0.5). -/
def metaConversionRateMultiplier (objective : String) : ℚ :=
  if objective = "CONVERSIONS" then 1
  else if objective = "TRAFFIC" then 1/2
  else if objective = "ENGAGEMENT" then 3/10
  else if objective = "VIDEO_VIEWS" then 1/5
  else if objective = "BRAND_AWARENESS" then 1/10
  else 1/2

/-- Default audience used when an ad set's audience name is not defined
(facebook.py lines 353–359; only the fields the loop reads). -/
def metaDefaultAudience : Audience := ⟨1000000, 1/50, 1/100⟩

/-- Observable record of one (ad, placement, day) evaluation of the reach
engine (facebook.py lines 390–444).  `raw*` fields hold the values before
the ad-set budget check; conversions are computed from the (possibly
scaled) clicks. -/
structure MetaDayRec where
  ad : MetaAd
  relevanceUsed : ℚ
  rawImpressions : ℤ
  rawClicks : ℤ
  rawSpend : ℚ
  impressions : ℤ
  clicks : ℤ
  conversions : ℤ
  spend : ℚ
  scaled : Bool

/-- Ad-set-level accumulator (metrics plus stream position). -/
structure AdSetAcc where
  impressions : ℤ
  clicks : ℤ
  conversions : ℤ
  spend : ℚ
  pos : ℕ

/-- Daily reach of an ad-placement pair (facebook.py line 399):
`int(potential_reach * reach_factor * uniform(0.8, 1.2) / 30)`. -/
def metaDailyReach (potentialReach : ℤ) (pd : PlacementData) (ρ : Rng)
    (pos : ℕ) : ℤ :=
  pyInt ((potentialReach : ℚ) * pd.reachFactor * uniform ρ pos (4/5) (6/5) / 30)

/-- Raw daily impressions (facebook.py line 400): daily reach with a ±20%
variance draw. -/
def metaRawImpressions (potentialReach : ℤ) (pd : PlacementData) (ρ : Rng)
    (pos : ℕ) : ℤ :=
  pyInt ((metaDailyReach potentialReach pd ρ pos : ℚ)
    * (1 + uniform ρ (pos + 1) (-(1/5)) (1/5)))

/-- Daily CTR (facebook.py lines 403–404): audience base CTR, placement
factor and ad relevance with a ±30% variance draw. -/
def metaDailyCtr (aud : Audience) (pd : PlacementData) (ad : MetaAd) (ρ : Rng)
    (pos : ℕ) : ℚ :=
  aud.ctrBase * pd.ctrFactor * (ad.relevanceScore / 10)
    * (1 + uniform ρ (pos + 2) (-(3/10)) (3/10))

/-- Raw daily clicks (facebook.py line 407). -/
def metaRawClicks (aud : Audience) (potentialReach : ℤ) (pd : PlacementData)
    (ad : MetaAd) (ρ : Rng) (pos : ℕ) : ℤ :=
  pyInt ((metaRawImpressions potentialReach pd ρ pos : ℚ)
    * metaDailyCtr aud pd ad ρ pos)

/-- Daily CPM (facebook.py lines 410–411): placement base CPM scaled by
relevance with a ±20% variance draw. -/
def metaDailyCpm (pd : PlacementData) (ad : MetaAd) (ρ : Rng) (pos : ℕ) : ℚ :=
  pd.cpmBase * (1/2 + ad.relevanceScore / 10)
    * (1 + uniform ρ (pos + 3) (-(1/5)) (1/5))

/-- Raw daily spend (facebook.py line 412): impressions per mille times CPM. -/
def metaRawSpend (potentialReach : ℤ) (pd : PlacementData) (ad : MetaAd)
    (ρ : Rng) (pos : ℕ) : ℚ :=
  ((metaRawImpressions potentialReach pd ρ pos : ℚ) / 1000)
    * metaDailyCpm pd ad ρ pos

/-- One daily evaluation of an ad on a placement (facebook.py lines 390–444),
consuming four draws: the ad-set budget check scales impressions and clicks
by the remaining-budget ratio and caps spend; conversions are computed from
the recorded clicks. -/
def metaDayStep (ad : MetaAd) (potentialReach : ℤ) (pd : PlacementData)
    (aud : Audience) (objective : String) (adSetBudget adSetSpend : ℚ)
    (ρ : Rng) (pos : ℕ) : MetaDayRec × ℕ :=
  let rawImpressions := metaRawImpressions potentialReach pd ρ pos
  let rawClicks := metaRawClicks aud potentialReach pd ad ρ pos
  let rawSpend := metaRawSpend potentialReach pd ad ρ pos
  let u : ℤ × ℤ × ℚ × Bool :=
    if adSetSpend + rawSpend > adSetBudget then
      let r := (adSetBudget - adSetSpend) / rawSpend
      (pyInt ((rawImpressions : ℚ) * r), pyInt ((rawClicks : ℚ) * r),
        adSetBudget - adSetSpend, true)
    else (rawImpressions, rawClicks, rawSpend, false)
  let dailyConversionRate := aud.convRate * metaConversionRateMultiplier objective
    * (ad.relevanceScore / 10)
  let convs := pyInt ((u.2.1 : ℚ) * dailyConversionRate)
  (⟨ad, ad.relevanceScore / 10, rawImpressions, rawClicks, rawSpend,
    u.1, u.2.1, convs, u.2.2.1, u.2.2.2⟩, pos + 4)

/-- Day loop of one (ad, placement) pair: stops (`break`) at the start of a
day once ad-set spend has reached the ad-set budget. -/
def metaDayLoop (ad : MetaAd) (potentialReach : ℤ) (pd : PlacementData)
    (aud : Audience) (objective : String) (adSetBudget : ℚ) (ρ : Rng) :
    ℕ → AdSetAcc → List MetaDayRec × AdSetAcc
  | 0, acc => ([], acc)
  | n + 1, acc =>
    if acc.spend ≥ adSetBudget then ([], acc)
    else
      let s := metaDayStep ad potentialReach pd aud objective adSetBudget
        acc.spend ρ acc.pos
      let acc' : AdSetAcc := ⟨acc.impressions + s.1.impressions,
        acc.clicks + s.1.clicks, acc.conversions + s.1.conversions,
        acc.spend + s.1.spend, s.2⟩
      let t := metaDayLoop ad potentialReach pd aud objective adSetBudget ρ n acc'
      (s.1 :: t.1, t.2)

/-- Placement loop of one ad. -/
def metaPlacementLoop (ad : MetaAd) (potentialReach : ℤ) (aud : Audience)
    (objective : String) (adSetBudget : ℚ) (days : ℕ) (ρ : Rng) :
    List String → AdSetAcc → List MetaDayRec × AdSetAcc
  | [], acc => ([], acc)
  | p :: rest, acc =>
    let t := metaDayLoop ad potentialReach (placementFactors p) aud objective
      adSetBudget ρ days acc
    let u := metaPlacementLoop ad potentialReach aud objective adSetBudget days ρ
      rest t.2
    (t.1 ++ u.1, u.2)

/-- Ads loop of one ad set: inactive or unapproved ads are skipped. -/
def metaAdsLoop (potentialReach : ℤ) (aud : Audience) (objective : String)
    (adSetBudget : ℚ) (placements : List String) (days : ℕ) (ρ : Rng) :
    List MetaAd → AdSetAcc → List MetaDayRec × AdSetAcc
  | [], acc => ([], acc)
  | ad :: rest, acc =>
    if ad.status = "active" ∧ ad.reviewStatus = "approved" then
      let t := metaPlacementLoop ad potentialReach aud objective adSetBudget days ρ
        placements acc
      let u := metaAdsLoop potentialReach aud objective adSetBudget placements
        days ρ rest t.2
      (t.1 ++ u.1, u.2)
    else metaAdsLoop potentialReach aud objective adSetBudget placements days ρ
      rest acc

/-- Trace of one processed (active) ad set: the resolved budget, all
(ad, placement, day) records and the accumulated ad-set metrics. -/
structure MetaAdSetRec where
  budget : ℚ
  recs : List MetaDayRec
  impressions : ℤ
  clicks : ℤ
  conversions : ℤ
  spend : ℚ

/-- Resolved budget of an ad set (facebook.py line 345): explicit budget or
an even split of the campaign budget across all ad sets. -/
def metaAdSetBudget (campaignBudget : ℚ) (numAdSets : ℕ) (s : MetaAdSet) : ℚ :=
  s.budget.getD (campaignBudget / (numAdSets : ℚ))

/-- Audience of an ad set (facebook.py lines 352–359): looked up by name with
a default fallback. -/
def metaAdSetAudience (audiences : List (String × Audience)) (s : MetaAdSet) :
    Audience :=
  (audiences.lookup (s.audience.getD "default")).getD metaDefaultAudience

/-- Placement list of an ad set (facebook.py lines 365–371): configured list,
defaulting to `["feed"]`, also when empty. -/
def metaAdSetPlacements (s : MetaAdSet) : List String :=
  let placements0 := s.placements.getD ["feed"]
  if placements0 = [] then ["feed"] else placements0

/-- Processing of one active ad set (facebook.py lines 338–456): runs the
ads loop from a zeroed ad-set accumulator and returns the ad-set trace
together with the updated campaign accumulator. -/
def metaProcessAdSet (campaignBudget : ℚ) (numAdSets : ℕ)
    (audiences : List (String × Audience)) (objective : String) (days : ℕ)
    (ρ : Rng) (s : MetaAdSet) (acc : CampAcc) : MetaAdSetRec × CampAcc :=
  let adSetBudget := metaAdSetBudget campaignBudget numAdSets s
  let t := metaAdsLoop (calculateAudienceReach s.targeting)
    (metaAdSetAudience audiences s) objective adSetBudget
    (metaAdSetPlacements s) days ρ s.ads ⟨0, 0, 0, 0, acc.pos⟩
  let a := t.2
  (⟨adSetBudget, t.1, a.impressions, a.clicks, a.conversions, a.spend⟩,
    ⟨acc.impressions + a.impressions, acc.clicks + a.clicks,
      acc.conversions + a.conversions, acc.spend + a.spend, a.pos⟩)

/-- Ad-set loop of one reach-engine campaign: inactive ad sets are skipped. -/
def metaAdSetsLoop (campaignBudget : ℚ) (numAdSets : ℕ)
    (audiences : List (String × Audience)) (objective : String) (days : ℕ)
    (ρ : Rng) : List MetaAdSet → CampAcc → List MetaAdSetRec × CampAcc
  | [], acc => ([], acc)
  | s :: rest, acc =>
    if s.status = "active" then
      let t := metaProcessAdSet campaignBudget numAdSets audiences objective
        days ρ s acc
      let u := metaAdSetsLoop campaignBudget numAdSets audiences objective days ρ
        rest t.2
      (t.1 :: u.1, u.2)
    else metaAdSetsLoop campaignBudget numAdSets audiences objective days ρ rest acc

/-- Full trace of one processed reach-engine campaign. -/
structure MetaCampaignTrace where
  id : String
  adSets : List MetaAdSetRec
  metrics : CampaignMetrics

/-- Engine-level accumulator of the reach engine's campaign loop. -/
structure MetaAcc where
  entries : List (String × CampaignMetrics)
  traces : List MetaCampaignTrace
  impressions : ℤ
  clicks : ℤ
  conversions : ℤ
  spend : ℚ
  pos : ℕ

/-- Processing of one active reach-engine campaign (facebook.py lines
324–478): runs the ad-set loop from a zeroed campaign accumulator and
appends the stored metrics entry — with zero-guarded `ctr`, `cpa` and `roas`
($50 per conversion) — and the campaign trace to the engine accumulator. -/
def metaProcessCampaign (audiences : List (String × Audience)) (days : ℕ)
    (ρ : Rng) (c : MetaCampaign) (acc : MetaAcc) : MetaAcc :=
  let campaignBudget := c.budget.getD 1000
  let objective := c.objective.getD "CONVERSIONS"
  let t := metaAdSetsLoop campaignBudget c.adSets.length audiences objective
    days ρ c.adSets ⟨0, 0, 0, 0, acc.pos⟩
  let f := t.2
  let m : CampaignMetrics :=
    ⟨f.impressions, f.clicks, f.conversions, f.spend,
      if f.impressions > 0 then (f.clicks : ℚ) / (f.impressions : ℚ) else 0,
      if f.conversions > 0 then f.spend / (f.conversions : ℚ) else 0,
      if f.spend > 0 then ((f.conversions : ℚ) * 50) / f.spend else 0⟩
  ⟨acc.entries ++ [(c.id, m)], acc.traces ++ [⟨c.id, t.1, m⟩],
    acc.impressions + f.impressions, acc.clicks + f.clicks,
    acc.conversions + f.conversions, acc.spend + f.spend, f.pos⟩

/-- Campaign loop of `FacebookAdsSimulator._run_platform_simulation`:
inactive campaigns are skipped. -/
def metaCampaignLoop (audiences : List (String × Audience)) (days : ℕ)
    (ρ : Rng) : List MetaCampaign → MetaAcc → MetaAcc
  | [], acc => acc
  | c :: rest, acc =>
    if c.status = "active" then
      metaCampaignLoop audiences days ρ rest
        (metaProcessCampaign audiences days ρ c acc)
    else metaCampaignLoop audiences days ρ rest acc

/-- The reach engine's `total_metrics` map (it also stores a `roas` key). -/
structure MetaTotalMetrics where
  impressions : ℤ
  clicks : ℤ
  conversions : ℤ
  spend : ℚ
  ctr : ℚ
  cpa : ℚ
  roas : ℚ

/-- Results envelope returned by the reach engine's `run_simulation`. -/
structure MetaResults where
  campaigns : List (String × CampaignMetrics)
  totals : MetaTotalMetrics
  traces : List MetaCampaignTrace
  pos : ℕ

/-- `run_simulation` for the reach engine: fresh envelope, platform loop,
then zero-guarded aggregate ratios (facebook.py lines 501–508). -/
def metaRunSimulation (campaigns : List MetaCampaign)
    (audiences : List (String × Audience)) (days : ℕ) (ρ : Rng) : MetaResults :=
  let o := metaCampaignLoop audiences days ρ campaigns ⟨[], [], 0, 0, 0, 0, 0⟩
  { campaigns := o.entries
    totals :=
      ⟨o.impressions, o.clicks, o.conversions, o.spend,
        if o.impressions > 0 then (o.clicks : ℚ) / (o.impressions : ℚ) else 0,
        if o.conversions > 0 then o.spend / (o.conversions : ℚ) else 0,
        if o.spend > 0 then ((o.conversions : ℚ) * 50) / o.spend else 0⟩
    traces := o.traces
    pos := o.pos }

/-- State of a reach-engine instance. -/
structure MetaState where
  campaigns : List MetaCampaign
  audiences : List (String × Audience)
  results : MetaResults

/-- `run_simulation` on a reach-engine instance: the prior `results` value is
replaced by a fresh envelope and never read. -/
def metaRunSimulationState (st : MetaState) (days : ℕ) (ρ : Rng) :
    MetaState × MetaResults :=
  let r := metaRunSimulation st.campaigns st.audiences days ρ
  (⟨st.campaigns, st.audiences, r⟩, r)

/-! ### Professional-network engine data model (linkedin.py) -/

/-- A creative as stored by `LinkedInAdsSimulator.create_creative` (the
fields the simulation loop reads). -/
structure Creative where
  status : String
  reviewStatus : String

/-- `LinkedInAdsSimulator._simulate_creative_review`: approved iff the review
draw exceeds 0.1; a rejection consumes one extra `random.choice` draw for
the rejection reason. -/
def simulateCreativeReview (ρ : Rng) (pos : ℕ) : String × ℕ :=
  if ρ pos > 1/10 then ("approved", pos + 1) else ("rejected", pos + 2)

/-- A professional-network campaign; optional fields mirror `data.get(...)`,
and `targeting` is the list of targeting keys populated with truthy values. -/
structure LinkedInCampaign where
  id : String
  status : String
  campaignType : Option String
  objective : Option String
  dailyBudget : Option ℚ
  totalBudget : Option ℚ
  bidStrategy : Option String
  bidAmount : Option ℚ
  targeting : List String
  creatives : List Creative

/-- One row of the professional-network `ad_formats` table. -/
structure LinkedInFormatData where
  ctrMultiplier : ℚ
  cpmBase : ℚ

/-- The professional-network `ad_formats` table, with fallback to
`"single_image_sponsored_content"`. -/
def linkedInAdFormats (f : String) : LinkedInFormatData :=
  if f = "single_image_sponsored_content" then ⟨1, 17/2⟩
  else if f = "carousel_sponsored_content" then ⟨6/5, 19/2⟩
  else if f = "video_sponsored_content" then ⟨3/2, 10⟩
  else if f = "message_ads" then ⟨3, 25⟩
  else if f = "text_ads" then ⟨1/2, 5⟩
  else if f = "dynamic_ads" then ⟨4/5, 7⟩
  else if f = "conversation_ads" then ⟨5/2, 20⟩
  else if f = "document_ads" then ⟨9/10, 8⟩
  else if f = "event_ads" then ⟨11/10, 9⟩
  else ⟨1, 17/2⟩

/-- The fifteen LinkedIn targeting dimensions. -/
def targetingDimensions : List String :=
  ["job_title", "job_function", "industry", "company_size", "seniority",
    "skills", "education", "interests", "groups", "company",
    "company_connections", "company_followers", "location", "language",
    "years_of_experience"]

/-- `LinkedInAdsSimulator._targeting_match_score`: 0.2 when no dimension is
populated, otherwise `min(used/15 + min(used/5, 1) * 0.2, 1)`. -/
def targetingMatchScore (targeting : List String) : ℚ :=
  let used := (targetingDimensions.filter (fun d => targeting.contains d)).length
  if used = 0 then 1/5
  else min ((used : ℚ) / (targetingDimensions.length : ℚ)
    + min ((used : ℚ) / 5) 1 * (1/5)) 1

/-- `LinkedInAdsSimulator._calculate_bid_competitiveness`: step function of
the bid against the format's market-average CPM. -/
def calculateBidCompetitiveness (bid : ℚ) (formatType : String) : ℚ :=
  let marketAverage := (linkedInAdFormats formatType).cpmBase
  if bid ≥ marketAverage * (3/2) then 1
  else if bid ≥ marketAverage * (6/5) then 9/10
  else if bid ≥ marketAverage then 7/10
  else if bid ≥ marketAverage * (4/5) then 1/2
  else 3/10

/-- Objective multiplier table of the professional-network engine
(default 0.03). -/
def linkedInConversionRateMultiplier (objective : String) : ℚ :=
  if objective = "LEAD_GENERATION" then 2/25
  else if objective = "WEBSITE_CONVERSIONS" then 1/20
  else if objective = "WEBSITE_VISITS" then 3/100
  else if objective = "BRAND_AWARENESS" then 1/100
  else if objective = "VIDEO_VIEWS" then 1/50
  else if objective = "ENGAGEMENT" then 1/25
  else if objective = "JOB_APPLICANTS" then 3/50
  else 3/100

/-- Draws consumed by the lead-form webhook block (linkedin.py lines
599–611): per sample lead one `random.random()` draw, and on the 30% branch
four further `random.choice` draws for the member data. -/
def leadFormDraws (ρ : Rng) : ℕ → ℕ → ℕ
  | 0, pos => pos
  | n + 1, pos => leadFormDraws ρ n (if ρ pos > 7/10 then pos + 5 else pos + 1)

/-- Observable record of one (day, creative) evaluation of the
professional-network engine (linkedin.py lines 544–625).  `qualityPos` is
the stream position of the per-day `uniform(0.5, 1.0)` quality draw. -/
structure LinkedInCreativeRec where
  qualityPos : ℕ
  qualityUsed : ℚ
  rawImpressions : ℤ
  rawClicks : ℤ
  rawSpend : ℚ
  impressions : ℤ
  clicks : ℤ
  conversions : ℤ
  spend : ℚ
  scaled : Bool

/-- Per-day creative quality draw (linkedin.py line 550): `uniform(0.5, 1.0)`. -/
def linkedInCreativeQuality (ρ : Rng) (pos : ℕ) : ℚ := uniform ρ pos (1/2) 1

/-- Raw creative impressions (linkedin.py line 553): even share of the
potential impressions scaled by the fresh quality draw. -/
def linkedInRawImpressions (potentialImpressions : ℤ) (numActive : ℕ) (ρ : Rng)
    (pos : ℕ) : ℤ :=
  pyInt ((potentialImpressions : ℚ) / (numActive : ℚ)
    * linkedInCreativeQuality ρ pos)

/-- Actual creative CTR (linkedin.py lines 556–562): base 0.004, format
multiplier, targeting score, quality, and a ±20% variance draw. -/
def linkedInActualCtr (fd : LinkedInFormatData) (targetingScore : ℚ) (ρ : Rng)
    (pos : ℕ) : ℚ :=
  1/250 * fd.ctrMultiplier * targetingScore * linkedInCreativeQuality ρ pos
    * uniform ρ (pos + 1) (4/5) (6/5)

/-- Raw creative clicks (linkedin.py line 565). -/
def linkedInRawClicks (fd : LinkedInFormatData) (targetingScore : ℚ)
    (potentialImpressions : ℤ) (numActive : ℕ) (ρ : Rng) (pos : ℕ) : ℤ :=
  pyInt ((linkedInRawImpressions potentialImpressions numActive ρ pos : ℚ)
    * linkedInActualCtr fd targetingScore ρ pos)

/-- Actual CPM (linkedin.py lines 568–570): format base CPM, targeting
premium and a ±10% variance draw. -/
def linkedInActualCpm (fd : LinkedInFormatData) (targetingScore : ℚ) (ρ : Rng)
    (pos : ℕ) : ℚ :=
  fd.cpmBase * (1 + targetingScore * (1/2)) * uniform ρ (pos + 2) (9/10) (11/10)

/-- Raw creative spend (linkedin.py line 573). -/
def linkedInRawSpend (fd : LinkedInFormatData) (targetingScore : ℚ)
    (potentialImpressions : ℤ) (numActive : ℕ) (ρ : Rng) (pos : ℕ) : ℚ :=
  ((linkedInRawImpressions potentialImpressions numActive ρ pos : ℚ) / 1000)
    * linkedInActualCpm fd targetingScore ρ pos

/-- Draws consumed by the webhook blocks after a creative evaluation
(linkedin.py lines 598–619): sample leads for lead-generation campaigns and
sample message opens for message-style campaigns. -/
def linkedInWebhookPos (campaignType objective : String) (clicks convs : ℤ)
    (ρ : Rng) (pos3 : ℕ) : ℕ :=
  let pos4 := if objective = "LEAD_GENERATION" ∧ 0 < convs
    then leadFormDraws ρ (min convs 5).toNat pos3 else pos3
  if (campaignType = "message_ads" ∨ campaignType = "conversation_ads")
      ∧ 0 < clicks
    then pos4 + (min clicks 3).toNat else pos4

/-- One creative evaluation on one day (linkedin.py lines 544–625): a fresh
quality draw, CTR and CPM with their variance draws, the two-level budget
check (scaling impressions and clicks by the remaining-budget ratio and
capping spend at the remaining budget), conversions from the recorded
clicks, then the webhook draws. -/
def linkedInCreativeStep (campaignType objective : String)
    (fd : LinkedInFormatData) (targetingScore : ℚ) (potentialImpressions : ℤ)
    (numActive : ℕ) (dailyBudget totalBudget dailySpend campaignSpend : ℚ)
    (ρ : Rng) (pos : ℕ) : LinkedInCreativeRec × ℕ :=
  let rawImpressions := linkedInRawImpressions potentialImpressions numActive ρ pos
  let rawClicks := linkedInRawClicks fd targetingScore potentialImpressions
    numActive ρ pos
  let rawSpend := linkedInRawSpend fd targetingScore potentialImpressions
    numActive ρ pos
  let remainingBudget := min (dailyBudget - dailySpend) (totalBudget - campaignSpend)
  let u : ℤ × ℤ × ℚ × Bool :=
    if rawSpend > remainingBudget then
      let r := remainingBudget / rawSpend
      (pyInt ((rawImpressions : ℚ) * r), pyInt ((rawClicks : ℚ) * r),
        remainingBudget, true)
    else (rawImpressions, rawClicks, rawSpend, false)
  let conversionRate := linkedInConversionRateMultiplier objective
    * targetingScore * linkedInCreativeQuality ρ pos
  let convs := pyInt ((u.2.1 : ℚ) * conversionRate)
  (⟨pos, linkedInCreativeQuality ρ pos, rawImpressions, rawClicks, rawSpend,
    u.1, u.2.1, convs, u.2.2.1, u.2.2.2⟩,
    linkedInWebhookPos campaignType objective u.2.1 convs ρ (pos + 3))

/-- Creative loop of one day: stops (`break`) once daily spend has reached
the daily budget; iterates once per active creative. -/
def linkedInCreativeLoop (campaignType objective : String)
    (fd : LinkedInFormatData) (targetingScore : ℚ) (potentialImpressions : ℤ)
    (numActive : ℕ) (dailyBudget totalBudget campaignSpend : ℚ) (ρ : Rng) :
    ℕ → DayAcc → List LinkedInCreativeRec × DayAcc
  | 0, acc => ([], acc)
  | n + 1, acc =>
    if acc.spend ≥ dailyBudget then ([], acc)
    else
      let s := linkedInCreativeStep campaignType objective fd targetingScore
        potentialImpressions numActive dailyBudget totalBudget acc.spend
        campaignSpend ρ acc.pos
      let acc' : DayAcc := ⟨acc.impressions + s.1.impressions,
        acc.clicks + s.1.clicks, acc.conversions + s.1.conversions,
        acc.spend + s.1.spend, s.2⟩
      let t := linkedInCreativeLoop campaignType objective fd targetingScore
        potentialImpressions numActive dailyBudget totalBudget campaignSpend ρ
        n acc'
      (s.1 :: t.1, t.2)

/-- Weekday factor (linkedin.py lines 533–534): weekdays 1.0, weekends 0.4. -/
def linkedInDayFactor (startWeekday day : ℕ) : ℚ :=
  if (startWeekday + day) % 7 < 5 then 1 else 2/5

/-- Base daily impressions of a campaign (linkedin.py line 537). -/
def linkedInBaseImpressions (targetingScore bidCompetitiveness : ℚ)
    (startWeekday day : ℕ) : ℤ :=
  pyInt (1000 * targetingScore * bidCompetitiveness
    * linkedInDayFactor startWeekday day)

/-- Potential daily impressions (linkedin.py lines 540–541): base impressions
with a ±20% variance draw. -/
def linkedInPotentialImpressions (targetingScore bidCompetitiveness : ℚ)
    (startWeekday day : ℕ) (ρ : Rng) (pos : ℕ) : ℤ :=
  pyInt ((linkedInBaseImpressions targetingScore bidCompetitiveness startWeekday
    day : ℚ) * uniform ρ pos (4/5) (6/5))

/-- Trace of one simulated day of a professional-network campaign. -/
structure LinkedInDayRec where
  creatives : List LinkedInCreativeRec
  impressions : ℤ
  clicks : ℤ
  conversions : ℤ
  spend : ℚ

/-- Day loop of a professional-network campaign: breaks at the start of a
day once campaign spend has reached the total budget; computes the weekday
factor and the potential impressions, runs the creative loop, accumulates,
and on a near-daily-budget day halts with 30% probability (one extra
draw). -/
def linkedInDayLoop (campaignType objective : String) (fd : LinkedInFormatData)
    (targetingScore bidCompetitiveness : ℚ) (numActive : ℕ)
    (dailyBudget totalBudget : ℚ) (startWeekday : ℕ) (ρ : Rng) :
    ℕ → ℕ → CampAcc → List LinkedInDayRec × CampAcc
  | 0, _, acc => ([], acc)
  | n + 1, day, acc =>
    if acc.spend ≥ totalBudget then ([], acc)
    else
      let t := linkedInCreativeLoop campaignType objective fd targetingScore
        (linkedInPotentialImpressions targetingScore bidCompetitiveness
          startWeekday day ρ acc.pos)
        numActive dailyBudget totalBudget acc.spend ρ
        numActive ⟨0, 0, 0, 0, acc.pos + 1⟩
      let d := t.2
      let dayRec : LinkedInDayRec := ⟨t.1, d.impressions, d.clicks,
        d.conversions, d.spend⟩
      let acc' : CampAcc := ⟨acc.impressions + d.impressions,
        acc.clicks + d.clicks, acc.conversions + d.conversions,
        acc.spend + d.spend, d.pos⟩
      if d.spend ≥ dailyBudget * (99/100) then
        if ρ d.pos > 7/10 then ([dayRec], ⟨acc'.impressions, acc'.clicks,
          acc'.conversions, acc'.spend, d.pos + 1⟩)
        else
          let u := linkedInDayLoop campaignType objective fd targetingScore
            bidCompetitiveness numActive dailyBudget totalBudget startWeekday ρ
            n (day + 1) ⟨acc'.impressions, acc'.clicks, acc'.conversions,
              acc'.spend, d.pos + 1⟩
          (dayRec :: u.1, u.2)
      else
        let u := linkedInDayLoop campaignType objective fd targetingScore
          bidCompetitiveness numActive dailyBudget totalBudget startWeekday ρ
          n (day + 1) acc'
        (dayRec :: u.1, u.2)

/-- Full trace of one processed professional-network campaign, including the
resolved budgets and the stored metrics entry. -/
structure LinkedInCampaignTrace where
  id : String
  dailyBudget : ℚ
  totalBudget : ℚ
  days : List LinkedInDayRec
  metrics : LinkedInCampaignMetrics

/-- Engine-level accumulator of the professional-network campaign loop. -/
structure LinkedInAcc where
  entries : List (String × LinkedInCampaignMetrics)
  traces : List LinkedInCampaignTrace
  impressions : ℤ
  clicks : ℤ
  conversions : ℤ
  spend : ℚ
  pos : ℕ

/-- Active approved creatives of a campaign (linkedin.py lines 501–503). -/
def linkedInActiveCreatives (c : LinkedInCampaign) : List Creative :=
  c.creatives.filter (fun cr => cr.status = "active" ∧ cr.reviewStatus = "approved")

/-- Bid competitiveness of a campaign (linkedin.py lines 513–517): fixed 0.7
under auto-bidding, else the bid step function. -/
def linkedInBidCompetitiveness (c : LinkedInCampaign) : ℚ :=
  if c.bidStrategy.getD "AUTO" = "AUTO" then 7/10
  else calculateBidCompetitiveness (c.bidAmount.getD 0)
    (c.campaignType.getD "single_image_sponsored_content")

/-- Processing of one professional-network campaign that is active and has an
active approved creative (linkedin.py lines 472–652): resolves the
configuration, runs the day loop from a zeroed campaign accumulator, and
appends the stored metrics entry — with zero-guarded `ctr`/`cpa` — and the
campaign trace to the engine accumulator. -/
def linkedInProcessCampaign (days startWeekday : ℕ) (ρ : Rng)
    (c : LinkedInCampaign) (acc : LinkedInAcc) : LinkedInAcc :=
  let campaignType := c.campaignType.getD "single_image_sponsored_content"
  let objective := c.objective.getD "WEBSITE_VISITS"
  let dailyBudget := c.dailyBudget.getD 100
  let totalBudget := c.totalBudget.getD (dailyBudget * days)
  let t := linkedInDayLoop campaignType objective
    (linkedInAdFormats campaignType) (targetingMatchScore c.targeting)
    (linkedInBidCompetitiveness c) (linkedInActiveCreatives c).length
    dailyBudget totalBudget startWeekday ρ days 0 ⟨0, 0, 0, 0, acc.pos⟩
  let f := t.2
  let m : LinkedInCampaignMetrics :=
    ⟨f.impressions, f.clicks, f.conversions, f.spend,
      if f.impressions > 0 then (f.clicks : ℚ) / (f.impressions : ℚ) else 0,
      if f.conversions > 0 then f.spend / (f.conversions : ℚ) else 0⟩
  ⟨acc.entries ++ [(c.id, m)],
    acc.traces ++ [⟨c.id, dailyBudget, totalBudget, t.1, m⟩],
    acc.impressions + f.impressions, acc.clicks + f.clicks,
    acc.conversions + f.conversions, acc.spend + f.spend, f.pos⟩

/-- Campaign loop of `LinkedInAdsSimulator._run_platform_simulation`:
inactive campaigns, campaigns without creatives and campaigns without any
active approved creative are all skipped (no entry, no draws). -/
def linkedInCampaignLoop (days startWeekday : ℕ) (ρ : Rng) :
    List LinkedInCampaign → LinkedInAcc → LinkedInAcc
  | [], acc => acc
  | c :: rest, acc =>
    if c.status = "active" then
      if c.creatives.isEmpty then linkedInCampaignLoop days startWeekday ρ rest acc
      else
        if (linkedInActiveCreatives c).isEmpty then
          linkedInCampaignLoop days startWeekday ρ rest acc
        else
          linkedInCampaignLoop days startWeekday ρ rest
            (linkedInProcessCampaign days startWeekday ρ c acc)
    else linkedInCampaignLoop days startWeekday ρ rest acc

/-- Results envelope returned by the professional-network `run_simulation`. -/
structure LinkedInResults where
  campaigns : List (String × LinkedInCampaignMetrics)
  totals : TotalMetrics
  traces : List LinkedInCampaignTrace
  pos : ℕ

/-- `run_simulation` for the professional-network engine: fresh envelope,
platform loop (which writes only the four counters), then the zero-guarded
aggregate `ctr`/`cpa` of base_simulator.py lines 83–92. -/
def linkedInRunSimulation (campaigns : List LinkedInCampaign)
    (days startWeekday : ℕ) (ρ : Rng) : LinkedInResults :=
  let o := linkedInCampaignLoop days startWeekday ρ campaigns ⟨[], [], 0, 0, 0, 0, 0⟩
  { campaigns := o.entries
    totals :=
      ⟨o.impressions, o.clicks, o.conversions, o.spend,
        if o.impressions > 0 then (o.clicks : ℚ) / (o.impressions : ℚ) else 0,
        if o.conversions > 0 then o.spend / (o.conversions : ℚ) else 0⟩
    traces := o.traces
    pos := o.pos }

/-- State of a professional-network engine instance. -/
structure LinkedInState where
  campaigns : List LinkedInCampaign
  results : LinkedInResults

/-- `run_simulation` on a professional-network engine instance: the prior
`results` value is replaced by a fresh envelope and never read. -/
def linkedInRunSimulationState (st : LinkedInState) (days startWeekday : ℕ)
    (ρ : Rng) : LinkedInState × LinkedInResults :=
  let r := linkedInRunSimulation st.campaigns days startWeekday ρ
  (⟨st.campaigns, r⟩, r)

/-! ### Aggregator (ad_simulator.py) -/

/-- The aggregator's `combined.total_metrics` map. -/
structure CombinedTotals where
  impressions : ℤ
  clicks : ℤ
  conversions : ℤ
  spend : ℚ
  ctr : ℚ
  cpa : ℚ

/-- Output of `AdSimulator.run_campaigns` over all three platforms. -/
structure AdSimulatorRun where
  google : GoogleResults
  facebook : MetaResults
  linkedin : LinkedInResults
  combined : CombinedTotals

/-- `AdSimulator._combine_results`: sums the three platforms'
`total_metrics` counters (iterating the results map in insertion order
google, facebook, linkedin) and computes zero-guarded overall ratios. -/
def combineResults (g : GoogleResults) (f : MetaResults)
    (l : LinkedInResults) : CombinedTotals :=
  let impressions := 0 + g.totals.impressions + f.totals.impressions
    + l.totals.impressions
  let clicks := 0 + g.totals.clicks + f.totals.clicks + l.totals.clicks
  let conversions := 0 + g.totals.conversions + f.totals.conversions
    + l.totals.conversions
  let spend := 0 + g.totals.spend + f.totals.spend + l.totals.spend
  ⟨impressions, clicks, conversions, spend,
    if impressions > 0 then (clicks : ℚ) / (impressions : ℚ) else 0,
    if conversions > 0 then spend / (conversions : ℚ) else 0⟩

/-- `AdSimulator.run_campaigns` with the default platform list: runs the
three engines and combines their results. -/
def runCampaigns (gCampaigns : List GoogleCampaign)
    (fCampaigns : List MetaCampaign) (fAudiences : List (String × Audience))
    (lCampaigns : List LinkedInCampaign) (days startWeekday : ℕ)
    (ρg ρf ρl : Rng) : AdSimulatorRun :=
  let g := googleRunSimulation gCampaigns days ρg
  let f := metaRunSimulation fCampaigns fAudiences days ρf
  let l := linkedInRunSimulation lCampaigns days startWeekday ρl
  ⟨g, f, l, combineResults g f l⟩

/-! ### Well-formedness predicates and record-bound predicates -/

/-- A keyword as produced by `add_keyword`: quality score in `[1, 10]`. -/
def KeywordWF (kw : Keyword) : Prop :=
  1 ≤ kw.qualityScore ∧ kw.qualityScore ≤ 10

/-- Well-formed search-engine campaign: nonnegative resolved daily budget and
creation-shaped keywords. -/
def GoogleCampaignWF (c : GoogleCampaign) : Prop :=
  0 ≤ c.dailyBudget.getD 100 ∧
    ∀ g ∈ c.adGroups, ∀ kw ∈ g.keywords, KeywordWF kw

/-- Audience with base rates in `(0, 1]`. -/
def AudienceWF (a : Audience) : Prop :=
  0 < a.ctrBase ∧ a.ctrBase ≤ 1 ∧ 0 < a.convRate ∧ a.convRate ≤ 1

/-- An ad as produced by `create_ad`: relevance score in `[1, 10]`. -/
def MetaAdWF (ad : MetaAd) : Prop :=
  1 ≤ ad.relevanceScore ∧ ad.relevanceScore ≤ 10

/-- Coherent age targeting (resolved minimum at most resolved maximum). -/
def MetaTargetingWF (t : MetaTargeting) : Prop :=
  t.ageMin.getD 18 ≤ t.ageMax.getD 65

/-- Well-formed reach-engine campaign: nonnegative resolved budgets, coherent
targeting and creation-shaped ads. -/
def MetaCampaignWF (c : MetaCampaign) : Prop :=
  0 ≤ c.budget.getD 1000 ∧
    ∀ s ∈ c.adSets, (∀ b, s.budget = some b → 0 ≤ b) ∧
      MetaTargetingWF s.targeting ∧ ∀ ad ∈ s.ads, MetaAdWF ad

/-- Well-formed professional-network campaign: nonnegative resolved
budgets. -/
def LinkedInCampaignWF (c : LinkedInCampaign) : Prop :=
  0 ≤ c.dailyBudget.getD 100 ∧ ∀ b, c.totalBudget = some b → 0 ≤ b

/-- Sanity bounds of one set of recorded counters, including the
click-through chain `conversions ≤ clicks ≤ impressions`. -/
def CountersOk (imp clk cv : ℤ) (sp : ℚ) : Prop :=
  0 ≤ imp ∧ 0 ≤ clk ∧ 0 ≤ cv ∧ 0 ≤ sp ∧ cv ≤ clk ∧ clk ≤ imp

/-- Sanity bounds of one set of recorded counters without the
`clicks ≤ impressions` link (the reach engine does not guarantee it). -/
def CountersOkW (imp clk cv : ℤ) (sp : ℚ) : Prop :=
  0 ≤ imp ∧ 0 ≤ clk ∧ 0 ≤ cv ∧ 0 ≤ sp ∧ cv ≤ clk

/-- All sanity bounds of one search-engine keyword record. -/
def GoogleRecOk (r : KwRec) : Prop :=
  CountersOk r.impressions r.clicks r.conversions r.spend

/-- Sanity bounds of one reach-engine daily record. -/
def MetaRecOk (r : MetaDayRec) : Prop :=
  CountersOkW r.impressions r.clicks r.conversions r.spend

/-- All sanity bounds of one professional-network creative record. -/
def LinkedInRecOk (r : LinkedInCreativeRec) : Prop :=
  CountersOk r.impressions r.clicks r.conversions r.spend

/-- Zero-guarded shape of the stored ratios of a campaign metrics entry of
the search or reach engine. -/
def RatiosOk (m : CampaignMetrics) : Prop :=
  m.ctr = (if m.impressions > 0 then (m.clicks : ℚ) / (m.impressions : ℚ) else 0) ∧
    m.cpa = (if m.conversions > 0 then m.spend / (m.conversions : ℚ) else 0) ∧
    ∃ v, m.roas = (if m.spend > 0 then ((m.conversions : ℚ) * v) / m.spend else 0)

/-- Zero-guarded shape of the stored ratios of a professional-network
campaign metrics entry. -/
def LinkedInRatiosOk (m : LinkedInCampaignMetrics) : Prop :=
  m.ctr = (if m.impressions > 0 then (m.clicks : ℚ) / (m.impressions : ℚ) else 0) ∧
    m.cpa = (if m.conversions > 0 then m.spend / (m.conversions : ℚ) else 0)

/-- Zero-guarded shape of the aggregate ratios of a `total_metrics` map. -/
def TotalRatiosOk (m : TotalMetrics) : Prop :=
  m.ctr = (if m.impressions > 0 then (m.clicks : ℚ) / (m.impressions : ℚ) else 0) ∧
    m.cpa = (if m.conversions > 0 then m.spend / (m.conversions : ℚ) else 0)

/-- Zero-guarded shape of the reach engine's aggregate ratios. -/
def MetaTotalRatiosOk (m : MetaTotalMetrics) : Prop :=
  m.ctr = (if m.impressions > 0 then (m.clicks : ℚ) / (m.impressions : ℚ) else 0) ∧
    m.cpa = (if m.conversions > 0 then m.spend / (m.conversions : ℚ) else 0) ∧
    m.roas = (if m.spend > 0 then ((m.conversions : ℚ) * 50) / m.spend else 0)

/-- Zero-guarded shape of the aggregator's combined ratios. -/
def CombinedRatiosOk (m : CombinedTotals) : Prop :=
  m.ctr = (if m.impressions > 0 then (m.clicks : ℚ) / (m.impressions : ℚ) else 0) ∧
    m.cpa = (if m.conversions > 0 then m.spend / (m.conversions : ℚ) else 0)

/-- All invariants of one processed search-engine campaign trace: nonnegative
resolved daily budget, campaign budget equal to `daily_budget * days`, every
day within the daily budget with sane counters and sane keyword records, and
lifetime metrics within the campaign budget. -/
def GoogleTraceOk (days : ℕ) (t : GoogleCampaignTrace) : Prop :=
  0 ≤ t.dailyBudget ∧ t.campaignBudget = t.dailyBudget * days ∧
    (∀ d ∈ t.days, CountersOk d.impressions d.clicks d.conversions d.spend ∧
      d.spend ≤ t.dailyBudget ∧ ∀ gl ∈ d.groups, ∀ r ∈ gl, GoogleRecOk r) ∧
    CountersOk t.metrics.impressions t.metrics.clicks t.metrics.conversions
      t.metrics.spend ∧
    t.metrics.spend ≤ t.campaignBudget

/-- All invariants of one processed reach-engine ad-set trace: sane records,
sane counters, nonnegative resolved budget and lifetime spend within it. -/
def MetaAdSetRecOk (s : MetaAdSetRec) : Prop :=
  (∀ r ∈ s.recs, MetaRecOk r) ∧
    CountersOkW s.impressions s.clicks s.conversions s.spend ∧
    0 ≤ s.budget ∧ s.spend ≤ s.budget

/-- All invariants of one processed reach-engine campaign trace. -/
def MetaTraceOk (t : MetaCampaignTrace) : Prop :=
  (∀ s ∈ t.adSets, MetaAdSetRecOk s) ∧
    CountersOkW t.metrics.impressions t.metrics.clicks t.metrics.conversions
      t.metrics.spend

/-- The `clicks ≤ impressions` link on an ad-set trace; it holds in the reach
engine only under a bound on the audience base CTR. -/
def MetaAdSetRecStrong (s : MetaAdSetRec) : Prop :=
  (∀ r ∈ s.recs, r.clicks ≤ r.impressions) ∧ s.clicks ≤ s.impressions

/-- The `clicks ≤ impressions` link on a reach-engine campaign trace. -/
def MetaTraceStrong (t : MetaCampaignTrace) : Prop :=
  (∀ s ∈ t.adSets, MetaAdSetRecStrong s) ∧
    t.metrics.clicks ≤ t.metrics.impressions

/-- All invariants of one processed professional-network campaign trace:
nonnegative resolved budgets, every day within the daily budget with sane
counters and records, and lifetime spend at most `total_budget +
daily_budget` (one day may overshoot the total budget, see the analysis of
the intra-day remaining-budget check). -/
def LinkedInTraceOk (t : LinkedInCampaignTrace) : Prop :=
  0 ≤ t.dailyBudget ∧ 0 ≤ t.totalBudget ∧
    (∀ d ∈ t.days, CountersOk d.impressions d.clicks d.conversions d.spend ∧
      d.spend ≤ t.dailyBudget ∧ ∀ r ∈ d.creatives, LinkedInRecOk r) ∧
    CountersOk t.metrics.impressions t.metrics.clicks t.metrics.conversions
      t.metrics.spend ∧
    t.metrics.spend ≤ t.totalBudget + t.dailyBudget

/-! ### Concrete instances used in the analysis -/

/-- The all-ones draw stream: every `uniform` draw returns its upper bound. -/
def onesRng : Rng := fun _ => 1

/-- Draw stream that is 1 everywhere except at position 1. -/
def c6Rng : Rng := fun n => if n = 1 then 0 else 1

/-- A maximal-quality exact-match keyword with bid 1. -/
def gKwA : Keyword := ⟨"shoes", "exact", 1, 10, 1⟩

/-- One active search ad group holding `gKwA`. -/
def gGroupA : AdGroup := ⟨"active", some "search", [gKwA]⟩

/-- Search-engine campaign with one ad group and daily budget 10. -/
def gC2Camp : GoogleCampaign := ⟨"g1", "active", some 10, none, [gGroupA]⟩

/-- The keyword record `gC2Camp` produces on day one under `onesRng`. -/
def gC2Rec : KwRec := ⟨gKwA, 10, 500, 25, 0, 201/4, 500, 4, 0, 10, true⟩

/-- Search-engine campaign with two ad groups sharing daily budget 10. -/
def gC7Camp : GoogleCampaign := ⟨"g7", "active", some 10, none, [gGroupA, gGroupA]⟩

/-- A paused search-engine campaign. -/
def gInactiveCamp : GoogleCampaign := ⟨"gX", "paused", some 10, none, [gGroupA]⟩

/-- A paused reach-engine campaign. -/
def fInactiveCamp : MetaCampaign := ⟨"fX", "paused", some 1000, none, []⟩

/-- A paused professional-network campaign. -/
def lInactiveCamp : LinkedInCampaign :=
  ⟨"lX", "paused", none, none, none, none, none, none, [], []⟩

/-- Audience with the maximal base CTR the spec admits (`ctr_base = 1`). -/
def fC3Aud : Audience := ⟨1000000, 1, 1/100⟩

/-- Ad set on the `whatsapp_click_to_chat` placement with a relevance-10 ad. -/
def fC3AdSet : MetaAdSet :=
  ⟨"active", none, some "aud1", ⟨none, none, none,
    ["US", "UK", "CA", "DE", "FR"], []⟩, some ["whatsapp_click_to_chat"],
    [⟨"active", "approved", 10⟩]⟩

/-- Reach-engine campaign holding `fC3AdSet` with a large budget. -/
def fC3Camp : MetaCampaign := ⟨"f1", "active", some 1000000, none, [fC3AdSet]⟩

/-- Professional-network campaign with two active approved creatives, full
targeting, a high manual bid, daily budget 100 and total budget 4. -/
def lC1Camp : LinkedInCampaign :=
  ⟨"l2", "active", some "video_sponsored_content", none, some 100, some 4,
    some "MANUAL", some 20, targetingDimensions,
    [⟨"active", "approved"⟩, ⟨"active", "approved"⟩]⟩

/-- Professional-network campaign with one creative and default budgets. -/
def lC6Camp : LinkedInCampaign :=
  ⟨"l1", "active", none, none, none, none, none, none, [],
    [⟨"active", "approved"⟩]⟩

/-- A stale search-engine results envelope left by an earlier run. -/
def gJunkResults : GoogleResults :=
  ⟨[("old", ⟨1, 1, 1, 1, 1, 1, 1⟩)], ⟨5, 4, 3, 2, 1, 0⟩, [], 9⟩

/-- A stale reach-engine results envelope left by an earlier run. -/
def fJunkResults : MetaResults :=
  ⟨[("old", ⟨1, 1, 1, 1, 1, 1, 1⟩)], ⟨5, 4, 3, 2, 1, 0, 0⟩, [], 9⟩

/-- A stale professional-network results envelope left by an earlier run. -/
def lJunkResults : LinkedInResults :=
  ⟨[("old", ⟨1, 1, 1, 1, 1, 1⟩)], ⟨5, 4, 3, 2, 1, 0⟩, [], 9⟩

/-! ## Basic lemmas about the modelling primitives -/

theorem pyInt_of_nonneg {q : ℚ} (h : 0 ≤ q) : pyInt q = ⌊q⌋ := if_pos h

theorem pyInt_nonneg {q : ℚ} (h : 0 ≤ q) : 0 ≤ pyInt q := by
  rw [pyInt_of_nonneg h]
  exact Int.floor_nonneg.mpr h

theorem pyInt_cast_le {q : ℚ} (h : 0 ≤ q) : (pyInt q : ℚ) ≤ q := by
  rw [pyInt_of_nonneg h]
  exact Int.floor_le q

theorem pyInt_mono {q r : ℚ} (hq : 0 ≤ q) (hqr : q ≤ r) :
    pyInt q ≤ pyInt r := by
  rw [pyInt_of_nonneg hq, pyInt_of_nonneg (hq.trans hqr)]
  exact Int.floor_mono hqr

theorem pyInt_intCast (n : ℤ) : pyInt (n : ℚ) = n := by
  by_cases h : (0 : ℚ) ≤ (n : ℚ)
  · rw [pyInt_of_nonneg h, Int.floor_intCast]
  · rw [pyInt, if_neg h]
    rw [show (-(n : ℚ)) = ((-n : ℤ) : ℚ) by push_cast; ring, Int.floor_intCast]
    ring

theorem pyInt_le_intCast {q : ℚ} {n : ℤ} (hq : 0 ≤ q) (h : q ≤ (n : ℚ)) :
    pyInt q ≤ n := by
  have := pyInt_mono hq h
  rwa [pyInt_intCast n] at this

theorem le_uniform {ρ : Rng} {k : ℕ} {a b : ℚ} (h01 : Unit01 ρ) (hab : a ≤ b) :
    a ≤ uniform ρ k a b := by
  have h1 := (h01 k).1
  have h2 := (h01 k).2
  unfold uniform
  nlinarith

theorem uniform_le {ρ : Rng} {k : ℕ} {a b : ℚ} (h01 : Unit01 ρ) (hab : a ≤ b) :
    uniform ρ k a b ≤ b := by
  have h1 := (h01 k).1
  have h2 := (h01 k).2
  unfold uniform
  nlinarith

/-! ## Bounds of the static multiplier tables -/

theorem googleAdFormats_ctr_bounds (f : String) :
    0 ≤ (googleAdFormats f).1 ∧ (googleAdFormats f).1 ≤ 6/5 := by
  unfold googleAdFormats
  split_ifs <;> norm_num

theorem matchTypeMultiplier_bounds (m : String) :
    0 ≤ matchTypeMultiplier m ∧ matchTypeMultiplier m ≤ 4 := by
  unfold matchTypeMultiplier
  split_ifs <;> norm_num

theorem placementFactors_bounds (p : String) :
    0 ≤ (placementFactors p).reachFactor ∧
      0 ≤ (placementFactors p).ctrFactor ∧
      (placementFactors p).ctrFactor ≤ 8/5 ∧
      0 ≤ (placementFactors p).cpmBase := by
  by_cases h1 : p = "feed"
  · norm_num +decide [placementFactors, h1]
  by_cases h2 : p = "marketplace"
  · norm_num +decide [placementFactors, h1, h2]
  by_cases h3 : p = "video"
  · norm_num +decide [placementFactors, h1, h2, h3]
  by_cases h4 : p = "right_column"
  · norm_num +decide [placementFactors, h1, h2, h3, h4]
  by_cases h5 : p = "search"
  · norm_num +decide [placementFactors, h1, h2, h3, h4, h5]
  by_cases h6 : p = "instant_articles"
  · norm_num +decide [placementFactors, h1, h2, h3, h4, h5, h6]
  by_cases h7 : p = "instagram_feed"
  · norm_num +decide [placementFactors, h1, h2, h3, h4, h5, h6, h7]
  by_cases h8 : p = "instagram_stories"
  · norm_num +decide [placementFactors, h1, h2, h3, h4, h5, h6, h7, h8]
  by_cases h9 : p = "instagram_explore"
  · norm_num +decide [placementFactors, h1, h2, h3, h4, h5, h6, h7, h8, h9]
  by_cases h10 : p = "instagram_reels"
  · norm_num +decide [placementFactors, h1, h2, h3, h4, h5, h6, h7, h8, h9, h10]
  by_cases h11 : p = "instagram_shop"
  · norm_num +decide [placementFactors, h1, h2, h3, h4, h5, h6, h7, h8, h9, h10, h11]
  by_cases h12 : p = "instagram_threads"
  · norm_num +decide [placementFactors, h1, h2, h3, h4, h5, h6, h7, h8, h9, h10, h11, h12]
  by_cases h13 : p = "whatsapp_business"
  · norm_num +decide [placementFactors, h1, h2, h3, h4, h5, h6, h7, h8, h9, h10, h11, h12,
      h13]
  by_cases h14 : p = "whatsapp_click_to_chat"
  · norm_num +decide [placementFactors, h1, h2, h3, h4, h5, h6, h7, h8, h9, h10, h11, h12,
      h13, h14]
  by_cases h15 : p = "whatsapp_status"
  · norm_num +decide [placementFactors, h1, h2, h3, h4, h5, h6, h7, h8, h9, h10, h11, h12,
      h13, h14, h15]
  norm_num +decide [placementFactors, h1, h2, h3, h4, h5, h6, h7, h8, h9, h10, h11, h12,
    h13, h14, h15]

theorem metaConversionRateMultiplier_bounds (o : String) :
    0 ≤ metaConversionRateMultiplier o ∧ metaConversionRateMultiplier o ≤ 1 := by
  unfold metaConversionRateMultiplier
  split_ifs <;> norm_num

theorem linkedInAdFormats_bounds (f : String) :
    0 ≤ (linkedInAdFormats f).ctrMultiplier ∧
      (linkedInAdFormats f).ctrMultiplier ≤ 3 ∧
      0 ≤ (linkedInAdFormats f).cpmBase := by
  unfold linkedInAdFormats
  split_ifs <;> norm_num

theorem linkedInConversionRateMultiplier_bounds (o : String) :
    0 ≤ linkedInConversionRateMultiplier o ∧
      linkedInConversionRateMultiplier o ≤ 1 := by
  unfold linkedInConversionRateMultiplier
  split_ifs <;> norm_num

theorem calculateBidCompetitiveness_bounds (bid : ℚ) (f : String) :
    0 ≤ calculateBidCompetitiveness bid f ∧
      calculateBidCompetitiveness bid f ≤ 1 := by
  simp only [calculateBidCompetitiveness]
  split_ifs <;> norm_num

theorem targetingMatchScore_mem (targeting : List String) :
    8/75 ≤ targetingMatchScore targeting ∧ targetingMatchScore targeting ≤ 1 := by
  simp only [targetingMatchScore]
  set u := (targetingDimensions.filter (fun d => targeting.contains d)).length with hu
  have hlen : (targetingDimensions.length : ℚ) = 15 := by norm_num [targetingDimensions]
  rw [hlen]
  split_ifs with h0
  · norm_num
  · have h1 : 1 ≤ u := Nat.one_le_iff_ne_zero.mpr h0
    have h1q : (1 : ℚ) ≤ (u : ℚ) := by exact_mod_cast h1
    constructor
    · have hb : (1 : ℚ)/5 ≤ min ((u : ℚ) / 5) 1 := by
        rcases le_total ((u : ℚ) / 5) 1 with h | h
        · rw [min_eq_left h]; linarith
        · rw [min_eq_right h]; norm_num
      have hbase : (1 : ℚ)/15 ≤ (u : ℚ) / 15 := by linarith
      have : (8 : ℚ)/75 ≤ (u : ℚ) / 15 + min ((u : ℚ) / 5) 1 * (1/5) := by
        nlinarith
      exact le_min this (by norm_num)
    · exact min_le_right _ _

/-! ## Search-engine invariants -/

theorem CountersOk_add {i1 c1 v1 i2 c2 v2 : ℤ} {s1 s2 : ℚ}
    (h1 : CountersOk i1 c1 v1 s1) (h2 : CountersOk i2 c2 v2 s2) :
    CountersOk (i1 + i2) (c1 + c2) (v1 + v2) (s1 + s2) := by
  obtain ⟨a1, b1, d1, e1, f1, g1⟩ := h1
  obtain ⟨a2, b2, d2, e2, f2, g2⟩ := h2
  exact ⟨by linarith, by linarith, by linarith, by linarith, by linarith,
    by linarith⟩

theorem googleKwImpressions_nonneg (kw : Keyword) (ρ : Rng) (pos : ℕ)
    (h01 : Unit01 ρ) (hkw : KeywordWF kw) : 0 ≤ googleKwImpressions kw ρ pos := by
  have hu : (10 : ℚ) ≤ uniform ρ pos 10 50 := le_uniform h01 (by norm_num)
  have hq : (0 : ℚ) ≤ kw.qualityScore := by linarith [hkw.1]
  have hm := (matchTypeMultiplier_bounds kw.matchType).1
  exact pyInt_nonneg (mul_nonneg (mul_nonneg hq hm) (by linarith))

theorem googleActualCtr_bounds {ctrMult : ℚ} {kw : Keyword}
    (hkw : KeywordWF kw) (hc0 : 0 ≤ ctrMult) (hc1 : ctrMult ≤ 6/5) :
    0 ≤ googleActualCtr ctrMult kw ∧ googleActualCtr ctrMult kw ≤ 1 := by
  obtain ⟨hq1, hq10⟩ := hkw
  constructor
  · unfold googleActualCtr
    positivity
  · unfold googleActualCtr
    nlinarith

theorem googleKwClicks_bounds (ctrMult : ℚ) (kw : Keyword) (ρ : Rng) (pos : ℕ)
    (h01 : Unit01 ρ) (hkw : KeywordWF kw) (hc0 : 0 ≤ ctrMult)
    (hc1 : ctrMult ≤ 6/5) :
    0 ≤ googleKwClicks ctrMult kw ρ pos ∧
      googleKwClicks ctrMult kw ρ pos ≤ googleKwImpressions kw ρ pos := by
  have hI := googleKwImpressions_nonneg kw ρ pos h01 hkw
  have hIq : (0 : ℚ) ≤ (googleKwImpressions kw ρ pos : ℚ) := by exact_mod_cast hI
  obtain ⟨hc0', hc1'⟩ := googleActualCtr_bounds hkw hc0 hc1
  constructor
  · exact pyInt_nonneg (by positivity)
  · exact pyInt_le_intCast (by positivity) (by nlinarith)

theorem googleKwCpc_nonneg (kw : Keyword) (ρ : Rng) (pos : ℕ)
    (h01 : Unit01 ρ) (hkw : KeywordWF kw) : 0 ≤ googleKwCpc kw ρ pos := by
  have hq0 : (0 : ℚ) < kw.qualityScore := by linarith [hkw.1]
  have h1 : (1 : ℚ) ≤ uniform ρ (pos + 1) 1 10 := le_uniform h01 (by norm_num)
  have h2 : (1/2 : ℚ) ≤ uniform ρ (pos + 2) (1/2) 2 := le_uniform h01 (by norm_num)
  unfold googleKwCpc calculateActualCpc
  rw [if_neg (by positivity)]
  have : (0 : ℚ) ≤ uniform ρ (pos + 1) 1 10 * uniform ρ (pos + 2) (1/2) 2 := by
    nlinarith
  positivity

theorem googleKwSpend_nonneg (ctrMult : ℚ) (kw : Keyword) (ρ : Rng) (pos : ℕ)
    (h01 : Unit01 ρ) (hkw : KeywordWF kw) (hc0 : 0 ≤ ctrMult)
    (hc1 : ctrMult ≤ 6/5) : 0 ≤ googleKwSpend ctrMult kw ρ pos := by
  have hC := (googleKwClicks_bounds ctrMult kw ρ pos h01 hkw hc0 hc1).1
  have hCq : (0 : ℚ) ≤ (googleKwClicks ctrMult kw ρ pos : ℚ) := by exact_mod_cast hC
  exact mul_nonneg hCq (googleKwCpc_nonneg kw ρ pos h01 hkw)

theorem googleKwConversions_bounds (ctrMult : ℚ) (kw : Keyword) (ρ : Rng)
    (pos : ℕ) (h01 : Unit01 ρ) (hkw : KeywordWF kw) (hc0 : 0 ≤ ctrMult)
    (hc1 : ctrMult ≤ 6/5) :
    0 ≤ googleKwConversions ctrMult kw ρ pos ∧
      googleKwConversions ctrMult kw ρ pos ≤ googleKwClicks ctrMult kw ρ pos := by
  obtain ⟨hq1, hq10⟩ := hkw
  have hC := (googleKwClicks_bounds ctrMult kw ρ pos h01 ⟨hq1, hq10⟩ hc0 hc1).1
  have hCq : (0 : ℚ) ≤ (googleKwClicks ctrMult kw ρ pos : ℚ) := by exact_mod_cast hC
  have hr0 : (0 : ℚ) ≤ 1/50 * (kw.qualityScore / 10) := by positivity
  have hr1 : 1/50 * (kw.qualityScore / 10) ≤ 1 := by nlinarith
  constructor
  · exact pyInt_nonneg (by positivity)
  · exact pyInt_le_intCast (by positivity) (by nlinarith)

theorem googleKeywordStep_ok {ctrMult dailyBudget dailySpend : ℚ} {kw : Keyword}
    {ρ : Rng} {pos : ℕ} (h01 : Unit01 ρ) (hkw : KeywordWF kw)
    (hc0 : 0 ≤ ctrMult) (hc1 : ctrMult ≤ 6/5)
    (hds0 : 0 ≤ dailySpend) (hdsb : dailySpend ≤ dailyBudget) :
    GoogleRecOk (googleKeywordStep ctrMult dailyBudget dailySpend kw ρ pos).1 ∧
      dailySpend + (googleKeywordStep ctrMult dailyBudget dailySpend kw ρ pos).1.spend
        ≤ dailyBudget := by
  have hI := googleKwImpressions_nonneg kw ρ pos h01 hkw
  obtain ⟨hC0, hCI⟩ := googleKwClicks_bounds ctrMult kw ρ pos h01 hkw hc0 hc1
  obtain ⟨hV0, hVC⟩ := googleKwConversions_bounds ctrMult kw ρ pos h01 hkw hc0 hc1
  have hS0 := googleKwSpend_nonneg ctrMult kw ρ pos h01 hkw hc0 hc1
  have hCq : (0 : ℚ) ≤ (googleKwClicks ctrMult kw ρ pos : ℚ) := by exact_mod_cast hC0
  have hVq : (0 : ℚ) ≤ (googleKwConversions ctrMult kw ρ pos : ℚ) := by
    exact_mod_cast hV0
  have hVCq : (googleKwConversions ctrMult kw ρ pos : ℚ)
      ≤ (googleKwClicks ctrMult kw ρ pos : ℚ) := by exact_mod_cast hVC
  rw [googleKeywordStep]
  split_ifs with htr
  · have hSpos : (0 : ℚ) < googleKwSpend ctrMult kw ρ pos := by
      rcases lt_or_eq_of_le hS0 with h | h
      · exact h
      · rw [← h] at htr
        linarith
    have hsc0 : 0 ≤ googleSpendScale ctrMult dailyBudget dailySpend kw ρ pos :=
      div_nonneg (by linarith) (le_of_lt hSpos)
    have hsc1 : googleSpendScale ctrMult dailyBudget dailySpend kw ρ pos ≤ 1 := by
      rw [googleSpendScale, div_le_one hSpos]
      linarith
    refine ⟨⟨hI, pyInt_nonneg (by positivity), pyInt_nonneg (by positivity),
      by simp only; linarith, ?_, ?_⟩, by simp only; linarith⟩
    · exact pyInt_mono (by positivity) (by nlinarith)
    · calc pyInt ((googleKwClicks ctrMult kw ρ pos : ℚ)
            * googleSpendScale ctrMult dailyBudget dailySpend kw ρ pos)
          ≤ googleKwClicks ctrMult kw ρ pos :=
            pyInt_le_intCast (by positivity) (by nlinarith)
        _ ≤ googleKwImpressions kw ρ pos := hCI
  · push_neg at htr
    exact ⟨⟨hI, hC0, hV0, hS0, hVC, hCI⟩, htr⟩

theorem googleKeywordStep_scaled_spend {ctrMult dailyBudget dailySpend : ℚ}
    {kw : Keyword} {ρ : Rng} {pos : ℕ}
    (h : (googleKeywordStep ctrMult dailyBudget dailySpend kw ρ pos).1.scaled = true) :
    dailySpend + (googleKeywordStep ctrMult dailyBudget dailySpend kw ρ pos).1.spend
      = dailyBudget := by
  rw [googleKeywordStep] at h ⊢
  split_ifs at h ⊢ with htr
  simp only
  ring

theorem googleKeywordLoop_ok {ctrMult dailyBudget : ℚ} {ρ : Rng}
    (h01 : Unit01 ρ) (hc0 : 0 ≤ ctrMult) (hc1 : ctrMult ≤ 6/5) :
    ∀ (kws : List Keyword) (acc : DayAcc), (∀ kw ∈ kws, KeywordWF kw) →
      CountersOk acc.impressions acc.clicks acc.conversions acc.spend →
      acc.spend ≤ dailyBudget →
      (∀ r ∈ (googleKeywordLoop ctrMult dailyBudget ρ kws acc).1, GoogleRecOk r) ∧
        CountersOk (googleKeywordLoop ctrMult dailyBudget ρ kws acc).2.impressions
          (googleKeywordLoop ctrMult dailyBudget ρ kws acc).2.clicks
          (googleKeywordLoop ctrMult dailyBudget ρ kws acc).2.conversions
          (googleKeywordLoop ctrMult dailyBudget ρ kws acc).2.spend ∧
        (googleKeywordLoop ctrMult dailyBudget ρ kws acc).2.spend ≤ dailyBudget := by
  intro kws
  induction kws with
  | nil =>
    intro acc _ hacc hsp
    simp only [googleKeywordLoop]
    exact ⟨by simp, hacc, hsp⟩
  | cons kw rest ih =>
    intro acc hwf hacc hsp
    have hkw : KeywordWF kw := hwf kw (by simp)
    obtain ⟨hrec, hstep⟩ := googleKeywordStep_ok h01 hkw hc0 hc1 hacc.2.2.2.1 hsp
    simp only [googleKeywordLoop]
    have hacc' : CountersOk
        (acc.impressions + (googleKeywordStep ctrMult dailyBudget acc.spend kw ρ acc.pos).1.impressions)
        (acc.clicks + (googleKeywordStep ctrMult dailyBudget acc.spend kw ρ acc.pos).1.clicks)
        (acc.conversions + (googleKeywordStep ctrMult dailyBudget acc.spend kw ρ acc.pos).1.conversions)
        (acc.spend + (googleKeywordStep ctrMult dailyBudget acc.spend kw ρ acc.pos).1.spend) :=
      CountersOk_add hacc hrec
    split_ifs with hstop
    · refine ⟨?_, hacc', hstep⟩
      intro r hr
      simp at hr
      rw [hr]
      exact hrec
    · have := ih ⟨acc.impressions + (googleKeywordStep ctrMult dailyBudget acc.spend kw ρ acc.pos).1.impressions,
        acc.clicks + (googleKeywordStep ctrMult dailyBudget acc.spend kw ρ acc.pos).1.clicks,
        acc.conversions + (googleKeywordStep ctrMult dailyBudget acc.spend kw ρ acc.pos).1.conversions,
        acc.spend + (googleKeywordStep ctrMult dailyBudget acc.spend kw ρ acc.pos).1.spend,
        (googleKeywordStep ctrMult dailyBudget acc.spend kw ρ acc.pos).2⟩
        (fun k hk => hwf k (by simp [hk])) hacc' hstep
      refine ⟨?_, this.2.1, this.2.2⟩
      intro r hr
      rcases List.mem_cons.mp hr with h | h
      · rw [h]; exact hrec
      · exact this.1 r h

theorem googleKeywordLoop_nonempty {ctrMult dailyBudget : ℚ} {ρ : Rng}
    (kw : Keyword) (rest : List Keyword) (acc : DayAcc) :
    (googleKeywordLoop ctrMult dailyBudget ρ (kw :: rest) acc).1 ≠ [] := by
  simp only [googleKeywordLoop]
  split_ifs <;> simp

theorem googleKeywordLoop_scaled_last {ctrMult dailyBudget : ℚ} {ρ : Rng} :
    ∀ (kws : List Keyword) (acc : DayAcc),
      ∀ r ∈ (googleKeywordLoop ctrMult dailyBudget ρ kws acc).1.dropLast,
        r.scaled = false := by
  intro kws
  induction kws with
  | nil =>
    intro acc r hr
    simp [googleKeywordLoop] at hr
  | cons kw rest ih =>
    intro acc r hr
    simp only [googleKeywordLoop] at hr
    split_ifs at hr with hstop
    · simp at hr
    · set s := googleKeywordStep ctrMult dailyBudget acc.spend kw ρ acc.pos with hs
      set acc' : DayAcc := ⟨acc.impressions + s.1.impressions,
        acc.clicks + s.1.clicks, acc.conversions + s.1.conversions,
        acc.spend + s.1.spend, s.2⟩ with hacc'
      have hhead : s.1.scaled = false := by
        by_contra hsc
        have hsc' : s.1.scaled = true := by
          cases h : s.1.scaled
          · exact absurd h hsc
          · rfl
        rw [hs] at hsc'
        have hspend := googleKeywordStep_scaled_spend hsc'
        rw [← hs] at hspend
        exact hstop (ge_of_eq hspend)
      rcases hcons : (googleKeywordLoop ctrMult dailyBudget ρ rest acc').1 with _ | ⟨a, l⟩
      · rw [hcons] at hr
        simp at hr
      · rw [hcons] at hr
        rw [List.dropLast_cons₂] at hr
        rcases List.mem_cons.mp hr with h | h
        · rw [h]; exact hhead
        · have := ih acc' r
          rw [hcons] at this
          exact this h

theorem googleAdGroupsDay_ok {dailyBudget : ℚ} {ρ : Rng} (h01 : Unit01 ρ) :
    ∀ (groups : List AdGroup) (acc : DayAcc),
      (∀ g ∈ groups, ∀ kw ∈ g.keywords, KeywordWF kw) →
      CountersOk acc.impressions acc.clicks acc.conversions acc.spend →
      acc.spend ≤ dailyBudget →
      (∀ gl ∈ (googleAdGroupsDay dailyBudget ρ groups acc).1, ∀ r ∈ gl,
        GoogleRecOk r) ∧
        CountersOk (googleAdGroupsDay dailyBudget ρ groups acc).2.impressions
          (googleAdGroupsDay dailyBudget ρ groups acc).2.clicks
          (googleAdGroupsDay dailyBudget ρ groups acc).2.conversions
          (googleAdGroupsDay dailyBudget ρ groups acc).2.spend ∧
        (googleAdGroupsDay dailyBudget ρ groups acc).2.spend ≤ dailyBudget := by
  intro groups
  induction groups with
  | nil =>
    intro acc _ hacc hsp
    simp only [googleAdGroupsDay]
    exact ⟨by simp, hacc, hsp⟩
  | cons g rest ih =>
    intro acc hwf hacc hsp
    simp only [googleAdGroupsDay]
    split_ifs with hact
    · obtain ⟨hc0, hc1⟩ := googleAdFormats_ctr_bounds (g.adFormat.getD "search")
      obtain ⟨hrecs, hacc', hsp'⟩ := googleKeywordLoop_ok h01 hc0 hc1 g.keywords acc
        (fun kw hk => hwf g (by simp) kw hk) hacc hsp
      obtain ⟨hrecs2, hacc'', hsp''⟩ := ih
        (googleKeywordLoop ((googleAdFormats (g.adFormat.getD "search")).1)
          dailyBudget ρ g.keywords acc).2
        (fun g' hg' kw hk => hwf g' (by simp [hg']) kw hk) hacc' hsp'
      refine ⟨?_, hacc'', hsp''⟩
      intro gl hgl r hr
      rcases List.mem_cons.mp hgl with h | h
      · exact hrecs r (h ▸ hr)
      · exact hrecs2 gl h r hr
    · obtain ⟨hrecs2, hacc'', hsp''⟩ := ih acc
        (fun g' hg' kw hk => hwf g' (by simp [hg']) kw hk) hacc hsp
      refine ⟨?_, hacc'', hsp''⟩
      intro gl hgl r hr
      rcases List.mem_cons.mp hgl with h | h
      · rw [h] at hr
        simp at hr
      · exact hrecs2 gl h r hr

theorem googleAdGroupsDay_scaled_last {dailyBudget : ℚ} {ρ : Rng} :
    ∀ (groups : List AdGroup) (acc : DayAcc),
      ∀ gl ∈ (googleAdGroupsDay dailyBudget ρ groups acc).1,
        ∀ r ∈ gl.dropLast, r.scaled = false := by
  intro groups
  induction groups with
  | nil =>
    intro acc gl hgl
    simp [googleAdGroupsDay] at hgl
  | cons g rest ih =>
    intro acc gl hgl
    simp only [googleAdGroupsDay] at hgl
    split_ifs at hgl with hact
    · rcases List.mem_cons.mp hgl with h | h
      · intro r hr
        exact googleKeywordLoop_scaled_last g.keywords acc r (h ▸ hr)
      · exact ih _ gl h
    · rcases List.mem_cons.mp hgl with h | h
      · intro r hr
        rw [h] at hr
        simp at hr
      · exact ih _ gl h

theorem googleAdGroupsDay_active_nonempty {dailyBudget : ℚ} {ρ : Rng} :
    ∀ (groups : List AdGroup) (acc : DayAcc),
      ∀ p ∈ groups.zip (googleAdGroupsDay dailyBudget ρ groups acc).1,
        p.1.status = "active" → p.1.keywords ≠ [] → p.2 ≠ [] := by
  intro groups
  induction groups with
  | nil =>
    intro acc p hp
    simp at hp
  | cons g rest ih =>
    intro acc p hp hact hkws
    simp only [googleAdGroupsDay] at hp
    split_ifs at hp with hact'
    · rcases List.mem_cons.mp hp with h | h
      · rw [h] at hact hkws ⊢
        simp only
        rcases hk : g.keywords with _ | ⟨kw, krest⟩
        · exact absurd hk hkws
        · rw [← hk]
          simp only [hk]
          exact googleKeywordLoop_nonempty kw krest acc
      · exact ih _ p h hact hkws
    · rcases List.mem_cons.mp hp with h | h
      · rw [h] at hact
        exact absurd hact hact'
      · exact ih _ p h hact hkws

theorem googleCampaignDays_ok {dailyBudget campaignBudget : ℚ}
    {groups : List AdGroup} {ρ : Rng} (h01 : Unit01 ρ)
    (hwf : ∀ g ∈ groups, ∀ kw ∈ g.keywords, KeywordWF kw)
    (hb0 : 0 ≤ dailyBudget) :
    ∀ (n : ℕ) (acc : CampAcc),
      CountersOk acc.impressions acc.clicks acc.conversions acc.spend →
      (∀ d ∈ (googleCampaignDays dailyBudget campaignBudget groups ρ n acc).1,
        CountersOk d.impressions d.clicks d.conversions d.spend ∧
          d.spend ≤ dailyBudget ∧ ∀ gl ∈ d.groups, ∀ r ∈ gl, GoogleRecOk r) ∧
        CountersOk
          (googleCampaignDays dailyBudget campaignBudget groups ρ n acc).2.impressions
          (googleCampaignDays dailyBudget campaignBudget groups ρ n acc).2.clicks
          (googleCampaignDays dailyBudget campaignBudget groups ρ n acc).2.conversions
          (googleCampaignDays dailyBudget campaignBudget groups ρ n acc).2.spend ∧
        (googleCampaignDays dailyBudget campaignBudget groups ρ n acc).2.spend
          ≤ acc.spend + n * dailyBudget := by
  intro n
  induction n with
  | zero =>
    intro acc hacc
    simp only [googleCampaignDays]
    exact ⟨by simp, hacc, by simp⟩
  | succ m ih =>
    intro acc hacc
    simp only [googleCampaignDays]
    obtain ⟨hdrecs, hday, hdsp⟩ := googleAdGroupsDay_ok h01 groups
      ⟨0, 0, 0, 0, acc.pos⟩ hwf (by refine ⟨le_refl 0, le_refl 0, le_refl 0, le_refl 0, le_refl 0, le_refl 0⟩) hb0
    have hdayrec : CountersOk
        (googleAdGroupsDay dailyBudget ρ groups ⟨0, 0, 0, 0, acc.pos⟩).2.impressions
        (googleAdGroupsDay dailyBudget ρ groups ⟨0, 0, 0, 0, acc.pos⟩).2.clicks
        (googleAdGroupsDay dailyBudget ρ groups ⟨0, 0, 0, 0, acc.pos⟩).2.conversions
        (googleAdGroupsDay dailyBudget ρ groups ⟨0, 0, 0, 0, acc.pos⟩).2.spend ∧
        (googleAdGroupsDay dailyBudget ρ groups ⟨0, 0, 0, 0, acc.pos⟩).2.spend
          ≤ dailyBudget ∧
        ∀ gl ∈ (googleAdGroupsDay dailyBudget ρ groups ⟨0, 0, 0, 0, acc.pos⟩).1,
          ∀ r ∈ gl, GoogleRecOk r := ⟨hday, hdsp, hdrecs⟩
    have hacc' : CountersOk
        (acc.impressions + (googleAdGroupsDay dailyBudget ρ groups ⟨0, 0, 0, 0, acc.pos⟩).2.impressions)
        (acc.clicks + (googleAdGroupsDay dailyBudget ρ groups ⟨0, 0, 0, 0, acc.pos⟩).2.clicks)
        (acc.conversions + (googleAdGroupsDay dailyBudget ρ groups ⟨0, 0, 0, 0, acc.pos⟩).2.conversions)
        (acc.spend + (googleAdGroupsDay dailyBudget ρ groups ⟨0, 0, 0, 0, acc.pos⟩).2.spend) :=
      CountersOk_add hacc hday
    split_ifs with hstop
    · refine ⟨?_, hacc', ?_⟩
      · intro d hd
        simp at hd
        rw [hd]
        exact ⟨hday, hdsp, hdrecs⟩
      · have : (0 : ℚ) ≤ m * dailyBudget := by positivity
        push_cast
        linarith
    · obtain ⟨ih1, ih2, ih3⟩ := ih ⟨acc.impressions + (googleAdGroupsDay dailyBudget ρ groups ⟨0, 0, 0, 0, acc.pos⟩).2.impressions,
        acc.clicks + (googleAdGroupsDay dailyBudget ρ groups ⟨0, 0, 0, 0, acc.pos⟩).2.clicks,
        acc.conversions + (googleAdGroupsDay dailyBudget ρ groups ⟨0, 0, 0, 0, acc.pos⟩).2.conversions,
        acc.spend + (googleAdGroupsDay dailyBudget ρ groups ⟨0, 0, 0, 0, acc.pos⟩).2.spend,
        (googleAdGroupsDay dailyBudget ρ groups ⟨0, 0, 0, 0, acc.pos⟩).2.pos⟩ hacc'
      refine ⟨?_, ih2, ?_⟩
      · intro d hd
        rcases List.mem_cons.mp hd with h | h
        · rw [h]
          exact ⟨hday, hdsp, hdrecs⟩
        · exact ih1 d h
      · have := ih3
        dsimp only at this
        push_cast
        push_cast at this
        linarith

theorem googleProcessCampaign_ok {days : ℕ} {ρ : Rng} (h01 : Unit01 ρ)
    (c : GoogleCampaign) (acc : GoogleAcc) (hwf : GoogleCampaignWF c)
    (ht : ∀ t ∈ acc.traces, GoogleTraceOk days t)
    (he : ∀ p ∈ acc.entries, RatiosOk p.2)
    (ha : CountersOk acc.impressions acc.clicks acc.conversions acc.spend) :
    (∀ t ∈ (googleProcessCampaign days ρ c acc).traces, GoogleTraceOk days t) ∧
      (∀ p ∈ (googleProcessCampaign days ρ c acc).entries, RatiosOk p.2) ∧
      CountersOk (googleProcessCampaign days ρ c acc).impressions
        (googleProcessCampaign days ρ c acc).clicks
        (googleProcessCampaign days ρ c acc).conversions
        (googleProcessCampaign days ρ c acc).spend := by
  obtain ⟨hb0, hkwf⟩ := hwf
  have hzero : CountersOk (0 : ℤ) 0 0 (0 : ℚ) :=
    ⟨le_refl 0, le_refl 0, le_refl 0, le_refl 0, le_refl 0, le_refl 0⟩
  obtain ⟨hd1, hd2, hd3⟩ := googleCampaignDays_ok h01 hkwf hb0 days
    ⟨0, 0, 0, 0, acc.pos⟩ hzero
  simp only [googleProcessCampaign]
  refine ⟨?_, ?_, CountersOk_add ha hd2⟩
  · intro t htr
    rcases List.mem_append.mp htr with h | h
    · exact ht t h
    · simp at h
      rw [h]
      refine ⟨hb0, rfl, hd1, hd2, ?_⟩
      dsimp only at hd3 ⊢
      calc (googleCampaignDays (c.dailyBudget.getD 100)
            (c.dailyBudget.getD 100 * (days : ℚ)) c.adGroups ρ days
            ⟨0, 0, 0, 0, acc.pos⟩).2.spend
          ≤ 0 + (days : ℚ) * c.dailyBudget.getD 100 := by simpa using hd3
        _ = c.dailyBudget.getD 100 * (days : ℚ) := by ring
  · intro p hp
    rcases List.mem_append.mp hp with h | h
    · exact he p h
    · simp at h
      rw [h]
      exact ⟨rfl, rfl, ⟨c.convValue.getD 10, rfl⟩⟩

theorem googleCampaignLoop_ok {days : ℕ} {ρ : Rng} (h01 : Unit01 ρ) :
    ∀ (campaigns : List GoogleCampaign) (acc : GoogleAcc),
      (∀ c ∈ campaigns, GoogleCampaignWF c) →
      (∀ t ∈ acc.traces, GoogleTraceOk days t) →
      (∀ p ∈ acc.entries, RatiosOk p.2) →
      CountersOk acc.impressions acc.clicks acc.conversions acc.spend →
      (∀ t ∈ (googleCampaignLoop days ρ campaigns acc).traces, GoogleTraceOk days t) ∧
        (∀ p ∈ (googleCampaignLoop days ρ campaigns acc).entries, RatiosOk p.2) ∧
        CountersOk (googleCampaignLoop days ρ campaigns acc).impressions
          (googleCampaignLoop days ρ campaigns acc).clicks
          (googleCampaignLoop days ρ campaigns acc).conversions
          (googleCampaignLoop days ρ campaigns acc).spend := by
  intro campaigns
  induction campaigns with
  | nil =>
    intro acc _ ht he ha
    simp only [googleCampaignLoop]
    exact ⟨ht, he, ha⟩
  | cons c rest ih =>
    intro acc hwf ht he ha
    simp only [googleCampaignLoop]
    split_ifs with hact
    · obtain ⟨h1, h2, h3⟩ := googleProcessCampaign_ok h01 c acc (hwf c (by simp))
        ht he ha
      exact ih _ (fun c' hc' => hwf c' (by simp [hc'])) h1 h2 h3
    · exact ih acc (fun c' hc' => hwf c' (by simp [hc'])) ht he ha

theorem googleRunSimulation_ok {campaigns : List GoogleCampaign} {days : ℕ}
    {ρ : Rng} (h01 : Unit01 ρ) (hwf : ∀ c ∈ campaigns, GoogleCampaignWF c) :
    (∀ t ∈ (googleRunSimulation campaigns days ρ).traces, GoogleTraceOk days t) ∧
      (∀ p ∈ (googleRunSimulation campaigns days ρ).campaigns, RatiosOk p.2) ∧
      CountersOk (googleRunSimulation campaigns days ρ).totals.impressions
        (googleRunSimulation campaigns days ρ).totals.clicks
        (googleRunSimulation campaigns days ρ).totals.conversions
        (googleRunSimulation campaigns days ρ).totals.spend ∧
      TotalRatiosOk (googleRunSimulation campaigns days ρ).totals := by
  have hzero : CountersOk (0 : ℤ) 0 0 (0 : ℚ) :=
    ⟨le_refl 0, le_refl 0, le_refl 0, le_refl 0, le_refl 0, le_refl 0⟩
  obtain ⟨h1, h2, h3⟩ := googleCampaignLoop_ok h01 campaigns ⟨[], [], 0, 0, 0, 0, 0⟩
    hwf (by simp) (by simp) hzero
  exact ⟨h1, h2, h3, rfl, rfl⟩

theorem googleKeywordLoop_records {ctrMult dailyBudget : ℚ} {ρ : Rng}
    (P : KwRec → Prop)
    (hP : ∀ ds kw pos, P (googleKeywordStep ctrMult dailyBudget ds kw ρ pos).1) :
    ∀ (kws : List Keyword) (acc : DayAcc),
      ∀ r ∈ (googleKeywordLoop ctrMult dailyBudget ρ kws acc).1, P r := by
  intro kws
  induction kws with
  | nil =>
    intro acc r hr
    simp [googleKeywordLoop] at hr
  | cons kw rest ih =>
    intro acc r hr
    simp only [googleKeywordLoop] at hr
    split_ifs at hr with hstop
    · simp at hr
      rw [hr]
      exact hP acc.spend kw acc.pos
    · rcases List.mem_cons.mp hr with h | h
      · rw [h]
        exact hP acc.spend kw acc.pos
      · exact ih _ r h

theorem googleAdGroupsDay_records {dailyBudget : ℚ} {ρ : Rng} (P : KwRec → Prop)
    (hP : ∀ ctrMult ds kw pos, P (googleKeywordStep ctrMult dailyBudget ds kw ρ pos).1) :
    ∀ (groups : List AdGroup) (acc : DayAcc),
      ∀ gl ∈ (googleAdGroupsDay dailyBudget ρ groups acc).1, ∀ r ∈ gl, P r := by
  intro groups
  induction groups with
  | nil =>
    intro acc gl hgl
    simp [googleAdGroupsDay] at hgl
  | cons g rest ih =>
    intro acc gl hgl
    simp only [googleAdGroupsDay] at hgl
    split_ifs at hgl with hact
    · rcases List.mem_cons.mp hgl with h | h
      · intro r hr
        exact googleKeywordLoop_records P (fun ds kw pos => hP _ ds kw pos)
          g.keywords acc r (h ▸ hr)
      · exact ih _ gl h
    · rcases List.mem_cons.mp hgl with h | h
      · intro r hr
        rw [h] at hr
        simp at hr
      · exact ih _ gl h

theorem googleCampaignDays_records {dailyBudget campaignBudget : ℚ}
    {groups : List AdGroup} {ρ : Rng} (P : KwRec → Prop)
    (hP : ∀ ctrMult ds kw pos, P (googleKeywordStep ctrMult dailyBudget ds kw ρ pos).1) :
    ∀ (n : ℕ) (acc : CampAcc),
      ∀ d ∈ (googleCampaignDays dailyBudget campaignBudget groups ρ n acc).1,
        ∀ gl ∈ d.groups, ∀ r ∈ gl, P r := by
  intro n
  induction n with
  | zero =>
    intro acc d hd
    simp [googleCampaignDays] at hd
  | succ m ih =>
    intro acc d hd
    simp only [googleCampaignDays] at hd
    split_ifs at hd with hstop
    · simp at hd
      rw [hd]
      exact googleAdGroupsDay_records P hP groups _
    · rcases List.mem_cons.mp hd with h | h
      · rw [h]
        exact googleAdGroupsDay_records P hP groups _
      · exact ih _ d h

theorem googleRunSimulation_records {campaigns : List GoogleCampaign} {days : ℕ}
    {ρ : Rng} (P : KwRec → Prop)
    (hP : ∀ ctrMult dailyBudget ds kw pos, P (googleKeywordStep ctrMult dailyBudget ds kw ρ pos).1) :
    ∀ t ∈ (googleRunSimulation campaigns days ρ).traces,
      ∀ d ∈ t.days, ∀ gl ∈ d.groups, ∀ r ∈ gl, P r := by
  suffices h : ∀ (cs : List GoogleCampaign) (acc : GoogleAcc),
      (∀ t ∈ acc.traces, ∀ d ∈ t.days, ∀ gl ∈ d.groups, ∀ r ∈ gl, P r) →
      ∀ t ∈ (googleCampaignLoop days ρ cs acc).traces,
        ∀ d ∈ t.days, ∀ gl ∈ d.groups, ∀ r ∈ gl, P r by
    exact h campaigns ⟨[], [], 0, 0, 0, 0, 0⟩ (by simp)
  intro cs
  induction cs with
  | nil =>
    intro acc hacc
    simp only [googleCampaignLoop]
    exact hacc
  | cons c rest ih =>
    intro acc hacc
    simp only [googleCampaignLoop]
    split_ifs with hact
    · apply ih
      intro t htr
      simp only [googleProcessCampaign] at htr
      rcases List.mem_append.mp htr with h | h
      · exact hacc t h
      · simp at h
        rw [h]
        intro d hd
        exact googleCampaignDays_records P (fun cm ds kw pos => hP cm _ ds kw pos)
          days _ d hd
    · exact ih acc hacc

theorem googleCampaignLoop_entries_sub {days : ℕ} {ρ : Rng} :
    ∀ (campaigns : List GoogleCampaign) (acc : GoogleAcc),
      ∀ p ∈ (googleCampaignLoop days ρ campaigns acc).entries,
        p.1 ∈ acc.entries.map Prod.fst ∨ p.1 ∈ campaigns.map GoogleCampaign.id := by
  intro campaigns
  induction campaigns with
  | nil =>
    intro acc p hp
    simp only [googleCampaignLoop] at hp
    exact Or.inl (List.mem_map_of_mem Prod.fst hp)
  | cons c rest ih =>
    intro acc p hp
    simp only [googleCampaignLoop] at hp
    split_ifs at hp with hact
    · rcases ih _ p hp with h | h
      · simp only [googleProcessCampaign, List.map_append, List.mem_append] at h
        rcases h with h | h
        · exact Or.inl h
        · simp at h
          simp [h]
      · exact Or.inr (by simp only [List.map_cons, List.mem_cons]; exact Or.inr h)
    · rcases ih acc p hp with h | h
      · exact Or.inl h
      · exact Or.inr (by simp only [List.map_cons, List.mem_cons]; exact Or.inr h)

theorem googleCampaignLoop_skip {days : ℕ} {ρ : Rng} {c : GoogleCampaign}
    (hc : c.status ≠ "active") :
    ∀ (pre post : List GoogleCampaign) (acc : GoogleAcc),
      googleCampaignLoop days ρ (pre ++ c :: post) acc
        = googleCampaignLoop days ρ (pre ++ post) acc := by
  intro pre
  induction pre with
  | nil =>
    intro post acc
    simp only [List.nil_append, googleCampaignLoop]
    rw [if_neg hc]
  | cons d rest ih =>
    intro post acc
    simp only [List.cons_append, googleCampaignLoop]
    split_ifs with hact
    · exact ih post _
    · exact ih post acc

/-! ## Reach-engine invariants -/

theorem CountersOkW_add {i1 c1 v1 i2 c2 v2 : ℤ} {s1 s2 : ℚ}
    (h1 : CountersOkW i1 c1 v1 s1) (h2 : CountersOkW i2 c2 v2 s2) :
    CountersOkW (i1 + i2) (c1 + c2) (v1 + v2) (s1 + s2) := by
  obtain ⟨a1, b1, d1, e1, f1⟩ := h1
  obtain ⟨a2, b2, d2, e2, f2⟩ := h2
  exact ⟨by linarith, by linarith, by linarith, by linarith, by linarith⟩

theorem metaDefaultAudience_wf : AudienceWF metaDefaultAudience := by
  refine ⟨by norm_num [metaDefaultAudience], by norm_num [metaDefaultAudience],
    by norm_num [metaDefaultAudience], by norm_num [metaDefaultAudience]⟩

theorem lookup_mem_pair {β : Type} {l : List (String × β)} {k : String} {v : β}
    (h : l.lookup k = some v) : (k, v) ∈ l := by
  induction l with
  | nil => simp [List.lookup] at h
  | cons p rest ih =>
    obtain ⟨a, b⟩ := p
    cases hbeq : (k == a) with
    | true =>
      have hk : k = a := eq_of_beq hbeq
      simp [List.lookup, hbeq] at h
      simp [hk, h]
    | false =>
      simp [List.lookup, hbeq] at h
      exact List.mem_cons_of_mem _ (ih h)

theorem metaAdSetAudience_wf {audiences : List (String × Audience)}
    (hw : ∀ a ∈ audiences, AudienceWF a.2) (s : MetaAdSet) :
    AudienceWF (metaAdSetAudience audiences s) := by
  unfold metaAdSetAudience
  rcases hl : audiences.lookup (s.audience.getD "default") with _ | a
  · simpa using metaDefaultAudience_wf
  · have hmem : ((s.audience.getD "default"), a) ∈ audiences :=
      lookup_mem_pair hl
    simpa using hw _ hmem

theorem metaAdSetAudience_cap {audiences : List (String × Audience)}
    (hcap : ∀ a ∈ audiences, a.2.ctrBase ≤ 25/52) (s : MetaAdSet) :
    (metaAdSetAudience audiences s).ctrBase ≤ 25/52 := by
  unfold metaAdSetAudience
  rcases hl : audiences.lookup (s.audience.getD "default") with _ | a
  · norm_num [metaDefaultAudience]
  · have hmem : ((s.audience.getD "default"), a) ∈ audiences :=
      lookup_mem_pair hl
    simpa using hcap _ hmem

theorem calculateAudienceReach_nonneg {t : MetaTargeting}
    (hwf : MetaTargetingWF t) : 0 ≤ calculateAudienceReach t := by
  unfold calculateAudienceReach
  apply pyInt_nonneg
  have hage : (0 : ℚ) ≤ min ((t.ageMax.getD 65 - t.ageMin.getD 18) / 50) 1 := by
    apply le_min
    · have h := hwf
      unfold MetaTargetingWF at h
      linarith
    · norm_num
  have hgen : (0 : ℚ) ≤ (if t.gender.getD "" = "male" ∨ t.gender.getD "" = "female"
      then (1 : ℚ)/2 else 1) := by
    split_ifs <;> norm_num
  have hloc : (0 : ℚ) ≤ min ((t.locations.length : ℚ) / 5) 1 := by
    apply le_min
    · positivity
    · norm_num
  have hint : (0 : ℚ) ≤ max (1/10) (1 - (t.interests.length : ℚ) * (1/10)) :=
    le_trans (by norm_num) (le_max_left _ _)
  have h1000 : (0 : ℚ) ≤ 1000000 := by norm_num
  exact mul_nonneg (mul_nonneg (mul_nonneg (mul_nonneg h1000 hage) hgen) hloc) hint

theorem metaRawImpressions_nonneg (potentialReach : ℤ) (pd : PlacementData)
    (ρ : Rng) (pos : ℕ) (h01 : Unit01 ρ) (hpr : 0 ≤ potentialReach)
    (hrf : 0 ≤ pd.reachFactor) :
    0 ≤ metaRawImpressions potentialReach pd ρ pos := by
  have hdf : (4/5 : ℚ) ≤ uniform ρ pos (4/5) (6/5) := le_uniform h01 (by norm_num)
  have hprq : (0 : ℚ) ≤ (potentialReach : ℚ) := by exact_mod_cast hpr
  have hreach : 0 ≤ metaDailyReach potentialReach pd ρ pos := by
    apply pyInt_nonneg
    have h1 : (0 : ℚ) ≤ (potentialReach : ℚ) * pd.reachFactor * uniform ρ pos (4/5) (6/5) :=
      mul_nonneg (mul_nonneg hprq hrf) (by linarith)
    linarith
  have hv : (0 : ℚ) ≤ 1 + uniform ρ (pos + 1) (-(1/5)) (1/5) := by
    have := @le_uniform ρ (pos + 1) (-(1/5)) (1/5) h01 (by norm_num)
    linarith
  apply pyInt_nonneg
  have hrq : (0 : ℚ) ≤ (metaDailyReach potentialReach pd ρ pos : ℚ) := by
    exact_mod_cast hreach
  exact mul_nonneg hrq hv

theorem metaDailyCtr_bounds (aud : Audience) (pd : PlacementData) (ad : MetaAd)
    (ρ : Rng) (pos : ℕ) (h01 : Unit01 ρ) (haud : AudienceWF aud)
    (had : MetaAdWF ad) (hcf0 : 0 ≤ pd.ctrFactor) (hcf1 : pd.ctrFactor ≤ 8/5) :
    0 ≤ metaDailyCtr aud pd ad ρ pos ∧
      (aud.ctrBase ≤ 25/52 → metaDailyCtr aud pd ad ρ pos ≤ 1) := by
  obtain ⟨hcb0, hcb1, _, _⟩ := haud
  obtain ⟨hr1, hr10⟩ := had
  have hv0 : (0 : ℚ) ≤ 1 + uniform ρ (pos + 2) (-(3/10)) (3/10) := by
    have := @le_uniform ρ (pos + 2) (-(3/10)) (3/10) h01 (by norm_num)
    linarith
  have hv1 : 1 + uniform ρ (pos + 2) (-(3/10)) (3/10) ≤ 13/10 := by
    have := @uniform_le ρ (pos + 2) (-(3/10)) (3/10) h01 (by norm_num)
    linarith
  constructor
  · unfold metaDailyCtr
    have : (0 : ℚ) ≤ ad.relevanceScore / 10 := by linarith
    have hb : (0 : ℚ) ≤ aud.ctrBase := le_of_lt hcb0
    exact mul_nonneg (mul_nonneg (mul_nonneg hb hcf0) this) hv0
  · intro hcap
    unfold metaDailyCtr
    have hrel : ad.relevanceScore / 10 ≤ 1 := by linarith
    have hrel0 : (0 : ℚ) ≤ ad.relevanceScore / 10 := by linarith
    have hb : (0 : ℚ) ≤ aud.ctrBase := le_of_lt hcb0
    have hab : aud.ctrBase * pd.ctrFactor ≤ 10/13 := by
      calc aud.ctrBase * pd.ctrFactor ≤ (25/52) * (8/5) :=
            mul_le_mul hcap hcf1 hcf0 (by norm_num)
        _ = 10/13 := by norm_num
    have hab0 : (0 : ℚ) ≤ aud.ctrBase * pd.ctrFactor := mul_nonneg hb hcf0
    have habc : aud.ctrBase * pd.ctrFactor * (ad.relevanceScore / 10) ≤ 10/13 := by
      calc aud.ctrBase * pd.ctrFactor * (ad.relevanceScore / 10)
          ≤ (10/13) * 1 := mul_le_mul hab hrel hrel0 (by norm_num)
        _ = 10/13 := by norm_num
    have habc0 : (0 : ℚ) ≤ aud.ctrBase * pd.ctrFactor * (ad.relevanceScore / 10) :=
      mul_nonneg hab0 hrel0
    calc aud.ctrBase * pd.ctrFactor * (ad.relevanceScore / 10)
          * (1 + uniform ρ (pos + 2) (-(3/10)) (3/10))
        ≤ (10/13) * (13/10) := mul_le_mul habc hv1 hv0 (by norm_num)
      _ = 1 := by norm_num

theorem metaRawClicks_bounds (aud : Audience) (potentialReach : ℤ)
    (pd : PlacementData) (ad : MetaAd) (ρ : Rng) (pos : ℕ) (h01 : Unit01 ρ)
    (haud : AudienceWF aud) (had : MetaAdWF ad) (hpr : 0 ≤ potentialReach)
    (hrf : 0 ≤ pd.reachFactor) (hcf0 : 0 ≤ pd.ctrFactor)
    (hcf1 : pd.ctrFactor ≤ 8/5) :
    0 ≤ metaRawClicks aud potentialReach pd ad ρ pos ∧
      (aud.ctrBase ≤ 25/52 →
        metaRawClicks aud potentialReach pd ad ρ pos
          ≤ metaRawImpressions potentialReach pd ρ pos) := by
  have hI := metaRawImpressions_nonneg potentialReach pd ρ pos h01 hpr hrf
  have hIq : (0 : ℚ) ≤ (metaRawImpressions potentialReach pd ρ pos : ℚ) := by
    exact_mod_cast hI
  obtain ⟨hc0, hc1⟩ := metaDailyCtr_bounds aud pd ad ρ pos h01 haud had hcf0 hcf1
  constructor
  · exact pyInt_nonneg (mul_nonneg hIq hc0)
  · intro hcap
    exact pyInt_le_intCast (mul_nonneg hIq hc0) (by nlinarith [hc1 hcap])

theorem metaDailyCpm_nonneg (pd : PlacementData) (ad : MetaAd) (ρ : Rng)
    (pos : ℕ) (h01 : Unit01 ρ) (had : MetaAdWF ad) (hcpm : 0 ≤ pd.cpmBase) :
    0 ≤ metaDailyCpm pd ad ρ pos := by
  obtain ⟨hr1, _⟩ := had
  have hv0 : (0 : ℚ) ≤ 1 + uniform ρ (pos + 3) (-(1/5)) (1/5) := by
    have := @le_uniform ρ (pos + 3) (-(1/5)) (1/5) h01 (by norm_num)
    linarith
  unfold metaDailyCpm
  have : (0 : ℚ) ≤ 1/2 + ad.relevanceScore / 10 := by linarith
  exact mul_nonneg (mul_nonneg hcpm this) hv0

theorem metaRawSpend_nonneg (potentialReach : ℤ) (pd : PlacementData)
    (ad : MetaAd) (ρ : Rng) (pos : ℕ) (h01 : Unit01 ρ) (had : MetaAdWF ad)
    (hpr : 0 ≤ potentialReach) (hrf : 0 ≤ pd.reachFactor)
    (hcpm : 0 ≤ pd.cpmBase) : 0 ≤ metaRawSpend potentialReach pd ad ρ pos := by
  have hI := metaRawImpressions_nonneg potentialReach pd ρ pos h01 hpr hrf
  have hIq : (0 : ℚ) ≤ (metaRawImpressions potentialReach pd ρ pos : ℚ) := by
    exact_mod_cast hI
  unfold metaRawSpend
  exact mul_nonneg (by linarith) (metaDailyCpm_nonneg pd ad ρ pos h01 had hcpm)

theorem metaDayStep_ok {ad : MetaAd} {potentialReach : ℤ} {pd : PlacementData}
    {aud : Audience} {objective : String} {adSetBudget adSetSpend : ℚ}
    {ρ : Rng} {pos : ℕ} (h01 : Unit01 ρ) (had : MetaAdWF ad)
    (haud : AudienceWF aud) (hpr : 0 ≤ potentialReach)
    (hrf : 0 ≤ pd.reachFactor) (hcf0 : 0 ≤ pd.ctrFactor)
    (hcf1 : pd.ctrFactor ≤ 8/5) (hcpm : 0 ≤ pd.cpmBase)
    (hds0 : 0 ≤ adSetSpend) (hdsb : adSetSpend ≤ adSetBudget) :
    MetaRecOk (metaDayStep ad potentialReach pd aud objective adSetBudget
      adSetSpend ρ pos).1 ∧
      adSetSpend + (metaDayStep ad potentialReach pd aud objective adSetBudget
        adSetSpend ρ pos).1.spend ≤ adSetBudget ∧
      (aud.ctrBase ≤ 25/52 →
        (metaDayStep ad potentialReach pd aud objective adSetBudget
          adSetSpend ρ pos).1.clicks
          ≤ (metaDayStep ad potentialReach pd aud objective adSetBudget
            adSetSpend ρ pos).1.impressions) := by
  have hI := metaRawImpressions_nonneg potentialReach pd ρ pos h01 hpr hrf
  have hIq : (0 : ℚ) ≤ (metaRawImpressions potentialReach pd ρ pos : ℚ) := by
    exact_mod_cast hI
  obtain ⟨hC0, hCI⟩ := metaRawClicks_bounds aud potentialReach pd ad ρ pos h01
    haud had hpr hrf hcf0 hcf1
  have hCq : (0 : ℚ) ≤ (metaRawClicks aud potentialReach pd ad ρ pos : ℚ) := by
    exact_mod_cast hC0
  have hS0 := metaRawSpend_nonneg potentialReach pd ad ρ pos h01 had hpr hrf hcpm
  obtain ⟨hcb0, hcb1, hcv0, hcv1⟩ := haud
  obtain ⟨hr1, hr10⟩ := had
  have hmul := metaConversionRateMultiplier_bounds objective
  have hrate0 : 0 ≤ aud.convRate * metaConversionRateMultiplier objective
      * (ad.relevanceScore / 10) := by
    have : (0 : ℚ) ≤ ad.relevanceScore / 10 := by linarith
    have hv : (0 : ℚ) ≤ aud.convRate := le_of_lt hcv0
    exact mul_nonneg (mul_nonneg hv hmul.1) this
  have hrate1 : aud.convRate * metaConversionRateMultiplier objective
      * (ad.relevanceScore / 10) ≤ 1 := by
    have h1 : ad.relevanceScore / 10 ≤ 1 := by linarith
    have h0 : (0 : ℚ) ≤ ad.relevanceScore / 10 := by linarith
    have hv : (0 : ℚ) ≤ aud.convRate := le_of_lt hcv0
    have hab : aud.convRate * metaConversionRateMultiplier objective ≤ 1 := by
      calc aud.convRate * metaConversionRateMultiplier objective
          ≤ 1 * 1 := mul_le_mul hcv1 hmul.2 hmul.1 (by norm_num)
        _ = 1 := by norm_num
    have hab0 : (0 : ℚ) ≤ aud.convRate * metaConversionRateMultiplier objective :=
      mul_nonneg hv hmul.1
    calc aud.convRate * metaConversionRateMultiplier objective
          * (ad.relevanceScore / 10) ≤ 1 * 1 := mul_le_mul hab h1 h0 (by norm_num)
      _ = 1 := by norm_num
  rw [metaDayStep]
  split_ifs with htr
  · have hSpos : (0 : ℚ) < metaRawSpend potentialReach pd ad ρ pos := by
      rcases lt_or_eq_of_le hS0 with h | h
      · exact h
      · rw [← h] at htr
        linarith
    have hsc0 : 0 ≤ (adSetBudget - adSetSpend) / metaRawSpend potentialReach pd ad ρ pos :=
      div_nonneg (by linarith) (le_of_lt hSpos)
    have hsc1 : (adSetBudget - adSetSpend) / metaRawSpend potentialReach pd ad ρ pos ≤ 1 := by
      rw [div_le_one hSpos]
      linarith
    have hC'0 : 0 ≤ pyInt ((metaRawClicks aud potentialReach pd ad ρ pos : ℚ)
        * ((adSetBudget - adSetSpend) / metaRawSpend potentialReach pd ad ρ pos)) :=
      pyInt_nonneg (mul_nonneg hCq hsc0)
    have hC'q : (0 : ℚ) ≤ (pyInt ((metaRawClicks aud potentialReach pd ad ρ pos : ℚ)
        * ((adSetBudget - adSetSpend) / metaRawSpend potentialReach pd ad ρ pos)) : ℚ) := by
      exact_mod_cast hC'0
    refine ⟨⟨pyInt_nonneg (mul_nonneg hIq hsc0), hC'0,
      pyInt_nonneg (mul_nonneg hC'q hrate0), by dsimp only; linarith,
      pyInt_le_intCast (mul_nonneg hC'q hrate0) (by nlinarith)⟩,
      by dsimp only; linarith, ?_⟩
    intro hcap
    dsimp only
    have hCIq : (metaRawClicks aud potentialReach pd ad ρ pos : ℚ)
        ≤ (metaRawImpressions potentialReach pd ρ pos : ℚ) := by
      exact_mod_cast hCI hcap
    exact pyInt_mono (mul_nonneg hCq hsc0) (mul_le_mul_of_nonneg_right hCIq hsc0)
  · push_neg at htr
    have hV0 : 0 ≤ pyInt ((metaRawClicks aud potentialReach pd ad ρ pos : ℚ)
        * (aud.convRate * metaConversionRateMultiplier objective
          * (ad.relevanceScore / 10))) := pyInt_nonneg (mul_nonneg hCq hrate0)
    refine ⟨⟨hI, hC0, hV0, hS0,
      pyInt_le_intCast (mul_nonneg hCq hrate0) (by nlinarith)⟩, htr, ?_⟩
    intro hcap
    exact hCI hcap

theorem metaDayLoop_ok {ad : MetaAd} {potentialReach : ℤ} {pd : PlacementData}
    {aud : Audience} {objective : String} {adSetBudget : ℚ} {ρ : Rng}
    (h01 : Unit01 ρ) (had : MetaAdWF ad) (haud : AudienceWF aud)
    (hpr : 0 ≤ potentialReach) (hrf : 0 ≤ pd.reachFactor)
    (hcf0 : 0 ≤ pd.ctrFactor) (hcf1 : pd.ctrFactor ≤ 8/5)
    (hcpm : 0 ≤ pd.cpmBase) :
    ∀ (n : ℕ) (acc : AdSetAcc),
      CountersOkW acc.impressions acc.clicks acc.conversions acc.spend →
      acc.spend ≤ adSetBudget →
      (aud.ctrBase ≤ 25/52 → acc.clicks ≤ acc.impressions) →
      (∀ r ∈ (metaDayLoop ad potentialReach pd aud objective adSetBudget ρ n acc).1,
        MetaRecOk r ∧ (aud.ctrBase ≤ 25/52 → r.clicks ≤ r.impressions)) ∧
        CountersOkW (metaDayLoop ad potentialReach pd aud objective adSetBudget ρ n acc).2.impressions
          (metaDayLoop ad potentialReach pd aud objective adSetBudget ρ n acc).2.clicks
          (metaDayLoop ad potentialReach pd aud objective adSetBudget ρ n acc).2.conversions
          (metaDayLoop ad potentialReach pd aud objective adSetBudget ρ n acc).2.spend ∧
        (metaDayLoop ad potentialReach pd aud objective adSetBudget ρ n acc).2.spend
          ≤ adSetBudget ∧
        (aud.ctrBase ≤ 25/52 →
          (metaDayLoop ad potentialReach pd aud objective adSetBudget ρ n acc).2.clicks
            ≤ (metaDayLoop ad potentialReach pd aud objective adSetBudget ρ n acc).2.impressions) := by
  intro n
  induction n with
  | zero =>
    intro acc hacc hsp hcap
    simp only [metaDayLoop]
    exact ⟨by simp, hacc, hsp, hcap⟩
  | succ m ih =>
    intro acc hacc hsp hcap
    simp only [metaDayLoop]
    split_ifs with hstop
    · exact ⟨by simp, hacc, hsp, hcap⟩
    · push_neg at hstop
      obtain ⟨hrec, hbud, hcnd⟩ := metaDayStep_ok h01 had haud hpr hrf hcf0 hcf1
        hcpm hacc.2.2.2.1 (le_of_lt hstop)
      obtain ⟨ih1, ih2, ih3, ih4⟩ := ih
        ⟨acc.impressions + (metaDayStep ad potentialReach pd aud objective adSetBudget acc.spend ρ acc.pos).1.impressions,
          acc.clicks + (metaDayStep ad potentialReach pd aud objective adSetBudget acc.spend ρ acc.pos).1.clicks,
          acc.conversions + (metaDayStep ad potentialReach pd aud objective adSetBudget acc.spend ρ acc.pos).1.conversions,
          acc.spend + (metaDayStep ad potentialReach pd aud objective adSetBudget acc.spend ρ acc.pos).1.spend,
          (metaDayStep ad potentialReach pd aud objective adSetBudget acc.spend ρ acc.pos).2⟩
        (CountersOkW_add hacc hrec) hbud
        (fun hc => by
          dsimp only
          have h1 := hcap hc
          have h2 := hcnd hc
          omega)
      refine ⟨?_, ih2, ih3, ih4⟩
      intro r hr
      rcases List.mem_cons.mp hr with h | h
      · rw [h]
        exact ⟨hrec, hcnd⟩
      · exact ih1 r h

theorem metaPlacementLoop_ok {ad : MetaAd} {potentialReach : ℤ}
    {aud : Audience} {objective : String} {adSetBudget : ℚ} {days : ℕ} {ρ : Rng}
    (h01 : Unit01 ρ) (had : MetaAdWF ad) (haud : AudienceWF aud)
    (hpr : 0 ≤ potentialReach) :
    ∀ (ps : List String) (acc : AdSetAcc),
      CountersOkW acc.impressions acc.clicks acc.conversions acc.spend →
      acc.spend ≤ adSetBudget →
      (aud.ctrBase ≤ 25/52 → acc.clicks ≤ acc.impressions) →
      (∀ r ∈ (metaPlacementLoop ad potentialReach aud objective adSetBudget days ρ ps acc).1,
        MetaRecOk r ∧ (aud.ctrBase ≤ 25/52 → r.clicks ≤ r.impressions)) ∧
        CountersOkW (metaPlacementLoop ad potentialReach aud objective adSetBudget days ρ ps acc).2.impressions
          (metaPlacementLoop ad potentialReach aud objective adSetBudget days ρ ps acc).2.clicks
          (metaPlacementLoop ad potentialReach aud objective adSetBudget days ρ ps acc).2.conversions
          (metaPlacementLoop ad potentialReach aud objective adSetBudget days ρ ps acc).2.spend ∧
        (metaPlacementLoop ad potentialReach aud objective adSetBudget days ρ ps acc).2.spend
          ≤ adSetBudget ∧
        (aud.ctrBase ≤ 25/52 →
          (metaPlacementLoop ad potentialReach aud objective adSetBudget days ρ ps acc).2.clicks
            ≤ (metaPlacementLoop ad potentialReach aud objective adSetBudget days ρ ps acc).2.impressions) := by
  intro ps
  induction ps with
  | nil =>
    intro acc hacc hsp hcap
    simp only [metaPlacementLoop]
    exact ⟨by simp, hacc, hsp, hcap⟩
  | cons p rest ih =>
    intro acc hacc hsp hcap
    simp only [metaPlacementLoop]
    obtain ⟨hb1, hb2, hb3, hb4⟩ := placementFactors_bounds p
    obtain ⟨hd1, hd2, hd3, hd4⟩ := metaDayLoop_ok h01 had haud hpr hb1 hb2 hb3
      hb4 days acc hacc hsp hcap
    obtain ⟨ihh1, ihh2, ihh3, ihh4⟩ := ih
      (metaDayLoop ad potentialReach (placementFactors p) aud objective
        adSetBudget ρ days acc).2 hd2 hd3 hd4
    refine ⟨?_, ihh2, ihh3, ihh4⟩
    intro r hr
    rcases List.mem_append.mp hr with h | h
    · exact hd1 r h
    · exact ihh1 r h

theorem metaAdsLoop_ok {potentialReach : ℤ} {aud : Audience}
    {objective : String} {adSetBudget : ℚ} {placements : List String}
    {days : ℕ} {ρ : Rng} (h01 : Unit01 ρ) (haud : AudienceWF aud)
    (hpr : 0 ≤ potentialReach) :
    ∀ (ads : List MetaAd) (acc : AdSetAcc), (∀ ad ∈ ads, MetaAdWF ad) →
      CountersOkW acc.impressions acc.clicks acc.conversions acc.spend →
      acc.spend ≤ adSetBudget →
      (aud.ctrBase ≤ 25/52 → acc.clicks ≤ acc.impressions) →
      (∀ r ∈ (metaAdsLoop potentialReach aud objective adSetBudget placements days ρ ads acc).1,
        MetaRecOk r ∧ (aud.ctrBase ≤ 25/52 → r.clicks ≤ r.impressions)) ∧
        CountersOkW (metaAdsLoop potentialReach aud objective adSetBudget placements days ρ ads acc).2.impressions
          (metaAdsLoop potentialReach aud objective adSetBudget placements days ρ ads acc).2.clicks
          (metaAdsLoop potentialReach aud objective adSetBudget placements days ρ ads acc).2.conversions
          (metaAdsLoop potentialReach aud objective adSetBudget placements days ρ ads acc).2.spend ∧
        (metaAdsLoop potentialReach aud objective adSetBudget placements days ρ ads acc).2.spend
          ≤ adSetBudget ∧
        (aud.ctrBase ≤ 25/52 →
          (metaAdsLoop potentialReach aud objective adSetBudget placements days ρ ads acc).2.clicks
            ≤ (metaAdsLoop potentialReach aud objective adSetBudget placements days ρ ads acc).2.impressions) := by
  intro ads
  induction ads with
  | nil =>
    intro acc _ hacc hsp hcap
    simp only [metaAdsLoop]
    exact ⟨by simp, hacc, hsp, hcap⟩
  | cons ad rest ih =>
    intro acc hwf hacc hsp hcap
    simp only [metaAdsLoop]
    split_ifs with hact
    · obtain ⟨hp1, hp2, hp3, hp4⟩ := metaPlacementLoop_ok h01 (hwf ad (by simp))
        haud hpr placements acc hacc hsp hcap
      obtain ⟨ihh1, ihh2, ihh3, ihh4⟩ := ih _
        (fun a ha => hwf a (by simp [ha])) hp2 hp3 hp4
      refine ⟨?_, ihh2, ihh3, ihh4⟩
      intro r hr
      rcases List.mem_append.mp hr with h | h
      · exact hp1 r h
      · exact ihh1 r h
    · exact ih acc (fun a ha => hwf a (by simp [ha])) hacc hsp hcap

theorem metaAdSetBudget_nonneg {campaignBudget : ℚ} {numAdSets : ℕ}
    {s : MetaAdSet} (hcb : 0 ≤ campaignBudget)
    (hsb : ∀ b, s.budget = some b → 0 ≤ b) :
    0 ≤ metaAdSetBudget campaignBudget numAdSets s := by
  unfold metaAdSetBudget
  rcases hb : s.budget with _ | b
  · simpa using div_nonneg hcb (Nat.cast_nonneg numAdSets)
  · simpa using hsb b hb

theorem metaProcessAdSet_ok {campaignBudget : ℚ} {numAdSets : ℕ}
    {audiences : List (String × Audience)} {objective : String} {days : ℕ}
    {ρ : Rng} {s : MetaAdSet} {acc : CampAcc} (h01 : Unit01 ρ)
    (hwaud : ∀ a ∈ audiences, AudienceWF a.2)
    (hcb : 0 ≤ campaignBudget) (hsb : ∀ b, s.budget = some b → 0 ≤ b)
    (hst : MetaTargetingWF s.targeting) (hsads : ∀ ad ∈ s.ads, MetaAdWF ad)
    (hacc : CountersOkW acc.impressions acc.clicks acc.conversions acc.spend) :
    MetaAdSetRecOk (metaProcessAdSet campaignBudget numAdSets audiences
      objective days ρ s acc).1 ∧
      CountersOkW (metaProcessAdSet campaignBudget numAdSets audiences objective days ρ s acc).2.impressions
        (metaProcessAdSet campaignBudget numAdSets audiences objective days ρ s acc).2.clicks
        (metaProcessAdSet campaignBudget numAdSets audiences objective days ρ s acc).2.conversions
        (metaProcessAdSet campaignBudget numAdSets audiences objective days ρ s acc).2.spend ∧
      ((∀ a ∈ audiences, a.2.ctrBase ≤ 25/52) → acc.clicks ≤ acc.impressions →
        MetaAdSetRecStrong (metaProcessAdSet campaignBudget numAdSets audiences
          objective days ρ s acc).1 ∧
        (metaProcessAdSet campaignBudget numAdSets audiences objective days ρ s acc).2.clicks
          ≤ (metaProcessAdSet campaignBudget numAdSets audiences objective days ρ s acc).2.impressions) := by
  have hbud := @metaAdSetBudget_nonneg campaignBudget numAdSets s hcb hsb
  have haud := metaAdSetAudience_wf hwaud s
  have hpr := calculateAudienceReach_nonneg hst
  have hzero : CountersOkW (0 : ℤ) 0 0 (0 : ℚ) :=
    ⟨le_refl 0, le_refl 0, le_refl 0, le_refl 0, le_refl 0⟩
  obtain ⟨ha1, ha2, ha3, ha4⟩ := metaAdsLoop_ok h01 haud hpr s.ads
    ⟨0, 0, 0, 0, acc.pos⟩ hsads hzero hbud (fun _ => le_refl 0)
  rw [metaProcessAdSet]
  refine ⟨⟨fun r hr => (ha1 r hr).1, ha2, hbud, ha3⟩,
    CountersOkW_add hacc ha2, ?_⟩
  intro hcapAll haccap
  have hcap : (metaAdSetAudience audiences s).ctrBase ≤ 25/52 :=
    metaAdSetAudience_cap hcapAll s
  refine ⟨⟨fun r hr => (ha1 r hr).2 hcap, ha4 hcap⟩, ?_⟩
  dsimp only
  have := ha4 hcap
  omega

theorem metaAdSetsLoop_ok {campaignBudget : ℚ}
    {audiences : List (String × Audience)} {objective : String} {days : ℕ}
    {ρ : Rng} {numAdSets : ℕ} (h01 : Unit01 ρ)
    (hwaud : ∀ a ∈ audiences, AudienceWF a.2) (hcb : 0 ≤ campaignBudget) :
    ∀ (adSets : List MetaAdSet) (acc : CampAcc),
      (∀ s ∈ adSets, (∀ b, s.budget = some b → 0 ≤ b) ∧
        MetaTargetingWF s.targeting ∧ ∀ ad ∈ s.ads, MetaAdWF ad) →
      CountersOkW acc.impressions acc.clicks acc.conversions acc.spend →
      (∀ rec ∈ (metaAdSetsLoop campaignBudget numAdSets audiences objective days ρ adSets acc).1,
        MetaAdSetRecOk rec) ∧
        CountersOkW (metaAdSetsLoop campaignBudget numAdSets audiences objective days ρ adSets acc).2.impressions
          (metaAdSetsLoop campaignBudget numAdSets audiences objective days ρ adSets acc).2.clicks
          (metaAdSetsLoop campaignBudget numAdSets audiences objective days ρ adSets acc).2.conversions
          (metaAdSetsLoop campaignBudget numAdSets audiences objective days ρ adSets acc).2.spend ∧
        ((∀ a ∈ audiences, a.2.ctrBase ≤ 25/52) → acc.clicks ≤ acc.impressions →
          (∀ rec ∈ (metaAdSetsLoop campaignBudget numAdSets audiences objective days ρ adSets acc).1,
            MetaAdSetRecStrong rec) ∧
          (metaAdSetsLoop campaignBudget numAdSets audiences objective days ρ adSets acc).2.clicks
            ≤ (metaAdSetsLoop campaignBudget numAdSets audiences objective days ρ adSets acc).2.impressions) := by
  intro adSets
  induction adSets with
  | nil =>
    intro acc _ hacc
    simp only [metaAdSetsLoop]
    exact ⟨by simp, hacc, fun _ hc => ⟨by simp, hc⟩⟩
  | cons s rest ih =>
    intro acc hwf hacc
    simp only [metaAdSetsLoop]
    split_ifs with hact
    · obtain ⟨hs1, hs2, hs3⟩ := hwf s (by simp)
      obtain ⟨hp1, hp2, hp3⟩ := @metaProcessAdSet_ok campaignBudget numAdSets
        audiences objective days ρ s acc h01 hwaud hcb hs1 hs2 hs3 hacc
      obtain ⟨ih1, ih2, ih3⟩ := ih _ (fun s' hs' => hwf s' (by simp [hs'])) hp2
      refine ⟨?_, ih2, ?_⟩
      · intro rec hrec
        rcases List.mem_cons.mp hrec with h | h
        · rw [h]; exact hp1
        · exact ih1 rec h
      · intro hcapAll haccap
        obtain ⟨hq1, hq2⟩ := hp3 hcapAll haccap
        obtain ⟨hr1, hr2⟩ := ih3 hcapAll hq2
        refine ⟨?_, hr2⟩
        intro rec hrec
        rcases List.mem_cons.mp hrec with h | h
        · rw [h]; exact hq1
        · exact hr1 rec h
    · obtain ⟨ih1, ih2, ih3⟩ := ih acc (fun s' hs' => hwf s' (by simp [hs'])) hacc
      exact ⟨ih1, ih2, ih3⟩

theorem metaProcessCampaign_ok {audiences : List (String × Audience)}
    {days : ℕ} {ρ : Rng} {c : MetaCampaign} {acc : MetaAcc} (h01 : Unit01 ρ)
    (hwaud : ∀ a ∈ audiences, AudienceWF a.2) (hwf : MetaCampaignWF c)
    (ht : ∀ t ∈ acc.traces, MetaTraceOk t)
    (he : ∀ p ∈ acc.entries, RatiosOk p.2)
    (ha : CountersOkW acc.impressions acc.clicks acc.conversions acc.spend) :
    (∀ t ∈ (metaProcessCampaign audiences days ρ c acc).traces, MetaTraceOk t) ∧
      (∀ p ∈ (metaProcessCampaign audiences days ρ c acc).entries, RatiosOk p.2) ∧
      CountersOkW (metaProcessCampaign audiences days ρ c acc).impressions
        (metaProcessCampaign audiences days ρ c acc).clicks
        (metaProcessCampaign audiences days ρ c acc).conversions
        (metaProcessCampaign audiences days ρ c acc).spend ∧
      ((∀ a ∈ audiences, a.2.ctrBase ≤ 25/52) →
        (∀ t ∈ acc.traces, MetaTraceStrong t) → acc.clicks ≤ acc.impressions →
        (∀ t ∈ (metaProcessCampaign audiences days ρ c acc).traces, MetaTraceStrong t) ∧
        (metaProcessCampaign audiences days ρ c acc).clicks
          ≤ (metaProcessCampaign audiences days ρ c acc).impressions) := by
  obtain ⟨hcb, hsets⟩ := hwf
  have hzero : CountersOkW (0 : ℤ) 0 0 (0 : ℚ) :=
    ⟨le_refl 0, le_refl 0, le_refl 0, le_refl 0, le_refl 0⟩
  obtain ⟨hl1, hl2, hl3⟩ := @metaAdSetsLoop_ok (c.budget.getD 1000) audiences
    (c.objective.getD "CONVERSIONS") days ρ c.adSets.length h01 hwaud hcb
    c.adSets ⟨0, 0, 0, 0, acc.pos⟩ hsets hzero
  rw [metaProcessCampaign]
  refine ⟨?_, ?_, CountersOkW_add ha hl2, ?_⟩
  · intro t htr
    rcases List.mem_append.mp htr with h | h
    · exact ht t h
    · simp at h
      rw [h]
      exact ⟨hl1, hl2⟩
  · intro p hp
    rcases List.mem_append.mp hp with h | h
    · exact he p h
    · simp at h
      rw [h]
      exact ⟨rfl, rfl, ⟨50, rfl⟩⟩
  · intro hcapAll hts haccap
    obtain ⟨hq1, hq2⟩ := hl3 hcapAll (le_refl 0)
    constructor
    · intro t htr
      rcases List.mem_append.mp htr with h | h
      · exact hts t h
      · simp at h
        rw [h]
        exact ⟨hq1, hq2⟩
    · dsimp only
      omega

theorem metaCampaignLoop_ok {audiences : List (String × Audience)} {days : ℕ}
    {ρ : Rng} (h01 : Unit01 ρ) (hwaud : ∀ a ∈ audiences, AudienceWF a.2) :
    ∀ (campaigns : List MetaCampaign) (acc : MetaAcc),
      (∀ c ∈ campaigns, MetaCampaignWF c) →
      (∀ t ∈ acc.traces, MetaTraceOk t) →
      (∀ p ∈ acc.entries, RatiosOk p.2) →
      CountersOkW acc.impressions acc.clicks acc.conversions acc.spend →
      (∀ t ∈ (metaCampaignLoop audiences days ρ campaigns acc).traces, MetaTraceOk t) ∧
        (∀ p ∈ (metaCampaignLoop audiences days ρ campaigns acc).entries, RatiosOk p.2) ∧
        CountersOkW (metaCampaignLoop audiences days ρ campaigns acc).impressions
          (metaCampaignLoop audiences days ρ campaigns acc).clicks
          (metaCampaignLoop audiences days ρ campaigns acc).conversions
          (metaCampaignLoop audiences days ρ campaigns acc).spend ∧
        ((∀ a ∈ audiences, a.2.ctrBase ≤ 25/52) →
          (∀ t ∈ acc.traces, MetaTraceStrong t) → acc.clicks ≤ acc.impressions →
          (∀ t ∈ (metaCampaignLoop audiences days ρ campaigns acc).traces, MetaTraceStrong t) ∧
          (metaCampaignLoop audiences days ρ campaigns acc).clicks
            ≤ (metaCampaignLoop audiences days ρ campaigns acc).impressions) := by
  intro campaigns
  induction campaigns with
  | nil =>
    intro acc _ ht he ha
    simp only [metaCampaignLoop]
    exact ⟨ht, he, ha, fun _ hts hc => ⟨hts, hc⟩⟩
  | cons c rest ih =>
    intro acc hwf ht he ha
    simp only [metaCampaignLoop]
    split_ifs with hact
    · obtain ⟨hp1, hp2, hp3, hp4⟩ := metaProcessCampaign_ok h01 hwaud
        (hwf c (by simp)) ht he ha
      obtain ⟨ih1, ih2, ih3, ih4⟩ := ih _ (fun c' hc' => hwf c' (by simp [hc']))
        hp1 hp2 hp3
      refine ⟨ih1, ih2, ih3, ?_⟩
      intro hcapAll hts haccap
      obtain ⟨hq1, hq2⟩ := hp4 hcapAll hts haccap
      exact ih4 hcapAll hq1 hq2
    · exact ih acc (fun c' hc' => hwf c' (by simp [hc'])) ht he ha

theorem metaRunSimulation_ok {campaigns : List MetaCampaign}
    {audiences : List (String × Audience)} {days : ℕ} {ρ : Rng}
    (h01 : Unit01 ρ) (hwaud : ∀ a ∈ audiences, AudienceWF a.2)
    (hwf : ∀ c ∈ campaigns, MetaCampaignWF c) :
    (∀ t ∈ (metaRunSimulation campaigns audiences days ρ).traces, MetaTraceOk t) ∧
      (∀ p ∈ (metaRunSimulation campaigns audiences days ρ).campaigns, RatiosOk p.2) ∧
      CountersOkW (metaRunSimulation campaigns audiences days ρ).totals.impressions
        (metaRunSimulation campaigns audiences days ρ).totals.clicks
        (metaRunSimulation campaigns audiences days ρ).totals.conversions
        (metaRunSimulation campaigns audiences days ρ).totals.spend ∧
      MetaTotalRatiosOk (metaRunSimulation campaigns audiences days ρ).totals ∧
      ((∀ a ∈ audiences, a.2.ctrBase ≤ 25/52) →
        (∀ t ∈ (metaRunSimulation campaigns audiences days ρ).traces, MetaTraceStrong t) ∧
        (metaRunSimulation campaigns audiences days ρ).totals.clicks
          ≤ (metaRunSimulation campaigns audiences days ρ).totals.impressions) := by
  have hzero : CountersOkW (0 : ℤ) 0 0 (0 : ℚ) :=
    ⟨le_refl 0, le_refl 0, le_refl 0, le_refl 0, le_refl 0⟩
  obtain ⟨h1, h2, h3, h4⟩ := metaCampaignLoop_ok h01 hwaud campaigns
    ⟨[], [], 0, 0, 0, 0, 0⟩ hwf (by simp) (by simp) hzero
  refine ⟨h1, h2, h3, ⟨rfl, rfl, rfl⟩, ?_⟩
  intro hcapAll
  exact h4 hcapAll (by simp) (le_refl 0)

/-! ## Professional-network invariants -/

theorem linkedInCreativeQuality_mem {ρ : Rng} (pos : ℕ) (h01 : Unit01 ρ) :
    1/2 ≤ linkedInCreativeQuality ρ pos ∧ linkedInCreativeQuality ρ pos ≤ 1 :=
  ⟨le_uniform h01 (by norm_num), uniform_le h01 (by norm_num)⟩

theorem linkedInRawImpressions_nonneg {potentialImpressions : ℤ} (numActive : ℕ)
    {ρ : Rng} (pos : ℕ) (h01 : Unit01 ρ) (hP : 0 ≤ potentialImpressions) :
    0 ≤ linkedInRawImpressions potentialImpressions numActive ρ pos := by
  have hq := (linkedInCreativeQuality_mem pos h01).1
  have hPq : (0 : ℚ) ≤ (potentialImpressions : ℚ) := by exact_mod_cast hP
  have hn : (0 : ℚ) ≤ (numActive : ℚ) := Nat.cast_nonneg _
  exact pyInt_nonneg (mul_nonneg (div_nonneg hPq hn) (by linarith))

theorem linkedInActualCtr_bounds (fd : LinkedInFormatData) {targetingScore : ℚ}
    {ρ : Rng} (pos : ℕ) (h01 : Unit01 ρ) (hc0 : 0 ≤ fd.ctrMultiplier)
    (hc3 : fd.ctrMultiplier ≤ 3) (hts0 : 0 ≤ targetingScore)
    (hts1 : targetingScore ≤ 1) :
    0 ≤ linkedInActualCtr fd targetingScore ρ pos ∧
      linkedInActualCtr fd targetingScore ρ pos ≤ 1 := by
  obtain ⟨hq0, hq1⟩ := linkedInCreativeQuality_mem pos h01
  have hv0 : (4/5 : ℚ) ≤ uniform ρ (pos + 1) (4/5) (6/5) :=
    le_uniform h01 (by norm_num)
  have hv1 : uniform ρ (pos + 1) (4/5) (6/5) ≤ 6/5 := uniform_le h01 (by norm_num)
  have h1n : (0 : ℚ) ≤ 1/250 * fd.ctrMultiplier := by linarith
  have h2n : (0 : ℚ) ≤ 1/250 * fd.ctrMultiplier * targetingScore :=
    mul_nonneg h1n hts0
  have h3n : (0 : ℚ) ≤ 1/250 * fd.ctrMultiplier * targetingScore
      * linkedInCreativeQuality ρ pos := mul_nonneg h2n (by linarith)
  unfold linkedInActualCtr
  constructor
  · exact mul_nonneg h3n (by linarith)
  · have h2 : 1/250 * fd.ctrMultiplier * targetingScore ≤ 3/250 :=
      le_trans (mul_le_of_le_one_right h1n hts1) (by linarith)
    have h3 : 1/250 * fd.ctrMultiplier * targetingScore
        * linkedInCreativeQuality ρ pos ≤ 3/250 :=
      le_trans (mul_le_of_le_one_right h2n hq1) h2
    have h4 := mul_le_mul h3 hv1 (by linarith) (by norm_num)
    linarith

theorem linkedInRawClicks_bounds (fd : LinkedInFormatData) {targetingScore : ℚ}
    {potentialImpressions : ℤ} (numActive : ℕ) {ρ : Rng} (pos : ℕ)
    (h01 : Unit01 ρ) (hc0 : 0 ≤ fd.ctrMultiplier) (hc3 : fd.ctrMultiplier ≤ 3)
    (hts0 : 0 ≤ targetingScore) (hts1 : targetingScore ≤ 1)
    (hP : 0 ≤ potentialImpressions) :
    0 ≤ linkedInRawClicks fd targetingScore potentialImpressions numActive ρ pos ∧
      linkedInRawClicks fd targetingScore potentialImpressions numActive ρ pos
        ≤ linkedInRawImpressions potentialImpressions numActive ρ pos := by
  have hI := linkedInRawImpressions_nonneg numActive pos h01 hP
  obtain ⟨hctr0, hctr1⟩ := linkedInActualCtr_bounds fd pos h01 hc0 hc3
    hts0 hts1
  have hIq : (0 : ℚ)
      ≤ (linkedInRawImpressions potentialImpressions numActive ρ pos : ℚ) := by
    exact_mod_cast hI
  refine ⟨pyInt_nonneg (mul_nonneg hIq hctr0), ?_⟩
  exact pyInt_le_intCast (mul_nonneg hIq hctr0)
    (mul_le_of_le_one_right hIq hctr1)

theorem linkedInActualCpm_nonneg {fd : LinkedInFormatData} {targetingScore : ℚ}
    {ρ : Rng} (pos : ℕ) (h01 : Unit01 ρ) (hm0 : 0 ≤ fd.cpmBase)
    (hts0 : 0 ≤ targetingScore) : 0 ≤ linkedInActualCpm fd targetingScore ρ pos := by
  have hv0 : (9/10 : ℚ) ≤ uniform ρ (pos + 2) (9/10) (11/10) :=
    le_uniform h01 (by norm_num)
  have h1 : (0 : ℚ) ≤ 1 + targetingScore * (1/2) := by linarith
  exact mul_nonneg (mul_nonneg hm0 h1) (by linarith)

theorem linkedInRawSpend_nonneg {fd : LinkedInFormatData} {targetingScore : ℚ}
    {potentialImpressions : ℤ} (numActive : ℕ) {ρ : Rng} (pos : ℕ)
    (h01 : Unit01 ρ) (hm0 : 0 ≤ fd.cpmBase) (hts0 : 0 ≤ targetingScore)
    (hP : 0 ≤ potentialImpressions) :
    0 ≤ linkedInRawSpend fd targetingScore potentialImpressions numActive ρ pos := by
  have hI := linkedInRawImpressions_nonneg numActive pos h01 hP
  have hIq : (0 : ℚ)
      ≤ (linkedInRawImpressions potentialImpressions numActive ρ pos : ℚ) := by
    exact_mod_cast hI
  exact mul_nonneg (by linarith) (linkedInActualCpm_nonneg pos h01 hm0 hts0)

theorem linkedInCreativeStep_ok (campaignType objective : String)
    (fd : LinkedInFormatData) {targetingScore : ℚ} {potentialImpressions : ℤ}
    (numActive : ℕ) {dailyBudget totalBudget dailySpend campaignSpend : ℚ}
    {ρ : Rng} {pos : ℕ} (h01 : Unit01 ρ)
    (hc0 : 0 ≤ fd.ctrMultiplier) (hc3 : fd.ctrMultiplier ≤ 3)
    (hm0 : 0 ≤ fd.cpmBase) (hts0 : 0 ≤ targetingScore) (hts1 : targetingScore ≤ 1)
    (hP : 0 ≤ potentialImpressions) (hds : dailySpend ≤ dailyBudget)
    (hcs : campaignSpend ≤ totalBudget) :
    LinkedInRecOk (linkedInCreativeStep campaignType objective fd targetingScore
      potentialImpressions numActive dailyBudget totalBudget dailySpend
      campaignSpend ρ pos).1 ∧
      dailySpend + (linkedInCreativeStep campaignType objective fd targetingScore
        potentialImpressions numActive dailyBudget totalBudget dailySpend
        campaignSpend ρ pos).1.spend ≤ dailyBudget ∧
      campaignSpend + (linkedInCreativeStep campaignType objective fd
        targetingScore potentialImpressions numActive dailyBudget totalBudget
        dailySpend campaignSpend ρ pos).1.spend ≤ totalBudget := by
  have hI := linkedInRawImpressions_nonneg numActive pos h01 hP
  obtain ⟨hC0, hCI⟩ := linkedInRawClicks_bounds fd numActive pos h01 hc0 hc3
    hts0 hts1 hP
  have hS0 := linkedInRawSpend_nonneg numActive pos h01 hm0 hts0 hP
  obtain ⟨hq0, hq1⟩ := linkedInCreativeQuality_mem pos h01
  obtain ⟨hcm0, hcm1⟩ := linkedInConversionRateMultiplier_bounds objective
  have hcr0 : 0 ≤ linkedInConversionRateMultiplier objective * targetingScore
      * linkedInCreativeQuality ρ pos :=
    mul_nonneg (mul_nonneg hcm0 hts0) (by linarith)
  have hcr1 : linkedInConversionRateMultiplier objective * targetingScore
      * linkedInCreativeQuality ρ pos ≤ 1 :=
    le_trans (mul_le_of_le_one_right (mul_nonneg hcm0 hts0) hq1)
      (le_trans (mul_le_of_le_one_right hcm0 hts1) hcm1)
  have hrem0 : 0 ≤ min (dailyBudget - dailySpend) (totalBudget - campaignSpend) :=
    le_min (by linarith) (by linarith)
  have hIq : (0 : ℚ)
      ≤ (linkedInRawImpressions potentialImpressions numActive ρ pos : ℚ) := by
    exact_mod_cast hI
  have hCq : (0 : ℚ) ≤ (linkedInRawClicks fd targetingScore potentialImpressions
      numActive ρ pos : ℚ) := by exact_mod_cast hC0
  have hCIq : (linkedInRawClicks fd targetingScore potentialImpressions numActive
      ρ pos : ℚ)
      ≤ (linkedInRawImpressions potentialImpressions numActive ρ pos : ℚ) := by
    exact_mod_cast hCI
  rw [linkedInCreativeStep]
  split_ifs with hscale
  · have hSpos : 0 < linkedInRawSpend fd targetingScore potentialImpressions
        numActive ρ pos := lt_of_le_of_lt hrem0 hscale
    have hr0 : 0 ≤ min (dailyBudget - dailySpend) (totalBudget - campaignSpend)
        / linkedInRawSpend fd targetingScore potentialImpressions numActive ρ pos :=
      div_nonneg hrem0 (le_of_lt hSpos)
    have hclk0 : 0 ≤ pyInt ((linkedInRawClicks fd targetingScore
        potentialImpressions numActive ρ pos : ℚ)
        * (min (dailyBudget - dailySpend) (totalBudget - campaignSpend)
          / linkedInRawSpend fd targetingScore potentialImpressions numActive ρ pos)) :=
      pyInt_nonneg (mul_nonneg hCq hr0)
    have hclk0q : (0 : ℚ) ≤ (pyInt ((linkedInRawClicks fd targetingScore
        potentialImpressions numActive ρ pos : ℚ)
        * (min (dailyBudget - dailySpend) (totalBudget - campaignSpend)
          / linkedInRawSpend fd targetingScore potentialImpressions numActive
            ρ pos)) : ℚ) := by exact_mod_cast hclk0
    refine ⟨⟨pyInt_nonneg (mul_nonneg hIq hr0), hclk0,
      pyInt_nonneg (mul_nonneg hclk0q hcr0), by simp only; exact hrem0, ?_, ?_⟩,
      ?_, ?_⟩
    · exact pyInt_le_intCast (mul_nonneg hclk0q hcr0)
        (mul_le_of_le_one_right hclk0q hcr1)
    · exact pyInt_mono (mul_nonneg hCq hr0) (mul_le_mul_of_nonneg_right hCIq hr0)
    · simp only
      have := min_le_left (dailyBudget - dailySpend) (totalBudget - campaignSpend)
      linarith
    · simp only
      have := min_le_right (dailyBudget - dailySpend) (totalBudget - campaignSpend)
      linarith
  · push_neg at hscale
    refine ⟨⟨hI, hC0, pyInt_nonneg (mul_nonneg hCq hcr0), hS0, ?_, hCI⟩, ?_, ?_⟩
    · exact pyInt_le_intCast (mul_nonneg hCq hcr0)
        (mul_le_of_le_one_right hCq hcr1)
    · simp only
      have := le_trans hscale (min_le_left (dailyBudget - dailySpend)
        (totalBudget - campaignSpend))
      linarith
    · simp only
      have := le_trans hscale (min_le_right (dailyBudget - dailySpend)
        (totalBudget - campaignSpend))
      linarith

theorem linkedInCreativeLoop_ok (campaignType objective : String)
    (fd : LinkedInFormatData) {targetingScore : ℚ} {potentialImpressions : ℤ}
    (numActive : ℕ) {dailyBudget totalBudget campaignSpend : ℚ} {ρ : Rng}
    (h01 : Unit01 ρ) (hc0 : 0 ≤ fd.ctrMultiplier) (hc3 : fd.ctrMultiplier ≤ 3)
    (hm0 : 0 ≤ fd.cpmBase) (hts0 : 0 ≤ targetingScore) (hts1 : targetingScore ≤ 1)
    (hP : 0 ≤ potentialImpressions) (hcs : campaignSpend ≤ totalBudget) :
    ∀ (n : ℕ) (acc : DayAcc),
      CountersOk acc.impressions acc.clicks acc.conversions acc.spend →
      acc.spend ≤ dailyBudget →
      (∀ r ∈ (linkedInCreativeLoop campaignType objective fd targetingScore
        potentialImpressions numActive dailyBudget totalBudget campaignSpend ρ
        n acc).1, LinkedInRecOk r) ∧
      CountersOk (linkedInCreativeLoop campaignType objective fd targetingScore
          potentialImpressions numActive dailyBudget totalBudget campaignSpend ρ
          n acc).2.impressions
        (linkedInCreativeLoop campaignType objective fd targetingScore
          potentialImpressions numActive dailyBudget totalBudget campaignSpend ρ
          n acc).2.clicks
        (linkedInCreativeLoop campaignType objective fd targetingScore
          potentialImpressions numActive dailyBudget totalBudget campaignSpend ρ
          n acc).2.conversions
        (linkedInCreativeLoop campaignType objective fd targetingScore
          potentialImpressions numActive dailyBudget totalBudget campaignSpend ρ
          n acc).2.spend ∧
      (linkedInCreativeLoop campaignType objective fd targetingScore
        potentialImpressions numActive dailyBudget totalBudget campaignSpend ρ
        n acc).2.spend ≤ dailyBudget := by
  intro n
  induction n with
  | zero =>
    intro acc hacc hsp
    simp only [linkedInCreativeLoop]
    exact ⟨by simp, hacc, hsp⟩
  | succ m ih =>
    intro acc hacc hsp
    simp only [linkedInCreativeLoop]
    split_ifs with hstop
    · exact ⟨by simp, hacc, hsp⟩
    · push_neg at hstop
      obtain ⟨hrec, hds, hcs'⟩ := @linkedInCreativeStep_ok campaignType objective
        fd targetingScore potentialImpressions numActive dailyBudget totalBudget
        acc.spend campaignSpend ρ acc.pos h01 hc0 hc3 hm0 hts0 hts1 hP
        (le_of_lt hstop) hcs
      have hacc' := CountersOk_add hacc hrec
      have hih := ih ⟨acc.impressions + (linkedInCreativeStep campaignType
          objective fd targetingScore potentialImpressions numActive dailyBudget
          totalBudget acc.spend campaignSpend ρ acc.pos).1.impressions,
        acc.clicks + (linkedInCreativeStep campaignType objective fd
          targetingScore potentialImpressions numActive dailyBudget totalBudget
          acc.spend campaignSpend ρ acc.pos).1.clicks,
        acc.conversions + (linkedInCreativeStep campaignType objective fd
          targetingScore potentialImpressions numActive dailyBudget totalBudget
          acc.spend campaignSpend ρ acc.pos).1.conversions,
        acc.spend + (linkedInCreativeStep campaignType objective fd
          targetingScore potentialImpressions numActive dailyBudget totalBudget
          acc.spend campaignSpend ρ acc.pos).1.spend,
        (linkedInCreativeStep campaignType objective fd targetingScore
          potentialImpressions numActive dailyBudget totalBudget acc.spend
          campaignSpend ρ acc.pos).2⟩ hacc' hds
      refine ⟨?_, hih.2.1, hih.2.2⟩
      intro r hr
      rcases List.mem_cons.mp hr with h | h
      · rw [h]
        exact hrec
      · exact hih.1 r h

theorem linkedInDayFactor_mem (startWeekday day : ℕ) :
    linkedInDayFactor startWeekday day = 1
      ∨ linkedInDayFactor startWeekday day = 2/5 := by
  unfold linkedInDayFactor
  split_ifs <;> simp

theorem linkedInBaseImpressions_nonneg {targetingScore bidCompetitiveness : ℚ}
    (startWeekday day : ℕ) (hts0 : 0 ≤ targetingScore)
    (hbc0 : 0 ≤ bidCompetitiveness) :
    0 ≤ linkedInBaseImpressions targetingScore bidCompetitiveness startWeekday
      day := by
  have hf : 0 ≤ linkedInDayFactor startWeekday day := by
    rcases linkedInDayFactor_mem startWeekday day with h | h <;> rw [h] <;> norm_num
  exact pyInt_nonneg (mul_nonneg (mul_nonneg (mul_nonneg (by norm_num) hts0)
    hbc0) hf)

theorem linkedInPotentialImpressions_nonneg
    {targetingScore bidCompetitiveness : ℚ} (startWeekday day : ℕ) {ρ : Rng}
    (pos : ℕ) (h01 : Unit01 ρ) (hts0 : 0 ≤ targetingScore)
    (hbc0 : 0 ≤ bidCompetitiveness) :
    0 ≤ linkedInPotentialImpressions targetingScore bidCompetitiveness
      startWeekday day ρ pos := by
  have hb := linkedInBaseImpressions_nonneg startWeekday day hts0 hbc0
  have hbq : (0 : ℚ) ≤ (linkedInBaseImpressions targetingScore bidCompetitiveness
      startWeekday day : ℚ) := by exact_mod_cast hb
  have hu : (4/5 : ℚ) ≤ uniform ρ pos (4/5) (6/5) := le_uniform h01 (by norm_num)
  exact pyInt_nonneg (mul_nonneg hbq (by linarith))

theorem linkedInDayLoop_ok (campaignType objective : String)
    (fd : LinkedInFormatData) {targetingScore bidCompetitiveness : ℚ}
    (numActive : ℕ) {dailyBudget totalBudget : ℚ} (startWeekday : ℕ) {ρ : Rng}
    (h01 : Unit01 ρ) (hc0 : 0 ≤ fd.ctrMultiplier) (hc3 : fd.ctrMultiplier ≤ 3)
    (hm0 : 0 ≤ fd.cpmBase) (hts0 : 0 ≤ targetingScore) (hts1 : targetingScore ≤ 1)
    (hbc0 : 0 ≤ bidCompetitiveness) (hdb0 : 0 ≤ dailyBudget) :
    ∀ (n day : ℕ) (acc : CampAcc),
      CountersOk acc.impressions acc.clicks acc.conversions acc.spend →
      acc.spend ≤ totalBudget + dailyBudget →
      (∀ d ∈ (linkedInDayLoop campaignType objective fd targetingScore
        bidCompetitiveness numActive dailyBudget totalBudget startWeekday ρ
        n day acc).1,
        CountersOk d.impressions d.clicks d.conversions d.spend ∧
          d.spend ≤ dailyBudget ∧ ∀ r ∈ d.creatives, LinkedInRecOk r) ∧
      CountersOk (linkedInDayLoop campaignType objective fd targetingScore
          bidCompetitiveness numActive dailyBudget totalBudget startWeekday ρ
          n day acc).2.impressions
        (linkedInDayLoop campaignType objective fd targetingScore
          bidCompetitiveness numActive dailyBudget totalBudget startWeekday ρ
          n day acc).2.clicks
        (linkedInDayLoop campaignType objective fd targetingScore
          bidCompetitiveness numActive dailyBudget totalBudget startWeekday ρ
          n day acc).2.conversions
        (linkedInDayLoop campaignType objective fd targetingScore
          bidCompetitiveness numActive dailyBudget totalBudget startWeekday ρ
          n day acc).2.spend ∧
      (linkedInDayLoop campaignType objective fd targetingScore
        bidCompetitiveness numActive dailyBudget totalBudget startWeekday ρ
        n day acc).2.spend ≤ totalBudget + dailyBudget := by
  intro n
  induction n with
  | zero =>
    intro day acc hacc hsp
    simp only [linkedInDayLoop]
    exact ⟨by simp, hacc, hsp⟩
  | succ m ih =>
    intro day acc hacc hsp
    simp only [linkedInDayLoop]
    by_cases hstop : acc.spend ≥ totalBudget
    · simp only [if_pos hstop]
      exact ⟨by simp, hacc, hsp⟩
    · simp only [if_neg hstop]
      push_neg at hstop
      have hz : CountersOk (0 : ℤ) 0 0 (0 : ℚ) :=
        ⟨le_refl 0, le_refl 0, le_refl 0, le_refl 0, le_refl 0, le_refl 0⟩
      have hPot := linkedInPotentialImpressions_nonneg startWeekday day acc.pos
        h01 hts0 hbc0
      have hcl := @linkedInCreativeLoop_ok campaignType objective fd
        targetingScore (linkedInPotentialImpressions targetingScore
          bidCompetitiveness startWeekday day ρ acc.pos) numActive dailyBudget
        totalBudget acc.spend ρ h01 hc0 hc3 hm0 hts0 hts1 hPot
        (le_of_lt hstop) numActive ⟨0, 0, 0, 0, acc.pos + 1⟩ hz hdb0
      have hacc' := CountersOk_add hacc hcl.2.1
      have hsp' : acc.spend + (linkedInCreativeLoop campaignType objective fd
          targetingScore (linkedInPotentialImpressions targetingScore
            bidCompetitiveness startWeekday day ρ acc.pos) numActive dailyBudget
          totalBudget acc.spend ρ numActive ⟨0, 0, 0, 0, acc.pos + 1⟩).2.spend
          ≤ totalBudget + dailyBudget := by
        have := hcl.2.2
        linarith
      have hday : CountersOk (linkedInCreativeLoop campaignType objective fd
          targetingScore (linkedInPotentialImpressions targetingScore
            bidCompetitiveness startWeekday day ρ acc.pos) numActive dailyBudget
          totalBudget acc.spend ρ numActive
          ⟨0, 0, 0, 0, acc.pos + 1⟩).2.impressions
          (linkedInCreativeLoop campaignType objective fd targetingScore
            (linkedInPotentialImpressions targetingScore bidCompetitiveness
              startWeekday day ρ acc.pos) numActive dailyBudget totalBudget
            acc.spend ρ numActive ⟨0, 0, 0, 0, acc.pos + 1⟩).2.clicks
          (linkedInCreativeLoop campaignType objective fd targetingScore
            (linkedInPotentialImpressions targetingScore bidCompetitiveness
              startWeekday day ρ acc.pos) numActive dailyBudget totalBudget
            acc.spend ρ numActive ⟨0, 0, 0, 0, acc.pos + 1⟩).2.conversions
          (linkedInCreativeLoop campaignType objective fd targetingScore
            (linkedInPotentialImpressions targetingScore bidCompetitiveness
              startWeekday day ρ acc.pos) numActive dailyBudget totalBudget
            acc.spend ρ numActive ⟨0, 0, 0, 0, acc.pos + 1⟩).2.spend := hcl.2.1
      split_ifs with hnear hhalt
      · refine ⟨?_, hacc', by simp only; linarith [hcl.2.2]⟩
        intro d hd
        simp at hd
        rw [hd]
        exact ⟨hday, hcl.2.2, hcl.1⟩
      · have hih := ih (day + 1) ⟨acc.impressions + (linkedInCreativeLoop
            campaignType objective fd targetingScore
            (linkedInPotentialImpressions targetingScore bidCompetitiveness
              startWeekday day ρ acc.pos) numActive dailyBudget totalBudget
            acc.spend ρ numActive ⟨0, 0, 0, 0, acc.pos + 1⟩).2.impressions,
          acc.clicks + (linkedInCreativeLoop campaignType objective fd
            targetingScore (linkedInPotentialImpressions targetingScore
              bidCompetitiveness startWeekday day ρ acc.pos) numActive
            dailyBudget totalBudget acc.spend ρ numActive
            ⟨0, 0, 0, 0, acc.pos + 1⟩).2.clicks,
          acc.conversions + (linkedInCreativeLoop campaignType objective fd
            targetingScore (linkedInPotentialImpressions targetingScore
              bidCompetitiveness startWeekday day ρ acc.pos) numActive
            dailyBudget totalBudget acc.spend ρ numActive
            ⟨0, 0, 0, 0, acc.pos + 1⟩).2.conversions,
          acc.spend + (linkedInCreativeLoop campaignType objective fd
            targetingScore (linkedInPotentialImpressions targetingScore
              bidCompetitiveness startWeekday day ρ acc.pos) numActive
            dailyBudget totalBudget acc.spend ρ numActive
            ⟨0, 0, 0, 0, acc.pos + 1⟩).2.spend,
          (linkedInCreativeLoop campaignType objective fd targetingScore
            (linkedInPotentialImpressions targetingScore bidCompetitiveness
              startWeekday day ρ acc.pos) numActive dailyBudget totalBudget
            acc.spend ρ numActive ⟨0, 0, 0, 0, acc.pos + 1⟩).2.pos + 1⟩
          hacc' hsp'
        refine ⟨?_, hih.2.1, hih.2.2⟩
        intro d hd
        rcases List.mem_cons.mp hd with h | h
        · rw [h]
          exact ⟨hday, hcl.2.2, hcl.1⟩
        · exact hih.1 d h
      · have hih := ih (day + 1) ⟨acc.impressions + (linkedInCreativeLoop
            campaignType objective fd targetingScore
            (linkedInPotentialImpressions targetingScore bidCompetitiveness
              startWeekday day ρ acc.pos) numActive dailyBudget totalBudget
            acc.spend ρ numActive ⟨0, 0, 0, 0, acc.pos + 1⟩).2.impressions,
          acc.clicks + (linkedInCreativeLoop campaignType objective fd
            targetingScore (linkedInPotentialImpressions targetingScore
              bidCompetitiveness startWeekday day ρ acc.pos) numActive
            dailyBudget totalBudget acc.spend ρ numActive
            ⟨0, 0, 0, 0, acc.pos + 1⟩).2.clicks,
          acc.conversions + (linkedInCreativeLoop campaignType objective fd
            targetingScore (linkedInPotentialImpressions targetingScore
              bidCompetitiveness startWeekday day ρ acc.pos) numActive
            dailyBudget totalBudget acc.spend ρ numActive
            ⟨0, 0, 0, 0, acc.pos + 1⟩).2.conversions,
          acc.spend + (linkedInCreativeLoop campaignType objective fd
            targetingScore (linkedInPotentialImpressions targetingScore
              bidCompetitiveness startWeekday day ρ acc.pos) numActive
            dailyBudget totalBudget acc.spend ρ numActive
            ⟨0, 0, 0, 0, acc.pos + 1⟩).2.spend,
          (linkedInCreativeLoop campaignType objective fd targetingScore
            (linkedInPotentialImpressions targetingScore bidCompetitiveness
              startWeekday day ρ acc.pos) numActive dailyBudget totalBudget
            acc.spend ρ numActive ⟨0, 0, 0, 0, acc.pos + 1⟩).2.pos⟩
          hacc' hsp'
        refine ⟨?_, hih.2.1, hih.2.2⟩
        intro d hd
        rcases List.mem_cons.mp hd with h | h
        · rw [h]
          exact ⟨hday, hcl.2.2, hcl.1⟩
        · exact hih.1 d h

theorem linkedInBidCompetitiveness_mem (c : LinkedInCampaign) :
    0 ≤ linkedInBidCompetitiveness c ∧ linkedInBidCompetitiveness c ≤ 1 := by
  unfold linkedInBidCompetitiveness
  split_ifs
  · norm_num
  · exact calculateBidCompetitiveness_bounds _ _

theorem linkedInProcessCampaign_ok {days startWeekday : ℕ} {ρ : Rng}
    (h01 : Unit01 ρ) (c : LinkedInCampaign) (acc : LinkedInAcc)
    (hwf : LinkedInCampaignWF c)
    (ht : ∀ t ∈ acc.traces, LinkedInTraceOk t)
    (he : ∀ p ∈ acc.entries, LinkedInRatiosOk p.2)
    (ha : CountersOk acc.impressions acc.clicks acc.conversions acc.spend) :
    (∀ t ∈ (linkedInProcessCampaign days startWeekday ρ c acc).traces,
      LinkedInTraceOk t) ∧
      (∀ p ∈ (linkedInProcessCampaign days startWeekday ρ c acc).entries,
        LinkedInRatiosOk p.2) ∧
      CountersOk (linkedInProcessCampaign days startWeekday ρ c acc).impressions
        (linkedInProcessCampaign days startWeekday ρ c acc).clicks
        (linkedInProcessCampaign days startWeekday ρ c acc).conversions
        (linkedInProcessCampaign days startWeekday ρ c acc).spend := by
  have hb0 : (0 : ℚ) ≤ c.dailyBudget.getD 100 := hwf.1
  have htb0 : (0 : ℚ) ≤ c.totalBudget.getD (c.dailyBudget.getD 100 * days) := by
    cases hob : c.totalBudget with
    | none =>
      simp only [Option.getD_none]
      exact mul_nonneg hb0 (Nat.cast_nonneg _)
    | some b => simpa using hwf.2 b hob
  obtain ⟨hts08, hts1⟩ := targetingMatchScore_mem c.targeting
  have hts0 : (0 : ℚ) ≤ targetingMatchScore c.targeting := by linarith
  obtain ⟨hbc0, hbc1⟩ := linkedInBidCompetitiveness_mem c
  obtain ⟨hfc0, hfc3, hfm0⟩ := linkedInAdFormats_bounds
    (c.campaignType.getD "single_image_sponsored_content")
  have hzero : CountersOk (0 : ℤ) 0 0 (0 : ℚ) :=
    ⟨le_refl 0, le_refl 0, le_refl 0, le_refl 0, le_refl 0, le_refl 0⟩
  obtain ⟨hd1, hd2, hd3⟩ := @linkedInDayLoop_ok
    (c.campaignType.getD "single_image_sponsored_content")
    (c.objective.getD "WEBSITE_VISITS")
    (linkedInAdFormats (c.campaignType.getD "single_image_sponsored_content"))
    (targetingMatchScore c.targeting) (linkedInBidCompetitiveness c)
    (linkedInActiveCreatives c).length (c.dailyBudget.getD 100)
    (c.totalBudget.getD (c.dailyBudget.getD 100 * days)) startWeekday ρ
    h01 hfc0 hfc3 hfm0 hts0 hts1 hbc0 hb0 days 0 ⟨0, 0, 0, 0, acc.pos⟩ hzero
    (by change (0 : ℚ) ≤ _; linarith)
  simp only [linkedInProcessCampaign]
  refine ⟨?_, ?_, CountersOk_add ha hd2⟩
  · intro t htr
    rcases List.mem_append.mp htr with h | h
    · exact ht t h
    · simp at h
      rw [h]
      exact ⟨hb0, htb0, hd1, hd2, hd3⟩
  · intro p hp
    rcases List.mem_append.mp hp with h | h
    · exact he p h
    · simp at h
      rw [h]
      exact ⟨rfl, rfl⟩

theorem linkedInCampaignLoop_ok {days startWeekday : ℕ} {ρ : Rng}
    (h01 : Unit01 ρ) :
    ∀ (campaigns : List LinkedInCampaign) (acc : LinkedInAcc),
      (∀ c ∈ campaigns, LinkedInCampaignWF c) →
      (∀ t ∈ acc.traces, LinkedInTraceOk t) →
      (∀ p ∈ acc.entries, LinkedInRatiosOk p.2) →
      CountersOk acc.impressions acc.clicks acc.conversions acc.spend →
      (∀ t ∈ (linkedInCampaignLoop days startWeekday ρ campaigns acc).traces,
        LinkedInTraceOk t) ∧
        (∀ p ∈ (linkedInCampaignLoop days startWeekday ρ campaigns acc).entries,
          LinkedInRatiosOk p.2) ∧
        CountersOk
          (linkedInCampaignLoop days startWeekday ρ campaigns acc).impressions
          (linkedInCampaignLoop days startWeekday ρ campaigns acc).clicks
          (linkedInCampaignLoop days startWeekday ρ campaigns acc).conversions
          (linkedInCampaignLoop days startWeekday ρ campaigns acc).spend := by
  intro campaigns
  induction campaigns with
  | nil =>
    intro acc _ ht he ha
    simp only [linkedInCampaignLoop]
    exact ⟨ht, he, ha⟩
  | cons c rest ih =>
    intro acc hwf ht he ha
    simp only [linkedInCampaignLoop]
    split_ifs with h1 h2 h3
    · exact ih acc (fun c' hc' => hwf c' (by simp [hc'])) ht he ha
    · exact ih acc (fun c' hc' => hwf c' (by simp [hc'])) ht he ha
    · obtain ⟨k1, k2, k3⟩ := linkedInProcessCampaign_ok h01 c acc
        (hwf c (by simp)) ht he ha
      exact ih _ (fun c' hc' => hwf c' (by simp [hc'])) k1 k2 k3
    · exact ih acc (fun c' hc' => hwf c' (by simp [hc'])) ht he ha

theorem linkedInRunSimulation_ok {campaigns : List LinkedInCampaign}
    {days startWeekday : ℕ} {ρ : Rng} (h01 : Unit01 ρ)
    (hwf : ∀ c ∈ campaigns, LinkedInCampaignWF c) :
    (∀ t ∈ (linkedInRunSimulation campaigns days startWeekday ρ).traces,
      LinkedInTraceOk t) ∧
      (∀ p ∈ (linkedInRunSimulation campaigns days startWeekday ρ).campaigns,
        LinkedInRatiosOk p.2) ∧
      CountersOk
        (linkedInRunSimulation campaigns days startWeekday ρ).totals.impressions
        (linkedInRunSimulation campaigns days startWeekday ρ).totals.clicks
        (linkedInRunSimulation campaigns days startWeekday ρ).totals.conversions
        (linkedInRunSimulation campaigns days startWeekday ρ).totals.spend ∧
      TotalRatiosOk (linkedInRunSimulation campaigns days startWeekday ρ).totals := by
  have hzero : CountersOk (0 : ℤ) 0 0 (0 : ℚ) :=
    ⟨le_refl 0, le_refl 0, le_refl 0, le_refl 0, le_refl 0, le_refl 0⟩
  obtain ⟨h1, h2, h3⟩ := linkedInCampaignLoop_ok h01 campaigns
    ⟨[], [], 0, 0, 0, 0, 0⟩ hwf (by simp) (by simp) hzero
  exact ⟨h1, h2, h3, rfl, rfl⟩

theorem linkedInCampaignLoop_entries_sub {days startWeekday : ℕ} {ρ : Rng} :
    ∀ (campaigns : List LinkedInCampaign) (acc : LinkedInAcc),
      ∀ p ∈ (linkedInCampaignLoop days startWeekday ρ campaigns acc).entries,
        p.1 ∈ acc.entries.map Prod.fst
          ∨ p.1 ∈ campaigns.map LinkedInCampaign.id := by
  intro campaigns
  induction campaigns with
  | nil =>
    intro acc p hp
    simp only [linkedInCampaignLoop] at hp
    exact Or.inl (List.mem_map_of_mem Prod.fst hp)
  | cons c rest ih =>
    intro acc p hp
    simp only [linkedInCampaignLoop] at hp
    split_ifs at hp with h1 h2 h3
    · rcases ih acc p hp with h | h
      · exact Or.inl h
      · exact Or.inr (by simp only [List.map_cons, List.mem_cons]; exact Or.inr h)
    · rcases ih acc p hp with h | h
      · exact Or.inl h
      · exact Or.inr (by simp only [List.map_cons, List.mem_cons]; exact Or.inr h)
    · rcases ih _ p hp with h | h
      · simp only [linkedInProcessCampaign, List.map_append, List.mem_append] at h
        rcases h with h | h
        · exact Or.inl h
        · simp at h
          simp [h]
      · exact Or.inr (by simp only [List.map_cons, List.mem_cons]; exact Or.inr h)
    · rcases ih acc p hp with h | h
      · exact Or.inl h
      · exact Or.inr (by simp only [List.map_cons, List.mem_cons]; exact Or.inr h)

theorem linkedInCampaignLoop_skip {days startWeekday : ℕ} {ρ : Rng}
    {c : LinkedInCampaign} (hc : c.status ≠ "active"
      ∨ c.creatives.isEmpty = true
      ∨ (linkedInActiveCreatives c).isEmpty = true) :
    ∀ (pre post : List LinkedInCampaign) (acc : LinkedInAcc),
      linkedInCampaignLoop days startWeekday ρ (pre ++ c :: post) acc
        = linkedInCampaignLoop days startWeekday ρ (pre ++ post) acc := by
  intro pre
  induction pre with
  | nil =>
    intro post acc
    simp only [List.nil_append, linkedInCampaignLoop]
    split_ifs with h1 h2 h3
    · rfl
    · rfl
    · rcases hc with h | h | h
      · exact absurd h1 h
      · exact absurd h h2
      · exact absurd h h3
    · rfl
  | cons d rest ih =>
    intro post acc
    simp only [List.cons_append, linkedInCampaignLoop]
    split_ifs with h1 h2 h3
    · exact ih post acc
    · exact ih post acc
    · exact ih post _
    · exact ih post acc

theorem linkedInCreativeLoop_records (campaignType objective : String)
    (fd : LinkedInFormatData) (targetingScore : ℚ) (potentialImpressions : ℤ)
    (numActive : ℕ) (dailyBudget totalBudget campaignSpend : ℚ) (ρ : Rng)
    (P : LinkedInCreativeRec → Prop)
    (hP : ∀ ds pos, P (linkedInCreativeStep campaignType objective fd
      targetingScore potentialImpressions numActive dailyBudget totalBudget ds
      campaignSpend ρ pos).1) :
    ∀ (n : ℕ) (acc : DayAcc),
      ∀ r ∈ (linkedInCreativeLoop campaignType objective fd targetingScore
        potentialImpressions numActive dailyBudget totalBudget campaignSpend ρ
        n acc).1, P r := by
  intro n
  induction n with
  | zero =>
    intro acc r hr
    simp [linkedInCreativeLoop] at hr
  | succ m ih =>
    intro acc r hr
    simp only [linkedInCreativeLoop] at hr
    split_ifs at hr with hstop
    · simp at hr
    · rcases List.mem_cons.mp hr with h | h
      · rw [h]
        exact hP acc.spend acc.pos
      · exact ih _ r h

theorem linkedInDayLoop_records (campaignType objective : String)
    (fd : LinkedInFormatData) (targetingScore bidCompetitiveness : ℚ)
    (numActive : ℕ) (dailyBudget totalBudget : ℚ) (startWeekday : ℕ) (ρ : Rng)
    (P : LinkedInCreativeRec → Prop)
    (hP : ∀ pot ds cs pos, P (linkedInCreativeStep campaignType objective fd
      targetingScore pot numActive dailyBudget totalBudget ds cs ρ pos).1) :
    ∀ (n day : ℕ) (acc : CampAcc),
      ∀ d ∈ (linkedInDayLoop campaignType objective fd targetingScore
        bidCompetitiveness numActive dailyBudget totalBudget startWeekday ρ
        n day acc).1, ∀ r ∈ d.creatives, P r := by
  intro n
  induction n with
  | zero =>
    intro day acc d hd
    simp [linkedInDayLoop] at hd
  | succ m ih =>
    intro day acc d hd
    simp only [linkedInDayLoop] at hd
    split_ifs at hd with hstop hnear hhalt
    · simp at hd
    · simp at hd
      rw [hd]
      intro r hr
      exact linkedInCreativeLoop_records campaignType objective fd
        targetingScore _ numActive dailyBudget totalBudget acc.spend ρ P
        (fun ds pos => hP _ ds acc.spend pos) numActive
        ⟨0, 0, 0, 0, acc.pos + 1⟩ r hr
    · rcases List.mem_cons.mp hd with h | h
      · rw [h]
        intro r hr
        exact linkedInCreativeLoop_records campaignType objective fd
          targetingScore _ numActive dailyBudget totalBudget acc.spend ρ P
          (fun ds pos => hP _ ds acc.spend pos) numActive
          ⟨0, 0, 0, 0, acc.pos + 1⟩ r hr
      · exact ih _ _ d h
    · rcases List.mem_cons.mp hd with h | h
      · rw [h]
        intro r hr
        exact linkedInCreativeLoop_records campaignType objective fd
          targetingScore _ numActive dailyBudget totalBudget acc.spend ρ P
          (fun ds pos => hP _ ds acc.spend pos) numActive
          ⟨0, 0, 0, 0, acc.pos + 1⟩ r hr
      · exact ih _ _ d h

theorem linkedInRunSimulation_records {campaigns : List LinkedInCampaign}
    {days startWeekday : ℕ} {ρ : Rng} (P : LinkedInCreativeRec → Prop)
    (hP : ∀ ct ob fd ts pot na db tb ds cs pos,
      P (linkedInCreativeStep ct ob fd ts pot na db tb ds cs ρ pos).1) :
    ∀ t ∈ (linkedInRunSimulation campaigns days startWeekday ρ).traces,
      ∀ d ∈ t.days, ∀ r ∈ d.creatives, P r := by
  suffices h : ∀ (cls : List LinkedInCampaign) (acc : LinkedInAcc),
      (∀ t ∈ acc.traces, ∀ d ∈ t.days, ∀ r ∈ d.creatives, P r) →
      ∀ t ∈ (linkedInCampaignLoop days startWeekday ρ cls acc).traces,
        ∀ d ∈ t.days, ∀ r ∈ d.creatives, P r by
    exact h campaigns ⟨[], [], 0, 0, 0, 0, 0⟩ (by simp)
  intro cls
  induction cls with
  | nil =>
    intro acc hacc
    simp only [linkedInCampaignLoop]
    exact hacc
  | cons c rest ih =>
    intro acc hacc
    simp only [linkedInCampaignLoop]
    split_ifs with h1 h2 h3
    · exact ih acc hacc
    · exact ih acc hacc
    · apply ih
      intro t htr
      simp only [linkedInProcessCampaign] at htr
      rcases List.mem_append.mp htr with h | h
      · exact hacc t h
      · simp at h
        rw [h]
        intro d hd
        exact linkedInDayLoop_records _ _ _ _ _ _ _ _ startWeekday ρ P
          (fun pot ds cs' pos => hP _ _ _ _ pot _ _ _ ds cs' pos) days 0
          ⟨0, 0, 0, 0, acc.pos⟩ d hd
    · exact ih acc hacc

theorem metaCampaignLoop_entries_sub {audiences : List (String × Audience)}
    {days : ℕ} {ρ : Rng} :
    ∀ (campaigns : List MetaCampaign) (acc : MetaAcc),
      ∀ p ∈ (metaCampaignLoop audiences days ρ campaigns acc).entries,
        p.1 ∈ acc.entries.map Prod.fst ∨ p.1 ∈ campaigns.map MetaCampaign.id := by
  intro campaigns
  induction campaigns with
  | nil =>
    intro acc p hp
    simp only [metaCampaignLoop] at hp
    exact Or.inl (List.mem_map_of_mem Prod.fst hp)
  | cons c rest ih =>
    intro acc p hp
    simp only [metaCampaignLoop] at hp
    split_ifs at hp with hact
    · rcases ih _ p hp with h | h
      · simp only [metaProcessCampaign, List.map_append, List.mem_append] at h
        rcases h with h | h
        · exact Or.inl h
        · simp at h
          simp [h]
      · exact Or.inr (by simp only [List.map_cons, List.mem_cons]; exact Or.inr h)
    · rcases ih acc p hp with h | h
      · exact Or.inl h
      · exact Or.inr (by simp only [List.map_cons, List.mem_cons]; exact Or.inr h)

theorem metaCampaignLoop_skip {audiences : List (String × Audience)} {days : ℕ}
    {ρ : Rng} {c : MetaCampaign} (hc : c.status ≠ "active") :
    ∀ (pre post : List MetaCampaign) (acc : MetaAcc),
      metaCampaignLoop audiences days ρ (pre ++ c :: post) acc
        = metaCampaignLoop audiences days ρ (pre ++ post) acc := by
  intro pre
  induction pre with
  | nil =>
    intro post acc
    simp only [List.nil_append, metaCampaignLoop]
    rw [if_neg hc]
  | cons d rest ih =>
    intro post acc
    simp only [List.cons_append, metaCampaignLoop]
    split_ifs with hact
    · exact ih post _
    · exact ih post acc

theorem metaDayLoop_records {ad : MetaAd} {potentialReach : ℤ}
    {pd : PlacementData} {aud : Audience} {objective : String}
    {adSetBudget : ℚ} {ρ : Rng} (P : MetaDayRec → Prop)
    (hP : ∀ ds pos, P (metaDayStep ad potentialReach pd aud objective
      adSetBudget ds ρ pos).1) :
    ∀ (n : ℕ) (acc : AdSetAcc),
      ∀ r ∈ (metaDayLoop ad potentialReach pd aud objective adSetBudget ρ n acc).1,
        P r := by
  intro n
  induction n with
  | zero =>
    intro acc r hr
    simp [metaDayLoop] at hr
  | succ m ih =>
    intro acc r hr
    simp only [metaDayLoop] at hr
    split_ifs at hr with hstop
    · simp at hr
    · rcases List.mem_cons.mp hr with h | h
      · rw [h]
        exact hP acc.spend acc.pos
      · exact ih _ r h

theorem metaAdsLoop_records {potentialReach : ℤ} {aud : Audience}
    {objective : String} {adSetBudget : ℚ} {placements : List String}
    {days : ℕ} {ρ : Rng} (P : MetaDayRec → Prop)
    (hP : ∀ ad pd ds pos, P (metaDayStep ad potentialReach pd aud objective
      adSetBudget ds ρ pos).1) :
    ∀ (ads : List MetaAd) (acc : AdSetAcc),
      ∀ r ∈ (metaAdsLoop potentialReach aud objective adSetBudget placements
        days ρ ads acc).1, P r := by
  have hpl : ∀ (ad : MetaAd) (ps : List String) (acc : AdSetAcc),
      ∀ r ∈ (metaPlacementLoop ad potentialReach aud objective adSetBudget
        days ρ ps acc).1, P r := by
    intro ad ps
    induction ps with
    | nil =>
      intro acc r hr
      simp [metaPlacementLoop] at hr
    | cons p rest ih =>
      intro acc r hr
      simp only [metaPlacementLoop] at hr
      rcases List.mem_append.mp hr with h | h
      · exact metaDayLoop_records P (fun ds pos => hP ad _ ds pos) days acc r h
      · exact ih _ r h
  intro ads
  induction ads with
  | nil =>
    intro acc r hr
    simp [metaAdsLoop] at hr
  | cons ad rest ih =>
    intro acc r hr
    simp only [metaAdsLoop] at hr
    split_ifs at hr with hact
    · rcases List.mem_append.mp hr with h | h
      · exact hpl ad _ _ r h
      · exact ih _ r h
    · exact ih acc r hr

theorem metaRunSimulation_records {campaigns : List MetaCampaign}
    {audiences : List (String × Audience)} {days : ℕ} {ρ : Rng}
    (P : MetaDayRec → Prop)
    (hP : ∀ ad potentialReach pd aud objective adSetBudget ds pos,
      P (metaDayStep ad potentialReach pd aud objective adSetBudget ds ρ pos).1) :
    ∀ t ∈ (metaRunSimulation campaigns audiences days ρ).traces,
      ∀ s ∈ t.adSets, ∀ r ∈ s.recs, P r := by
  have hset : ∀ (campaignBudget : ℚ) (numAdSets : ℕ) (objective : String)
      (adSets : List MetaAdSet) (acc : CampAcc),
      ∀ s ∈ (metaAdSetsLoop campaignBudget numAdSets audiences objective days ρ
        adSets acc).1, ∀ r ∈ s.recs, P r := by
    intro campaignBudget numAdSets objective adSets
    induction adSets with
    | nil =>
      intro acc s hs
      simp [metaAdSetsLoop] at hs
    | cons st rest ih =>
      intro acc s hs
      simp only [metaAdSetsLoop] at hs
      split_ifs at hs with hact
      · rcases List.mem_cons.mp hs with h | h
        · rw [h]
          intro r hr
          simp only [metaProcessAdSet] at hr
          exact metaAdsLoop_records P (fun ad pd ds pos => hP ad _ pd _ _ _ ds pos)
            st.ads _ r hr
        · exact ih _ s h
      · exact ih acc s hs
  suffices h : ∀ (cs : List MetaCampaign) (acc : MetaAcc),
      (∀ t ∈ acc.traces, ∀ s ∈ t.adSets, ∀ r ∈ s.recs, P r) →
      ∀ t ∈ (metaCampaignLoop audiences days ρ cs acc).traces,
        ∀ s ∈ t.adSets, ∀ r ∈ s.recs, P r by
    exact h campaigns ⟨[], [], 0, 0, 0, 0, 0⟩ (by simp)
  intro cs
  induction cs with
  | nil =>
    intro acc hacc
    simp only [metaCampaignLoop]
    exact hacc
  | cons c rest ih =>
    intro acc hacc
    simp only [metaCampaignLoop]
    split_ifs with hact
    · apply ih
      intro t htr
      simp only [metaProcessCampaign] at htr
      rcases List.mem_append.mp htr with h | h
      · exact hacc t h
      · simp at h
        rw [h]
        intro s hs
        exact hset _ _ _ _ _ s hs
    · exact ih acc hacc

/-! ## Scaling-shape and provenance facts of the three step functions -/

theorem googleKeywordStep_scaling (ctrMult dailyBudget dailySpend : ℚ)
    (kw : Keyword) (ρ : Rng) (pos : ℕ) :
    (googleKeywordStep ctrMult dailyBudget dailySpend kw ρ pos).1.impressions
      = (googleKeywordStep ctrMult dailyBudget dailySpend kw ρ pos).1.rawImpressions
    ∧ ((googleKeywordStep ctrMult dailyBudget dailySpend kw ρ pos).1.scaled = true →
      (googleKeywordStep ctrMult dailyBudget dailySpend kw ρ pos).1.clicks
        = pyInt (((googleKeywordStep ctrMult dailyBudget dailySpend kw ρ
            pos).1.rawClicks : ℚ)
          * ((googleKeywordStep ctrMult dailyBudget dailySpend kw ρ pos).1.spend
            / (googleKeywordStep ctrMult dailyBudget dailySpend kw ρ
              pos).1.rawSpend))
      ∧ (googleKeywordStep ctrMult dailyBudget dailySpend kw ρ pos).1.conversions
        = pyInt (((googleKeywordStep ctrMult dailyBudget dailySpend kw ρ
            pos).1.rawConversions : ℚ)
          * ((googleKeywordStep ctrMult dailyBudget dailySpend kw ρ pos).1.spend
            / (googleKeywordStep ctrMult dailyBudget dailySpend kw ρ
              pos).1.rawSpend))) := by
  rw [googleKeywordStep]
  split_ifs with h
  · exact ⟨rfl, fun _ => ⟨rfl, rfl⟩⟩
  · exact ⟨rfl, fun hfalse => nomatch hfalse⟩

theorem metaDayStep_scaling (ad : MetaAd) (potentialReach : ℤ)
    (pd : PlacementData) (aud : Audience) (objective : String)
    (adSetBudget adSetSpend : ℚ) (ρ : Rng) (pos : ℕ) :
    (metaDayStep ad potentialReach pd aud objective adSetBudget adSetSpend ρ
      pos).1.scaled = true →
    (metaDayStep ad potentialReach pd aud objective adSetBudget adSetSpend ρ
        pos).1.impressions
      = pyInt (((metaDayStep ad potentialReach pd aud objective adSetBudget
          adSetSpend ρ pos).1.rawImpressions : ℚ)
        * ((metaDayStep ad potentialReach pd aud objective adSetBudget
            adSetSpend ρ pos).1.spend
          / (metaDayStep ad potentialReach pd aud objective adSetBudget
            adSetSpend ρ pos).1.rawSpend))
    ∧ (metaDayStep ad potentialReach pd aud objective adSetBudget adSetSpend ρ
        pos).1.clicks
      = pyInt (((metaDayStep ad potentialReach pd aud objective adSetBudget
          adSetSpend ρ pos).1.rawClicks : ℚ)
        * ((metaDayStep ad potentialReach pd aud objective adSetBudget
            adSetSpend ρ pos).1.spend
          / (metaDayStep ad potentialReach pd aud objective adSetBudget
            adSetSpend ρ pos).1.rawSpend)) := by
  simp only [metaDayStep]
  split_ifs with h
  · exact fun _ => ⟨rfl, rfl⟩
  · exact fun hfalse => nomatch hfalse

theorem linkedInCreativeStep_scaling (campaignType objective : String)
    (fd : LinkedInFormatData) (targetingScore : ℚ) (potentialImpressions : ℤ)
    (numActive : ℕ) (dailyBudget totalBudget dailySpend campaignSpend : ℚ)
    (ρ : Rng) (pos : ℕ) :
    (linkedInCreativeStep campaignType objective fd targetingScore
      potentialImpressions numActive dailyBudget totalBudget dailySpend
      campaignSpend ρ pos).1.scaled = true →
    (linkedInCreativeStep campaignType objective fd targetingScore
        potentialImpressions numActive dailyBudget totalBudget dailySpend
        campaignSpend ρ pos).1.impressions
      = pyInt (((linkedInCreativeStep campaignType objective fd targetingScore
          potentialImpressions numActive dailyBudget totalBudget dailySpend
          campaignSpend ρ pos).1.rawImpressions : ℚ)
        * ((linkedInCreativeStep campaignType objective fd targetingScore
            potentialImpressions numActive dailyBudget totalBudget dailySpend
            campaignSpend ρ pos).1.spend
          / (linkedInCreativeStep campaignType objective fd targetingScore
            potentialImpressions numActive dailyBudget totalBudget dailySpend
            campaignSpend ρ pos).1.rawSpend))
    ∧ (linkedInCreativeStep campaignType objective fd targetingScore
        potentialImpressions numActive dailyBudget totalBudget dailySpend
        campaignSpend ρ pos).1.clicks
      = pyInt (((linkedInCreativeStep campaignType objective fd targetingScore
          potentialImpressions numActive dailyBudget totalBudget dailySpend
          campaignSpend ρ pos).1.rawClicks : ℚ)
        * ((linkedInCreativeStep campaignType objective fd targetingScore
            potentialImpressions numActive dailyBudget totalBudget dailySpend
            campaignSpend ρ pos).1.spend
          / (linkedInCreativeStep campaignType objective fd targetingScore
            potentialImpressions numActive dailyBudget totalBudget dailySpend
            campaignSpend ρ pos).1.rawSpend)) := by
  simp only [linkedInCreativeStep]
  split_ifs with h
  · exact fun _ => ⟨rfl, rfl⟩
  · exact fun hfalse => nomatch hfalse

theorem googleKeywordStep_quality (ctrMult dailyBudget dailySpend : ℚ)
    (kw : Keyword) (ρ : Rng) (pos : ℕ) :
    (googleKeywordStep ctrMult dailyBudget dailySpend kw ρ pos).1.qualityUsed
      = (googleKeywordStep ctrMult dailyBudget dailySpend kw ρ
        pos).1.keyword.qualityScore := by
  rw [googleKeywordStep]
  split_ifs with h
  · rfl
  · rfl

theorem metaDayStep_relevance (ad : MetaAd) (potentialReach : ℤ)
    (pd : PlacementData) (aud : Audience) (objective : String)
    (adSetBudget adSetSpend : ℚ) (ρ : Rng) (pos : ℕ) :
    (metaDayStep ad potentialReach pd aud objective adSetBudget adSetSpend ρ
      pos).1.relevanceUsed
      = (metaDayStep ad potentialReach pd aud objective adSetBudget adSetSpend
        ρ pos).1.ad.relevanceScore / 10 :=
  rfl

theorem linkedInCreativeStep_quality (campaignType objective : String)
    (fd : LinkedInFormatData) (targetingScore : ℚ) (potentialImpressions : ℤ)
    (numActive : ℕ) (dailyBudget totalBudget dailySpend campaignSpend : ℚ)
    (ρ : Rng) (pos : ℕ) :
    (linkedInCreativeStep campaignType objective fd targetingScore
      potentialImpressions numActive dailyBudget totalBudget dailySpend
      campaignSpend ρ pos).1.qualityUsed
      = linkedInCreativeQuality ρ (linkedInCreativeStep campaignType objective
        fd targetingScore potentialImpressions numActive dailyBudget
        totalBudget dailySpend campaignSpend ρ pos).1.qualityPos :=
  rfl

/-! ## Unconditional ratio-shape facts of the stored entries -/

theorem googleCampaignLoop_ratios {days : ℕ} {ρ : Rng} :
    ∀ (cs : List GoogleCampaign) (acc : GoogleAcc),
      (∀ p ∈ acc.entries, RatiosOk p.2) →
      ∀ p ∈ (googleCampaignLoop days ρ cs acc).entries, RatiosOk p.2 := by
  intro cs
  induction cs with
  | nil =>
    intro acc he
    simpa [googleCampaignLoop] using he
  | cons c rest ih =>
    intro acc he
    simp only [googleCampaignLoop]
    split_ifs with hact
    · apply ih
      intro p hp
      simp only [googleProcessCampaign] at hp
      rcases List.mem_append.mp hp with h | h
      · exact he p h
      · simp at h
        rw [h]
        exact ⟨rfl, rfl, ⟨c.convValue.getD 10, rfl⟩⟩
    · exact ih acc he

theorem metaCampaignLoop_ratios {audiences : List (String × Audience)}
    {days : ℕ} {ρ : Rng} :
    ∀ (cs : List MetaCampaign) (acc : MetaAcc),
      (∀ p ∈ acc.entries, RatiosOk p.2) →
      ∀ p ∈ (metaCampaignLoop audiences days ρ cs acc).entries, RatiosOk p.2 := by
  intro cs
  induction cs with
  | nil =>
    intro acc he
    simpa [metaCampaignLoop] using he
  | cons c rest ih =>
    intro acc he
    simp only [metaCampaignLoop]
    split_ifs with hact
    · apply ih
      intro p hp
      simp only [metaProcessCampaign] at hp
      rcases List.mem_append.mp hp with h | h
      · exact he p h
      · simp at h
        rw [h]
        exact ⟨rfl, rfl, ⟨50, rfl⟩⟩
    · exact ih acc he

theorem linkedInCampaignLoop_ratios {days startWeekday : ℕ} {ρ : Rng} :
    ∀ (cs : List LinkedInCampaign) (acc : LinkedInAcc),
      (∀ p ∈ acc.entries, LinkedInRatiosOk p.2) →
      ∀ p ∈ (linkedInCampaignLoop days startWeekday ρ cs acc).entries,
        LinkedInRatiosOk p.2 := by
  intro cs
  induction cs with
  | nil =>
    intro acc he
    simpa [linkedInCampaignLoop] using he
  | cons c rest ih =>
    intro acc he
    simp only [linkedInCampaignLoop]
    split_ifs with h1 h2 h3
    · exact ih acc he
    · exact ih acc he
    · apply ih
      intro p hp
      simp only [linkedInProcessCampaign] at hp
      rcases List.mem_append.mp hp with h | h
      · exact he p h
      · simp at h
        rw [h]
        exact ⟨rfl, rfl⟩
    · exact ih acc he

/-! ## The claims -/

/-- C1 (corrected): the budget invariants the code maintains — in the search
engine every day's spend stays within the daily budget and lifetime spend
within `daily_budget * days`; in the reach engine every ad set's lifetime
spend stays within its resolved budget; in the professional-network engine
every day's spend stays within the daily budget, but lifetime campaign spend
is only bounded by `total_budget + daily_budget`: the intra-day remaining
budget is computed against the campaign spend at the start of the day, so a
single day can overshoot the total budget (see the counterexample). -/
theorem C1_budget_invariants (gcs : List GoogleCampaign)
    (fcs : List MetaCampaign) (auds : List (String × Audience))
    (lcs : List LinkedInCampaign) (days startWeekday : ℕ) (ρg ρf ρl : Rng)
    (h01g : Unit01 ρg) (h01f : Unit01 ρf) (h01l : Unit01 ρl)
    (hwfg : ∀ c ∈ gcs, GoogleCampaignWF c)
    (hwfa : ∀ a ∈ auds, AudienceWF a.2)
    (hwff : ∀ c ∈ fcs, MetaCampaignWF c)
    (hwfl : ∀ c ∈ lcs, LinkedInCampaignWF c) :
    (∀ t ∈ (googleRunSimulation gcs days ρg).traces,
      (∀ d ∈ t.days, d.spend ≤ t.dailyBudget)
        ∧ t.metrics.spend ≤ t.campaignBudget) ∧
    (∀ t ∈ (metaRunSimulation fcs auds days ρf).traces,
      ∀ s ∈ t.adSets, s.spend ≤ s.budget) ∧
    (∀ t ∈ (linkedInRunSimulation lcs days startWeekday ρl).traces,
      (∀ d ∈ t.days, d.spend ≤ t.dailyBudget)
        ∧ t.metrics.spend ≤ t.totalBudget + t.dailyBudget) := by
  obtain ⟨hg, -, -, -⟩ := googleRunSimulation_ok h01g hwfg
  obtain ⟨hf, -, -, -, -⟩ := metaRunSimulation_ok h01f hwfa hwff
  obtain ⟨hl, -, -, -⟩ := linkedInRunSimulation_ok h01l hwfl
  refine ⟨?_, ?_, ?_⟩
  · intro t ht
    obtain ⟨-, -, hdays, -, hsp⟩ := hg t ht
    exact ⟨fun d hd => (hdays d hd).2.1, hsp⟩
  · intro t ht s hs
    exact ((hf t ht).1 s hs).2.2.2
  · intro t ht
    obtain ⟨-, -, hdays, -, hsp⟩ := hl t ht
    exact ⟨fun d hd => (hdays d hd).2.1, hsp⟩

/-- Witness for C1 at a concrete configuration of all three engines. -/
theorem C1_budget_invariants_witness :
    (∀ t ∈ (googleRunSimulation [gC2Camp] 1 onesRng).traces,
      (∀ d ∈ t.days, d.spend ≤ t.dailyBudget)
        ∧ t.metrics.spend ≤ t.campaignBudget) ∧
    (∀ t ∈ (metaRunSimulation [fC3Camp] [("aud1", fC3Aud)] 1 onesRng).traces,
      ∀ s ∈ t.adSets, s.spend ≤ s.budget) ∧
    (∀ t ∈ (linkedInRunSimulation [lC1Camp] 1 0 onesRng).traces,
      (∀ d ∈ t.days, d.spend ≤ t.dailyBudget)
        ∧ t.metrics.spend ≤ t.totalBudget + t.dailyBudget) :=
  C1_budget_invariants [gC2Camp] [fC3Camp] [("aud1", fC3Aud)] [lC1Camp] 1 0
    onesRng onesRng onesRng (fun n => by norm_num [onesRng])
    (fun n => by norm_num [onesRng]) (fun n => by norm_num [onesRng])
    (by norm_num [GoogleCampaignWF, gC2Camp, gGroupA, gKwA, KeywordWF])
    (by norm_num [AudienceWF, fC3Aud])
    (by
      norm_num [MetaCampaignWF, fC3Camp, fC3AdSet, MetaTargetingWF, MetaAdWF]
      intro b hb
      exact Option.noConfusion hb)
    (by norm_num [LinkedInCampaignWF, lC1Camp])

/-- C1 counterexample: a well-formed professional-network campaign with two
creatives, total budget 4 and daily budget 100 spends 8 in a single
simulated day — lifetime spend exceeds the configured total budget. -/
theorem C1_lifetime_overshoot_cex :
    Unit01 onesRng ∧ LinkedInCampaignWF lC1Camp
    ∧ lC1Camp.totalBudget = some 4
    ∧ (linkedInRunSimulation [lC1Camp] 1 0 onesRng).totals.spend = 8
    ∧ ¬((linkedInRunSimulation [lC1Camp] 1 0 onesRng).totals.spend ≤ 4) := by
  have h : (linkedInRunSimulation [lC1Camp] 1 0 onesRng).totals.spend = 8 := by
    norm_num +decide [linkedInRunSimulation, linkedInCampaignLoop,
      linkedInProcessCampaign, linkedInDayLoop, linkedInCreativeLoop,
      linkedInCreativeStep, linkedInWebhookPos, leadFormDraws,
      linkedInRawImpressions, linkedInRawClicks, linkedInRawSpend,
      linkedInActualCtr, linkedInActualCpm, linkedInCreativeQuality,
      linkedInPotentialImpressions, linkedInBaseImpressions, linkedInDayFactor,
      linkedInConversionRateMultiplier, linkedInAdFormats, targetingMatchScore,
      targetingDimensions, linkedInBidCompetitiveness,
      calculateBidCompetitiveness, linkedInActiveCreatives, uniform, pyInt,
      onesRng, lC1Camp]
  exact ⟨fun n => by norm_num [onesRng],
    by norm_num [LinkedInCampaignWF, lC1Camp], rfl, h, by rw [h]; norm_num⟩

/-- C2 (corrected): the over-budget scaling — in the reach and
professional-network engines a scaled record's impressions and clicks both
equal the raw values scaled by the remaining-budget ratio (recorded spend
over would-be spend), but in the search engine only clicks and conversions
are scaled; impressions are always recorded raw, scaled or not (see the
counterexample). -/
theorem C2_budget_scaling (gcs : List GoogleCampaign) (fcs : List MetaCampaign)
    (auds : List (String × Audience)) (lcs : List LinkedInCampaign)
    (days startWeekday : ℕ) (ρg ρf ρl : Rng) :
    (∀ t ∈ (googleRunSimulation gcs days ρg).traces, ∀ d ∈ t.days,
      ∀ gl ∈ d.groups, ∀ r ∈ gl,
        r.impressions = r.rawImpressions
        ∧ (r.scaled = true →
          r.clicks = pyInt ((r.rawClicks : ℚ) * (r.spend / r.rawSpend))
          ∧ r.conversions
            = pyInt ((r.rawConversions : ℚ) * (r.spend / r.rawSpend)))) ∧
    (∀ t ∈ (metaRunSimulation fcs auds days ρf).traces, ∀ s ∈ t.adSets,
      ∀ r ∈ s.recs, r.scaled = true →
        r.impressions = pyInt ((r.rawImpressions : ℚ) * (r.spend / r.rawSpend))
        ∧ r.clicks = pyInt ((r.rawClicks : ℚ) * (r.spend / r.rawSpend))) ∧
    (∀ t ∈ (linkedInRunSimulation lcs days startWeekday ρl).traces,
      ∀ d ∈ t.days, ∀ r ∈ d.creatives, r.scaled = true →
        r.impressions = pyInt ((r.rawImpressions : ℚ) * (r.spend / r.rawSpend))
        ∧ r.clicks = pyInt ((r.rawClicks : ℚ) * (r.spend / r.rawSpend))) :=
  ⟨googleRunSimulation_records _
      (fun ctrMult db ds kw pos => googleKeywordStep_scaling ctrMult db ds kw ρg pos),
    metaRunSimulation_records _
      (fun ad pr pd aud ob asb ds pos =>
        metaDayStep_scaling ad pr pd aud ob asb ds ρf pos),
    linkedInRunSimulation_records _
      (fun ct ob fd ts pot na db tb ds cspend pos =>
        linkedInCreativeStep_scaling ct ob fd ts pot na db tb ds cspend ρl pos)⟩

/-- C2 counterexample: a search-engine keyword whose would-be spend 50.25
exceeds the daily budget 10 is recorded with spend capped at 10 and clicks
scaled from 25 to 4, yet its recorded impressions stay at the raw 500; the
proportional value would have been 99. -/
theorem C2_google_impressions_unscaled_cex :
    Unit01 onesRng
    ∧ (googleRunSimulation [gC2Camp] 1 onesRng).traces
      = [⟨"g1", 10, 10, [⟨[[gC2Rec]], 500, 4, 0, 10⟩],
        ⟨500, 4, 0, 10, 1/125, 0, 0⟩⟩]
    ∧ gC2Rec.scaled = true
    ∧ gC2Rec.impressions = gC2Rec.rawImpressions
    ∧ pyInt ((gC2Rec.rawImpressions : ℚ) * (gC2Rec.spend / gC2Rec.rawSpend)) = 99
    ∧ gC2Rec.impressions ≠ 99 := by
  refine ⟨fun n => by norm_num [onesRng], ?_, rfl, rfl, ?_, by norm_num [gC2Rec]⟩
  · norm_num +decide [googleRunSimulation, googleCampaignLoop,
      googleProcessCampaign, googleCampaignDays, googleAdGroupsDay,
      googleKeywordLoop, googleKeywordStep, googleKwImpressions, googleKwClicks,
      googleKwConversions, googleKwSpend, googleKwCpc, googleActualCtr,
      googleSpendScale, calculateActualCpc, googleAdFormats,
      matchTypeMultiplier, uniform, pyInt, onesRng, gC2Camp, gGroupA, gKwA,
      gC2Rec]
  · norm_num [gC2Rec, pyInt]

/-- C3 (corrected): counter sanity — impressions, clicks, conversions and
spend are nonnegative and conversions never exceed clicks in every record of
all three engines, and clicks never exceed impressions in the search and
professional-network engines; in the reach engine, however, recorded clicks
can exceed recorded impressions for legitimate audiences (daily CTR is not
capped at 1, see the counterexample), so only the weaker `CountersOkW`
holds there. -/
theorem C3_metric_sanity (gcs : List GoogleCampaign) (fcs : List MetaCampaign)
    (auds : List (String × Audience)) (lcs : List LinkedInCampaign)
    (days startWeekday : ℕ) (ρg ρf ρl : Rng)
    (h01g : Unit01 ρg) (h01f : Unit01 ρf) (h01l : Unit01 ρl)
    (hwfg : ∀ c ∈ gcs, GoogleCampaignWF c)
    (hwfa : ∀ a ∈ auds, AudienceWF a.2)
    (hwff : ∀ c ∈ fcs, MetaCampaignWF c)
    (hwfl : ∀ c ∈ lcs, LinkedInCampaignWF c) :
    (∀ t ∈ (googleRunSimulation gcs days ρg).traces,
      CountersOk t.metrics.impressions t.metrics.clicks t.metrics.conversions
        t.metrics.spend
      ∧ ∀ d ∈ t.days,
        CountersOk d.impressions d.clicks d.conversions d.spend
        ∧ ∀ gl ∈ d.groups, ∀ r ∈ gl, GoogleRecOk r) ∧
    CountersOk (googleRunSimulation gcs days ρg).totals.impressions
      (googleRunSimulation gcs days ρg).totals.clicks
      (googleRunSimulation gcs days ρg).totals.conversions
      (googleRunSimulation gcs days ρg).totals.spend ∧
    (∀ t ∈ (metaRunSimulation fcs auds days ρf).traces,
      CountersOkW t.metrics.impressions t.metrics.clicks t.metrics.conversions
        t.metrics.spend
      ∧ ∀ s ∈ t.adSets,
        CountersOkW s.impressions s.clicks s.conversions s.spend
        ∧ ∀ r ∈ s.recs, MetaRecOk r) ∧
    CountersOkW (metaRunSimulation fcs auds days ρf).totals.impressions
      (metaRunSimulation fcs auds days ρf).totals.clicks
      (metaRunSimulation fcs auds days ρf).totals.conversions
      (metaRunSimulation fcs auds days ρf).totals.spend ∧
    (∀ t ∈ (linkedInRunSimulation lcs days startWeekday ρl).traces,
      CountersOk t.metrics.impressions t.metrics.clicks t.metrics.conversions
        t.metrics.spend
      ∧ ∀ d ∈ t.days,
        CountersOk d.impressions d.clicks d.conversions d.spend
        ∧ ∀ r ∈ d.creatives, LinkedInRecOk r) ∧
    CountersOk (linkedInRunSimulation lcs days startWeekday ρl).totals.impressions
      (linkedInRunSimulation lcs days startWeekday ρl).totals.clicks
      (linkedInRunSimulation lcs days startWeekday ρl).totals.conversions
      (linkedInRunSimulation lcs days startWeekday ρl).totals.spend := by
  obtain ⟨hg, -, hgt, -⟩ := googleRunSimulation_ok h01g hwfg
  obtain ⟨hf, -, hft, -, -⟩ := metaRunSimulation_ok h01f hwfa hwff
  obtain ⟨hl, -, hlt, -⟩ := linkedInRunSimulation_ok h01l hwfl
  refine ⟨?_, hgt, ?_, hft, ?_, hlt⟩
  · intro t ht
    obtain ⟨-, -, hdays, hm, -⟩ := hg t ht
    exact ⟨hm, fun d hd => ⟨(hdays d hd).1, (hdays d hd).2.2⟩⟩
  · intro t ht
    obtain ⟨hsets, hm⟩ := hf t ht
    exact ⟨hm, fun s hs => ⟨(hsets s hs).2.1, (hsets s hs).1⟩⟩
  · intro t ht
    obtain ⟨-, -, hdays, hm, -⟩ := hl t ht
    exact ⟨hm, fun d hd => ⟨(hdays d hd).1, (hdays d hd).2.2⟩⟩

/-- Witness for C3 at a concrete configuration of all three engines. -/
theorem C3_metric_sanity_witness :
    (∀ t ∈ (googleRunSimulation [gC2Camp] 1 onesRng).traces,
      CountersOk t.metrics.impressions t.metrics.clicks t.metrics.conversions
        t.metrics.spend
      ∧ ∀ d ∈ t.days,
        CountersOk d.impressions d.clicks d.conversions d.spend
        ∧ ∀ gl ∈ d.groups, ∀ r ∈ gl, GoogleRecOk r) ∧
    CountersOk (googleRunSimulation [gC2Camp] 1 onesRng).totals.impressions
      (googleRunSimulation [gC2Camp] 1 onesRng).totals.clicks
      (googleRunSimulation [gC2Camp] 1 onesRng).totals.conversions
      (googleRunSimulation [gC2Camp] 1 onesRng).totals.spend ∧
    (∀ t ∈ (metaRunSimulation [fC3Camp] [("aud1", fC3Aud)] 1 onesRng).traces,
      CountersOkW t.metrics.impressions t.metrics.clicks t.metrics.conversions
        t.metrics.spend
      ∧ ∀ s ∈ t.adSets,
        CountersOkW s.impressions s.clicks s.conversions s.spend
        ∧ ∀ r ∈ s.recs, MetaRecOk r) ∧
    CountersOkW (metaRunSimulation [fC3Camp] [("aud1", fC3Aud)] 1
        onesRng).totals.impressions
      (metaRunSimulation [fC3Camp] [("aud1", fC3Aud)] 1 onesRng).totals.clicks
      (metaRunSimulation [fC3Camp] [("aud1", fC3Aud)] 1
        onesRng).totals.conversions
      (metaRunSimulation [fC3Camp] [("aud1", fC3Aud)] 1 onesRng).totals.spend ∧
    (∀ t ∈ (linkedInRunSimulation [lC1Camp] 1 0 onesRng).traces,
      CountersOk t.metrics.impressions t.metrics.clicks t.metrics.conversions
        t.metrics.spend
      ∧ ∀ d ∈ t.days,
        CountersOk d.impressions d.clicks d.conversions d.spend
        ∧ ∀ r ∈ d.creatives, LinkedInRecOk r) ∧
    CountersOk (linkedInRunSimulation [lC1Camp] 1 0 onesRng).totals.impressions
      (linkedInRunSimulation [lC1Camp] 1 0 onesRng).totals.clicks
      (linkedInRunSimulation [lC1Camp] 1 0 onesRng).totals.conversions
      (linkedInRunSimulation [lC1Camp] 1 0 onesRng).totals.spend :=
  C3_metric_sanity [gC2Camp] [fC3Camp] [("aud1", fC3Aud)] [lC1Camp] 1 0
    onesRng onesRng onesRng (fun n => by norm_num [onesRng])
    (fun n => by norm_num [onesRng]) (fun n => by norm_num [onesRng])
    (by norm_num [GoogleCampaignWF, gC2Camp, gGroupA, gKwA, KeywordWF])
    (by norm_num [AudienceWF, fC3Aud])
    (by
      norm_num [MetaCampaignWF, fC3Camp, fC3AdSet, MetaTargetingWF, MetaAdWF]
      intro b hb
      exact Option.noConfusion hb)
    (by norm_num [LinkedInCampaignWF, lC1Camp])

/-- C3 counterexample: with a well-formed audience of base CTR 1 on the
`whatsapp_click_to_chat` placement and a relevance-10 ad, the reach engine
records 46924 clicks against 22560 impressions in its aggregate totals. -/
theorem C3_meta_clicks_exceed_impressions_cex :
    Unit01 onesRng ∧ AudienceWF fC3Aud ∧ MetaCampaignWF fC3Camp
    ∧ (metaRunSimulation [fC3Camp] [("aud1", fC3Aud)] 1
        onesRng).totals.impressions = 22560
    ∧ (metaRunSimulation [fC3Camp] [("aud1", fC3Aud)] 1 onesRng).totals.clicks
      = 46924
    ∧ ¬((metaRunSimulation [fC3Camp] [("aud1", fC3Aud)] 1 onesRng).totals.clicks
      ≤ (metaRunSimulation [fC3Camp] [("aud1", fC3Aud)] 1
        onesRng).totals.impressions) := by
  have h : (metaRunSimulation [fC3Camp] [("aud1", fC3Aud)] 1
        onesRng).totals.impressions = 22560
      ∧ (metaRunSimulation [fC3Camp] [("aud1", fC3Aud)] 1 onesRng).totals.clicks
        = 46924 := by
    norm_num +decide [metaRunSimulation, metaCampaignLoop, metaProcessCampaign,
      metaAdSetsLoop, metaProcessAdSet, metaAdsLoop, metaPlacementLoop,
      metaDayLoop, metaDayStep, metaRawImpressions, metaRawClicks, metaRawSpend,
      metaDailyCtr, metaDailyCpm, metaDailyReach, metaConversionRateMultiplier,
      metaAdSetBudget, metaAdSetAudience, metaAdSetPlacements,
      metaDefaultAudience, calculateAudienceReach, placementFactors,
      List.lookup, uniform, pyInt, onesRng, fC3Camp, fC3AdSet, fC3Aud]
  exact ⟨fun n => by norm_num [onesRng], by norm_num [AudienceWF, fC3Aud],
    by
      norm_num [MetaCampaignWF, fC3Camp, fC3AdSet, MetaTargetingWF, MetaAdWF]
      intro b hb
      exact Option.noConfusion hb,
    h.1, h.2, by rw [h.1, h.2]; norm_num⟩

/-- C4 (confirmed): every stored ratio is zero-guarded — in each per-campaign
entry and each `total_metrics` map of the three engines, and in the
aggregator's combined totals, `ctr` is `clicks / impressions` when
`impressions > 0` and exactly 0 otherwise, and `cpa` is
`spend / conversions` when `conversions > 0` and exactly 0 otherwise (the
stored `roas` keys are likewise guarded on `spend > 0`); no stored ratio is
an unguarded division. -/
theorem C4_guarded_ratios (gcs : List GoogleCampaign) (fcs : List MetaCampaign)
    (auds : List (String × Audience)) (lcs : List LinkedInCampaign)
    (days startWeekday : ℕ) (ρg ρf ρl : Rng) :
    (∀ p ∈ (googleRunSimulation gcs days ρg).campaigns, RatiosOk p.2) ∧
    TotalRatiosOk (googleRunSimulation gcs days ρg).totals ∧
    (∀ p ∈ (metaRunSimulation fcs auds days ρf).campaigns, RatiosOk p.2) ∧
    MetaTotalRatiosOk (metaRunSimulation fcs auds days ρf).totals ∧
    (∀ p ∈ (linkedInRunSimulation lcs days startWeekday ρl).campaigns,
      LinkedInRatiosOk p.2) ∧
    TotalRatiosOk (linkedInRunSimulation lcs days startWeekday ρl).totals ∧
    CombinedRatiosOk
      (runCampaigns gcs fcs auds lcs days startWeekday ρg ρf ρl).combined :=
  ⟨googleCampaignLoop_ratios gcs ⟨[], [], 0, 0, 0, 0, 0⟩ (by simp),
    ⟨rfl, rfl⟩,
    metaCampaignLoop_ratios fcs ⟨[], [], 0, 0, 0, 0, 0⟩ (by simp),
    ⟨rfl, rfl, rfl⟩,
    linkedInCampaignLoop_ratios lcs ⟨[], [], 0, 0, 0, 0, 0⟩ (by simp),
    ⟨rfl, rfl⟩,
    ⟨rfl, rfl⟩⟩

/-- C5 (corrected): a campaign whose status is not `"active"` is skipped
entirely — the whole run is identical to a run without it, so sibling
campaigns are unaffected; but the results store NO entry for the inactive
campaign (rather than an all-zero entry, see the counterexample). -/
theorem C5_inactive_skipped (gpre gpost : List GoogleCampaign)
    (gc : GoogleCampaign) (fpre fpost : List MetaCampaign) (fc : MetaCampaign)
    (lpre lpost : List LinkedInCampaign) (lc : LinkedInCampaign)
    (auds : List (String × Audience)) (days startWeekday : ℕ) (ρg ρf ρl : Rng)
    (hg : gc.status ≠ "active") (hf : fc.status ≠ "active")
    (hl : lc.status ≠ "active") :
    googleRunSimulation (gpre ++ gc :: gpost) days ρg
      = googleRunSimulation (gpre ++ gpost) days ρg ∧
    metaRunSimulation (fpre ++ fc :: fpost) auds days ρf
      = metaRunSimulation (fpre ++ fpost) auds days ρf ∧
    linkedInRunSimulation (lpre ++ lc :: lpost) days startWeekday ρl
      = linkedInRunSimulation (lpre ++ lpost) days startWeekday ρl := by
  refine ⟨?_, ?_, ?_⟩
  · simp only [googleRunSimulation]
    rw [googleCampaignLoop_skip hg]
  · simp only [metaRunSimulation]
    rw [metaCampaignLoop_skip hf]
  · simp only [linkedInRunSimulation]
    rw [linkedInCampaignLoop_skip (Or.inl hl)]

/-- Witness for C5 at concrete paused campaigns inserted among siblings. -/
theorem C5_inactive_skipped_witness :
    googleRunSimulation ([gC2Camp] ++ gInactiveCamp :: []) 1 onesRng
      = googleRunSimulation ([gC2Camp] ++ []) 1 onesRng ∧
    metaRunSimulation ([fC3Camp] ++ fInactiveCamp :: []) [("aud1", fC3Aud)] 1
        onesRng
      = metaRunSimulation ([fC3Camp] ++ []) [("aud1", fC3Aud)] 1 onesRng ∧
    linkedInRunSimulation ([lC1Camp] ++ lInactiveCamp :: []) 1 0 onesRng
      = linkedInRunSimulation ([lC1Camp] ++ []) 1 0 onesRng :=
  C5_inactive_skipped [gC2Camp] [] gInactiveCamp [fC3Camp] [] fInactiveCamp
    [lC1Camp] [] lInactiveCamp [("aud1", fC3Aud)] 1 0 onesRng onesRng onesRng
    (by norm_num +decide [gInactiveCamp]) (by norm_num +decide [fInactiveCamp])
    (by norm_num +decide [lInactiveCamp])

/-- C5 counterexample: a paused campaign yields no stored per-campaign entry
at all — the results' campaigns map is empty, it does not report an all-zero
entry for the paused campaign. -/
theorem C5_no_zero_entry_cex :
    gInactiveCamp.status = "paused"
    ∧ (googleRunSimulation [gInactiveCamp] 1 onesRng).campaigns = []
    ∧ (metaRunSimulation [fInactiveCamp] [] 1 onesRng).campaigns = []
    ∧ (linkedInRunSimulation [lInactiveCamp] 1 0 onesRng).campaigns = [] := by
  refine ⟨rfl, ?_, ?_, ?_⟩
  · norm_num +decide [googleRunSimulation, googleCampaignLoop, gInactiveCamp]
  · norm_num +decide [metaRunSimulation, metaCampaignLoop, fInactiveCamp]
  · norm_num +decide [linkedInRunSimulation, linkedInCampaignLoop,
      lInactiveCamp]

/-- C6 (corrected): the search engine's keyword quality and the reach
engine's ad relevance and review status are drawn once at creation time and
stored in the unit — every simulated record uses the stored creation-time
value — but the professional-network engine's creative quality is NOT a
creation-time value: a fresh `uniform(0.5, 1.0)` quality is drawn for every
creative on every simulated day, at the record's own stream position (see
the counterexample). -/
theorem C6_quality_provenance (gcs : List GoogleCampaign)
    (fcs : List MetaCampaign) (auds : List (String × Audience))
    (lcs : List LinkedInCampaign) (days startWeekday : ℕ) (ρg ρf ρl : Rng)
    (text mt : String) (bid : ℚ) (kpos apos : ℕ) :
    (addKeywordObj text mt bid ρg kpos).1.qualityScore
      = ((randint ρg kpos 1 10 : ℤ) : ℚ) ∧
    (createAdObj ρf apos).1.relevanceScore
      = ((randint ρf apos 1 10 : ℤ) : ℚ) ∧
    (createAdObj ρf apos).1.reviewStatus
      = (if ρf (apos + 1) > 1/10 then "approved" else "pending_review") ∧
    (∀ t ∈ (googleRunSimulation gcs days ρg).traces, ∀ d ∈ t.days,
      ∀ gl ∈ d.groups, ∀ r ∈ gl, r.qualityUsed = r.keyword.qualityScore) ∧
    (∀ t ∈ (metaRunSimulation fcs auds days ρf).traces, ∀ s ∈ t.adSets,
      ∀ r ∈ s.recs, r.relevanceUsed = r.ad.relevanceScore / 10) ∧
    (∀ t ∈ (linkedInRunSimulation lcs days startWeekday ρl).traces,
      ∀ d ∈ t.days, ∀ r ∈ d.creatives,
        r.qualityUsed = linkedInCreativeQuality ρl r.qualityPos) :=
  ⟨rfl, rfl, rfl,
    googleRunSimulation_records _
      (fun cm db ds kw pos => googleKeywordStep_quality cm db ds kw ρg pos),
    metaRunSimulation_records _
      (fun ad pr pd aud ob asb ds pos =>
        metaDayStep_relevance ad pr pd aud ob asb ds ρf pos),
    linkedInRunSimulation_records _
      (fun ct ob fd ts pot na db tb ds cspend pos =>
        linkedInCreativeStep_quality ct ob fd ts pot na db tb ds cspend ρl pos)⟩

/-- C6 counterexample: under a legal draw stream a one-creative
professional-network campaign records quality 1/2 on day one and quality 1
on day two — the quality scaling its performance is not a fixed
creation-time value. -/
theorem C6_linkedin_quality_redrawn_cex :
    Unit01 c6Rng
    ∧ (linkedInRunSimulation [lC6Camp] 2 0 c6Rng).traces.map
      (fun t => t.days.map (fun d => d.creatives.map
        LinkedInCreativeRec.qualityUsed)) = [[[1/2], [1]]]
    ∧ ((1 : ℚ)/2) ≠ 1 := by
  refine ⟨fun n => by unfold c6Rng; split_ifs <;> norm_num, ?_, by norm_num⟩
  norm_num +decide [linkedInRunSimulation, linkedInCampaignLoop,
    linkedInProcessCampaign, linkedInDayLoop, linkedInCreativeLoop,
    linkedInCreativeStep, linkedInWebhookPos, leadFormDraws,
    linkedInRawImpressions, linkedInRawClicks, linkedInRawSpend,
    linkedInActualCtr, linkedInActualCpm, linkedInCreativeQuality,
    linkedInPotentialImpressions, linkedInBaseImpressions, linkedInDayFactor,
    linkedInConversionRateMultiplier, linkedInAdFormats, targetingMatchScore,
    targetingDimensions, linkedInBidCompetitiveness,
    calculateBidCompetitiveness, linkedInActiveCreatives, uniform, pyInt,
    c6Rng, lC6Camp]

/-- C7 (corrected): when a keyword's spend exhausts the daily budget the
`break` ends only the current ad group's keyword loop — within one group's
records only the last one can be budget-scaled — but processing then
continues with the next ad group of the same campaign on the same day: every
active ad group with keywords produces records regardless of the budget
state the previous groups left (see the counterexample). -/
theorem C7_daily_budget_break (ctrMult dailyBudget : ℚ) (ρ : Rng) :
    (∀ (kws : List Keyword) (acc : DayAcc),
      ∀ r ∈ (googleKeywordLoop ctrMult dailyBudget ρ kws acc).1.dropLast,
        r.scaled = false) ∧
    (∀ (groups : List AdGroup) (acc : DayAcc),
      ∀ p ∈ groups.zip (googleAdGroupsDay dailyBudget ρ groups acc).1,
        p.1.status = "active" → p.1.keywords ≠ [] → p.2 ≠ []) :=
  ⟨googleKeywordLoop_scaled_last, googleAdGroupsDay_active_nonempty⟩

/-- C7 counterexample: with daily budget 10, the first ad group's single
keyword already spends the full budget, yet the second ad group's keyword is
still evaluated that day and records 500 (unscaled) impressions. -/
theorem C7_second_group_runs_cex :
    (googleKeywordLoop 1 10 onesRng [gKwA] ⟨0, 0, 0, 0, 0⟩).2.spend = 10
    ∧ (googleRunSimulation [gC7Camp] 1 onesRng).traces.map
      (fun t => t.days.map (fun d => d.groups.map
        (fun gl => gl.map KwRec.impressions))) = [[[[500], [500]]]]
    ∧ ([500] : List ℤ) ≠ [] := by
  refine ⟨?_, ?_, by norm_num⟩
  · norm_num +decide [googleKeywordLoop, googleKeywordStep,
      googleKwImpressions, googleKwClicks, googleKwConversions, googleKwSpend,
      googleKwCpc, googleActualCtr, googleSpendScale, calculateActualCpc,
      matchTypeMultiplier, uniform, pyInt, onesRng, gKwA]
  · norm_num +decide [googleRunSimulation, googleCampaignLoop,
      googleProcessCampaign, googleCampaignDays, googleAdGroupsDay,
      googleKeywordLoop, googleKeywordStep, googleKwImpressions,
      googleKwClicks, googleKwConversions, googleKwSpend, googleKwCpc,
      googleActualCtr, googleSpendScale, calculateActualCpc, googleAdFormats,
      matchTypeMultiplier, uniform, pyInt, onesRng, gC7Camp, gGroupA, gKwA]

/-- C8 (corrected): the professional-network targeting score lies in
`[8/75, 1]`, not `[0.2, 1]`: the ceiling 1 always holds and 0.2 is the value
for an input populating NO targeting dimension, but it is not a floor —
with one populated dimension the score is `1/15 + 1/25 = 8/75 ≈ 0.107 < 0.2`
(see the counterexample). -/
theorem C8_targeting_score_range :
    (∀ targeting : List String,
      8/75 ≤ targetingMatchScore targeting ∧ targetingMatchScore targeting ≤ 1)
    ∧ targetingMatchScore [] = 1/5 := by
  refine ⟨targetingMatchScore_mem, ?_⟩
  norm_num +decide [targetingMatchScore, targetingDimensions]

/-- C8 counterexample: populating exactly the `job_title` dimension gives a
targeting score of `8/75`, strictly below the claimed floor `0.2`. -/
theorem C8_single_dimension_cex :
    targetingMatchScore ["job_title"] = 8/75 ∧ ¬((1/5 : ℚ) ≤ 8/75) := by
  constructor
  · norm_num +decide [targetingMatchScore, targetingDimensions]
  · norm_num

/-- C9 (confirmed): the aggregator's combined `total_metrics` counters are
the exact sums of the three platform results' `total_metrics` counters —
impressions, clicks, conversions and spend each. -/
theorem C9_combined_sums (gcs : List GoogleCampaign) (fcs : List MetaCampaign)
    (auds : List (String × Audience)) (lcs : List LinkedInCampaign)
    (days startWeekday : ℕ) (ρg ρf ρl : Rng) :
    (runCampaigns gcs fcs auds lcs days startWeekday ρg ρf
        ρl).combined.impressions
      = (runCampaigns gcs fcs auds lcs days startWeekday ρg ρf
          ρl).google.totals.impressions
        + (runCampaigns gcs fcs auds lcs days startWeekday ρg ρf
          ρl).facebook.totals.impressions
        + (runCampaigns gcs fcs auds lcs days startWeekday ρg ρf
          ρl).linkedin.totals.impressions ∧
    (runCampaigns gcs fcs auds lcs days startWeekday ρg ρf ρl).combined.clicks
      = (runCampaigns gcs fcs auds lcs days startWeekday ρg ρf
          ρl).google.totals.clicks
        + (runCampaigns gcs fcs auds lcs days startWeekday ρg ρf
          ρl).facebook.totals.clicks
        + (runCampaigns gcs fcs auds lcs days startWeekday ρg ρf
          ρl).linkedin.totals.clicks ∧
    (runCampaigns gcs fcs auds lcs days startWeekday ρg ρf
        ρl).combined.conversions
      = (runCampaigns gcs fcs auds lcs days startWeekday ρg ρf
          ρl).google.totals.conversions
        + (runCampaigns gcs fcs auds lcs days startWeekday ρg ρf
          ρl).facebook.totals.conversions
        + (runCampaigns gcs fcs auds lcs days startWeekday ρg ρf
          ρl).linkedin.totals.conversions ∧
    (runCampaigns gcs fcs auds lcs days startWeekday ρg ρf ρl).combined.spend
      = (runCampaigns gcs fcs auds lcs days startWeekday ρg ρf
          ρl).google.totals.spend
        + (runCampaigns gcs fcs auds lcs days startWeekday ρg ρf
          ρl).facebook.totals.spend
        + (runCampaigns gcs fcs auds lcs days startWeekday ρg ρf
          ρl).linkedin.totals.spend := by
  refine ⟨?_, ?_, ?_, ?_⟩ <;> simp [runCampaigns, combineResults]

/-- C10 (confirmed): `run_simulation` on an engine instance replaces the
stored results with a freshly initialized envelope before the platform loop
runs — the returned results equal the pure run on the instance's campaigns,
equal the newly stored results, are independent of whatever results a
previous run left on the instance, and hold entries only for campaigns of
this call's campaign list. -/
theorem C10_fresh_envelope (stG stG' : GoogleState) (stF stF' : MetaState)
    (stL stL' : LinkedInState) (days startWeekday : ℕ) (ρg ρf ρl : Rng)
    (hgc : stG.campaigns = stG'.campaigns) (hfc : stF.campaigns = stF'.campaigns)
    (hfa : stF.audiences = stF'.audiences) (hlc : stL.campaigns = stL'.campaigns) :
    ((googleRunSimulationState stG days ρg).2
        = googleRunSimulation stG.campaigns days ρg
      ∧ (googleRunSimulationState stG days ρg).1.results
        = (googleRunSimulationState stG days ρg).2
      ∧ (googleRunSimulationState stG days ρg).2
        = (googleRunSimulationState stG' days ρg).2
      ∧ ∀ p ∈ (googleRunSimulationState stG days ρg).2.campaigns,
          p.1 ∈ stG.campaigns.map GoogleCampaign.id) ∧
    ((metaRunSimulationState stF days ρf).2
        = metaRunSimulation stF.campaigns stF.audiences days ρf
      ∧ (metaRunSimulationState stF days ρf).1.results
        = (metaRunSimulationState stF days ρf).2
      ∧ (metaRunSimulationState stF days ρf).2
        = (metaRunSimulationState stF' days ρf).2
      ∧ ∀ p ∈ (metaRunSimulationState stF days ρf).2.campaigns,
          p.1 ∈ stF.campaigns.map MetaCampaign.id) ∧
    ((linkedInRunSimulationState stL days startWeekday ρl).2
        = linkedInRunSimulation stL.campaigns days startWeekday ρl
      ∧ (linkedInRunSimulationState stL days startWeekday ρl).1.results
        = (linkedInRunSimulationState stL days startWeekday ρl).2
      ∧ (linkedInRunSimulationState stL days startWeekday ρl).2
        = (linkedInRunSimulationState stL' days startWeekday ρl).2
      ∧ ∀ p ∈ (linkedInRunSimulationState stL days startWeekday ρl).2.campaigns,
          p.1 ∈ stL.campaigns.map LinkedInCampaign.id) := by
  refine ⟨⟨rfl, rfl, ?_, ?_⟩, ⟨rfl, rfl, ?_, ?_⟩, ⟨rfl, rfl, ?_, ?_⟩⟩
  · simp only [googleRunSimulationState, hgc]
  · intro p hp
    have hp' : p ∈ (googleCampaignLoop days ρg stG.campaigns
        ⟨[], [], 0, 0, 0, 0, 0⟩).entries := hp
    rcases googleCampaignLoop_entries_sub stG.campaigns _ p hp' with h | h
    · simp at h
    · exact h
  · simp only [metaRunSimulationState, hfc, hfa]
  · intro p hp
    have hp' : p ∈ (metaCampaignLoop stF.audiences days ρf stF.campaigns
        ⟨[], [], 0, 0, 0, 0, 0⟩).entries := hp
    rcases metaCampaignLoop_entries_sub stF.campaigns _ p hp' with h | h
    · simp at h
    · exact h
  · simp only [linkedInRunSimulationState, hlc]
  · intro p hp
    have hp' : p ∈ (linkedInCampaignLoop days startWeekday ρl stL.campaigns
        ⟨[], [], 0, 0, 0, 0, 0⟩).entries := hp
    rcases linkedInCampaignLoop_entries_sub stL.campaigns _ p hp' with h | h
    · simp at h
    · exact h

/-- Witness for C10: two instances per engine sharing campaigns but holding
different stale results envelopes. -/
theorem C10_fresh_envelope_witness :
    ((googleRunSimulationState ⟨[gC2Camp], gJunkResults⟩ 1 onesRng).2
        = googleRunSimulation (GoogleState.campaigns ⟨[gC2Camp], gJunkResults⟩)
          1 onesRng
      ∧ (googleRunSimulationState ⟨[gC2Camp], gJunkResults⟩ 1 onesRng).1.results
        = (googleRunSimulationState ⟨[gC2Camp], gJunkResults⟩ 1 onesRng).2
      ∧ (googleRunSimulationState ⟨[gC2Camp], gJunkResults⟩ 1 onesRng).2
        = (googleRunSimulationState ⟨[gC2Camp], ⟨[], ⟨0, 0, 0, 0, 0, 0⟩, [], 0⟩⟩
          1 onesRng).2
      ∧ ∀ p ∈ (googleRunSimulationState ⟨[gC2Camp], gJunkResults⟩ 1
            onesRng).2.campaigns,
          p.1 ∈ (GoogleState.campaigns ⟨[gC2Camp], gJunkResults⟩).map
            GoogleCampaign.id) ∧
    ((metaRunSimulationState ⟨[fC3Camp], [("aud1", fC3Aud)], fJunkResults⟩ 1
          onesRng).2
        = metaRunSimulation
          (MetaState.campaigns ⟨[fC3Camp], [("aud1", fC3Aud)], fJunkResults⟩)
          (MetaState.audiences ⟨[fC3Camp], [("aud1", fC3Aud)], fJunkResults⟩)
          1 onesRng
      ∧ (metaRunSimulationState ⟨[fC3Camp], [("aud1", fC3Aud)], fJunkResults⟩
          1 onesRng).1.results
        = (metaRunSimulationState ⟨[fC3Camp], [("aud1", fC3Aud)], fJunkResults⟩
          1 onesRng).2
      ∧ (metaRunSimulationState ⟨[fC3Camp], [("aud1", fC3Aud)], fJunkResults⟩
          1 onesRng).2
        = (metaRunSimulationState ⟨[fC3Camp], [("aud1", fC3Aud)],
          ⟨[], ⟨0, 0, 0, 0, 0, 0, 0⟩, [], 0⟩⟩ 1 onesRng).2
      ∧ ∀ p ∈ (metaRunSimulationState ⟨[fC3Camp], [("aud1", fC3Aud)],
            fJunkResults⟩ 1 onesRng).2.campaigns,
          p.1 ∈ (MetaState.campaigns ⟨[fC3Camp], [("aud1", fC3Aud)],
            fJunkResults⟩).map MetaCampaign.id) ∧
    ((linkedInRunSimulationState ⟨[lC1Camp], lJunkResults⟩ 1 0 onesRng).2
        = linkedInRunSimulation
          (LinkedInState.campaigns ⟨[lC1Camp], lJunkResults⟩) 1 0 onesRng
      ∧ (linkedInRunSimulationState ⟨[lC1Camp], lJunkResults⟩ 1 0
          onesRng).1.results
        = (linkedInRunSimulationState ⟨[lC1Camp], lJunkResults⟩ 1 0 onesRng).2
      ∧ (linkedInRunSimulationState ⟨[lC1Camp], lJunkResults⟩ 1 0 onesRng).2
        = (linkedInRunSimulationState ⟨[lC1Camp],
          ⟨[], ⟨0, 0, 0, 0, 0, 0⟩, [], 0⟩⟩ 1 0 onesRng).2
      ∧ ∀ p ∈ (linkedInRunSimulationState ⟨[lC1Camp], lJunkResults⟩ 1 0
            onesRng).2.campaigns,
          p.1 ∈ (LinkedInState.campaigns ⟨[lC1Camp], lJunkResults⟩).map
            LinkedInCampaign.id) :=
  C10_fresh_envelope ⟨[gC2Camp], gJunkResults⟩
    ⟨[gC2Camp], ⟨[], ⟨0, 0, 0, 0, 0, 0⟩, [], 0⟩⟩
    ⟨[fC3Camp], [("aud1", fC3Aud)], fJunkResults⟩
    ⟨[fC3Camp], [("aud1", fC3Aud)], ⟨[], ⟨0, 0, 0, 0, 0, 0, 0⟩, [], 0⟩⟩
    ⟨[lC1Camp], lJunkResults⟩ ⟨[lC1Camp], ⟨[], ⟨0, 0, 0, 0, 0, 0⟩, [], 0⟩⟩
    1 0 onesRng onesRng onesRng rfl rfl rfl rfl

end ContinuumAds
